import Mathlib

/-!
# ffmpegfs: the memory mapped cache buffer (src/buffer.cc)

A shallow embedding of class Buffer.  The object's fields are a record, the
part of the operating system the class talks to (the cache file, the
descriptor open on it, the shared mapping of it, errno) is a second record
that every member function threads through, and the outcome of each system
call that may fail for reasons outside the program is read from a third
record.  size_t values are naturals below 2^64, off_t values are integers in
the signed 64 bit range, pointers are addresses with 0 for nullptr.
-/

namespace Ffmpegfs

/-! ## Machine level constants -/

/-- One octet of buffer content (uint8_t). -/
abbrev Byte := Fin 256

/-- Number of values of a size_t or of a pointer: 2^64. -/
abbrev SIZE_MOD : Nat := 18446744073709551616

/-- Number of non negative values of an off_t: 2^63. -/
abbrev OFF_HALF : Nat := 9223372036854775808

/-- The null pointer. -/
abbrev nullptr : Nat := 0

/-- The value mmap and mremap return on failure: (void *) -1. -/
abbrev MAP_FAILED : Nat := 18446744073709551615

/-- The stdio end of file value, returned by seek on failure. -/
abbrev EOF : Int := -1

abbrev SEEK_SET : Int := 0
abbrev SEEK_CUR : Int := 1
abbrev SEEK_END : Int := 2

abbrev EPERM : Int := 1
abbrev ENOENT : Int := 2
abbrev EBADF : Int := 9
abbrev ENOMEM : Int := 12
abbrev EFAULT : Int := 14
abbrev EEXIST : Int := 17
abbrev EINVAL : Int := 22
abbrev ESPIPE : Int := 29

/-- The conversion static_cast<off_t>(n) of a size_t: values from 2^63 on
    come out negative. -/
def toOff (n : Nat) : Int :=
  if n % SIZE_MOD < OFF_HALF then ((n % SIZE_MOD : Nat) : Int)
  else ((n % SIZE_MOD : Nat) : Int) - (SIZE_MOD : Int)

/-- Signed 64 bit addition as the hardware performs it (two's complement
    wrap around). -/
def addOff (x y : Int) : Int :=
  (x + y + (OFF_HALF : Int)) % (SIZE_MOD : Int) - (OFF_HALF : Int)

/-- The conversion static_cast<size_t>(x) of an off_t. -/
def toSize (x : Int) : Nat := (x % (SIZE_MOD : Int)).toNat

/-! ## The operating system as the class sees it -/

/-- A live shared mapping: its base address and its length in bytes. -/
structure Mapping where
  base : Nat
  len : Nat
deriving DecidableEq, Repr

/-- The content of a regular file: its length and the byte at each offset
    (zero from the length on). -/
structure FileData where
  len : Nat
  byte : Nat → Byte

namespace FileData

/-- The file of length zero. -/
def empty : FileData := { len := 0, byte := fun _ => 0 }

/-- The file that holds the given bytes. -/
def ofList (c : List Byte) : FileData := { len := c.length, byte := fun i => c.getD i 0 }

/-- The n bytes of the file from offset off on. -/
def read (f : FileData) (off n : Nat) : List Byte :=
  (List.range n).map (fun i => f.byte (off + i))

/-- The file with the bytes data stored from offset off on. -/
def store (f : FileData) (off : Nat) (data : List Byte) : FileData :=
  { len := f.len,
    byte := fun i => if off ≤ i ∧ i < off + data.length then data.getD (i - off) 0 else f.byte i }

/-- The file after its length was set to n: cut, or padded with zero bytes. -/
def resize (f : FileData) (n : Nat) : FileData :=
  { len := n, byte := fun i => if i < f.len ∧ i < n then f.byte i else 0 }

end FileData

/-- The part of the process and file system state that class Buffer reads and
    changes: the cache file (none when no file exists at the cache path), the
    descriptor open on it, the mapping of it and errno.  The mapping is
    MAP_SHARED, so the bytes seen through it are the bytes of the file. -/
structure World where
  file : Option FileData
  fd : Option Int
  map : Option Mapping
  errno : Int

/-- Outcomes of the calls whose success the program cannot influence, for the
    duration of one member function call. -/
structure Sys where
  pagesize : Nat
  strdup_ok : Bool
  mktree_err : Option Int
  open_ret : Int
  fstat_ok : Bool
  is_reg : Bool
  ftruncate_ok : Bool
  mmap_ret : Nat
  mremap_ret : Nat
  msync_ok : Bool
  munmap_ok : Bool
  unlink_ok : Bool
  err : Int
deriving DecidableEq, Repr

/-- Model of ftruncate(fd, length): needs the descriptor of the cache file and
    a non negative length; returns 0 or -1. -/
def sys_ftruncate (w : World) (sys : Sys) (fd : Int) (length : Int) : Int × World :=
  match w.file with
  | some bytes =>
    if w.fd = some fd ∧ fd ≠ -1 then
      if 0 ≤ length then
        if sys.ftruncate_ok then (0, { w with file := some (bytes.resize length.toNat) })
        else (-1, { w with errno := sys.err })
      else (-1, { w with errno := EINVAL })
    else (-1, { w with errno := EBADF })
  | none => (-1, { w with errno := EBADF })

/-- Model of mremap(old_address, old_size, new_size, MREMAP_MAYMOVE): on
    success the file is mapped at the returned address with the new length, on
    failure MAP_FAILED is returned and the mapping is untouched. -/
def sys_mremap (w : World) (sys : Sys) (old_address old_size new_size : Nat) : Nat × World :=
  match w.map with
  | some m =>
    if m.base = old_address ∧ old_size ≤ m.len then
      if new_size ≠ 0 ∧ sys.mremap_ret ≠ nullptr ∧ sys.mremap_ret + new_size < SIZE_MOD then
        (sys.mremap_ret, { w with map := some { base := sys.mremap_ret, len := new_size } })
      else (MAP_FAILED, { w with errno := if new_size = 0 then EINVAL else sys.err })
    else (MAP_FAILED, { w with errno := EFAULT })
  | none => (MAP_FAILED, { w with errno := EFAULT })

/-- Model of memcpy(dst, data, n) with dst inside the mapping: the bytes land
    in the shared file.  No result when part of the target range lies outside
    the live mapping or behind the end of the file (undefined behaviour, a
    fault). -/
def memcpy_to (w : World) (dst : Nat) (data : List Byte) : Option World :=
  match w.map, w.file with
  | some m, some bytes =>
    if m.base ≤ dst ∧ dst + data.length ≤ m.base + m.len
        ∧ (dst - m.base) + data.length ≤ bytes.len then
      some { w with file := some (bytes.store (dst - m.base) data) }
    else none
  | _, _ => none

/-- Model of memcpy(out, src, n) with src inside the mapping and out a caller
    buffer holding the bytes out_data: the new content of the caller buffer.
    No result when the source range leaves the live mapping or the file, or
    when n exceeds the caller buffer. -/
def memcpy_from (w : World) (out_data : List Byte) (src n : Nat) : Option (List Byte) :=
  match w.map, w.file with
  | some m, some bytes =>
    if m.base ≤ src ∧ src + n ≤ m.base + m.len ∧ (src - m.base) + n ≤ bytes.len
        ∧ n ≤ out_data.length then
      some (bytes.read (src - m.base) n ++ out_data.drop n)
    else none
  | _, _ => none

/-- Model of open(path, O_CREAT | O_RDWR, 0644) on the cache path: creates an
    empty file when there is none; returns the descriptor or -1. -/
def sys_open (w : World) (sys : Sys) : Int × World :=
  if sys.open_ret < 0 then (-1, { w with errno := sys.err })
  else (sys.open_ret, { w with file := some (w.file.getD FileData.empty), fd := some sys.open_ret })

/-- Model of close(fd). -/
def sys_close (w : World) (fd : Int) : World :=
  if w.fd = some fd then { w with fd := none } else { w with errno := EBADF }

/-- Model of fstat(fd, &sb): the file size st_size, or nothing on failure. -/
def sys_fstat (w : World) (sys : Sys) (fd : Int) : Option Nat × World :=
  match w.file with
  | some bytes =>
    if w.fd = some fd then
      if sys.fstat_ok then (some bytes.len, w) else (none, { w with errno := sys.err })
    else (none, { w with errno := EBADF })
  | none => (none, { w with errno := EBADF })

/-- Model of mmap(nullptr, length, PROT_READ | PROT_WRITE, MAP_SHARED, fd, 0):
    the base address of the new mapping or MAP_FAILED. -/
def sys_mmap (w : World) (sys : Sys) (length : Nat) (fd : Int) : Nat × World :=
  if w.fd = some fd then
    if length ≠ 0 ∧ sys.mmap_ret ≠ nullptr ∧ sys.mmap_ret + length < SIZE_MOD then
      (sys.mmap_ret, { w with map := some { base := sys.mmap_ret, len := length } })
    else (MAP_FAILED, { w with errno := if length = 0 then EINVAL else sys.err })
  else (MAP_FAILED, { w with errno := EBADF })

/-- Model of unlink(path) on the cache path: 0 or -1. -/
def sys_unlink (w : World) (sys : Sys) : Int × World :=
  match w.file with
  | none => (-1, { w with errno := ENOENT })
  | some _ =>
    if sys.unlink_ok then (0, { w with file := none }) else (-1, { w with errno := sys.err })

/-- Model of mktree(dirname(cachefile), mode): 0, or -1 with errno set. -/
def sys_mktree (w : World) (sys : Sys) : Int × World :=
  match sys.mktree_err with
  | none => (0, w)
  | some e => (-1, { w with errno := e })

/-- The length n rounded up to whole pages. -/
def page_round (n pagesize : Nat) : Nat :=
  if pagesize = 0 then n else (n + pagesize - 1) / pagesize * pagesize

/-- Model of munmap(addr, length): the pages that hold [addr, addr + length)
    leave the address space; what the mapping has behind them stays mapped.
    Returns 0 or -1; a length of 0 is refused with EINVAL. -/
def sys_munmap (w : World) (sys : Sys) (addr length : Nat) : Int × World :=
  if length = 0 then (-1, { w with errno := EINVAL })
  else if !sys.munmap_ok then (-1, { w with errno := sys.err })
  else
    match w.map with
    | some m =>
      if m.base = addr then
        (0, { w with
              map := if page_round length sys.pagesize < m.len
                     then some { base := addr + page_round length sys.pagesize,
                                 len := m.len - page_round length sys.pagesize }
                     else none })
      else (0, w)
    | none => (0, w)

/-- Model of msync(addr, length, MS_SYNC): 0 or -1; a range that is not mapped
    is refused with ENOMEM. -/
def sys_msync (w : World) (sys : Sys) (addr length : Nat) : Int × World :=
  match w.map with
  | some m =>
    if m.base = addr ∧ length ≤ m.len then
      if sys.msync_ok then (0, w) else (-1, { w with errno := sys.err })
    else (-1, { w with errno := ENOMEM })
  | none => (-1, { w with errno := ENOMEM })

/-! ## Flags of release -/

/-- The macro CACHE_CHECK_BIT(mask, var) of buffer.h. -/
def CACHE_CHECK_BIT (mask var : Nat) : Bool := mask == (mask &&& var)

/-- Modelled from the spec: the flag constant CACHE_CLOSE_DELETE that
    Buffer::release tests is not defined under src/ (release takes a
    delete_after flag in the spec); the value is the one buffer.h gives the
    constant under its older name CLOSE_CACHE_DELETE, 0x02 | CLOSE_CACHE_FREE
    with CLOSE_CACHE_FREE = 0x01. -/
def CACHE_CLOSE_DELETE : Nat := 0x02 ||| 0x01

/-- Modelled from the spec: the default flag value CACHE_CLOSE_NOOPT of
    Buffer::release, not defined under src/; buffer.h has it as
    CLOSE_CACHE_NOOPT = 0x00. -/
def CACHE_CLOSE_NOOPT : Nat := 0x00

/-! ## Class Buffer -/

/-- The data members of class Buffer. -/
structure Buffer where
  m_buffer_pos : Nat
  m_buffer_watermark : Nat
  m_buffer_size : Nat
  m_buffer : Nat
  m_fd : Int
deriving DecidableEq, Repr

/-- What a member function leaves behind: its return value, the object and
    the operating system state. -/
structure Ret (α : Type) where
  val : α
  buf : Buffer
  os : World

namespace Buffer

/-- Buffer::tell. -/
def tell (b : Buffer) : Nat := b.m_buffer_pos

/-- Buffer::size. -/
def size (b : Buffer) : Nat := b.m_buffer_size

/-- Buffer::buffer_watermark. -/
def buffer_watermark (b : Buffer) : Nat := b.m_buffer_watermark

/-- Buffer::reserve. -/
def reserve (b : Buffer) (w : World) (sys : Sys) (size : Nat) : Ret Bool :=
  if b.m_buffer = nullptr then
    { val := false, buf := b, os := { w with errno := EBADF } }
  else
    let size := if size = 0 then b.m_buffer_size else size
    let mr := sys_mremap w sys b.m_buffer b.m_buffer_size size
    let b1 : Buffer := { b with m_buffer := mr.1 }
    let b2 : Buffer := if b1.m_buffer ≠ nullptr then { b1 with m_buffer_size := size } else b1
    let ft := sys_ftruncate mr.2 sys b2.m_fd (toOff b2.m_buffer_size)
    let success : Bool := decide (ft.1 ≠ -1)
    { val := decide (b2.m_buffer ≠ nullptr) && success, buf := b2, os := ft.2 }

/-- Buffer::reallocate. -/
def reallocate (b : Buffer) (w : World) (sys : Sys) (newsize : Nat) : Ret Bool :=
  if newsize > b.size then
    let r := b.reserve w sys newsize
    if !r.val then { val := false, buf := r.buf, os := r.os }
    else { val := true, buf := r.buf, os := r.os }
  else { val := true, buf := b, os := w }

/-- Buffer::write_prepare: the returned value is the write pointer, nullptr
    when the buffer could not be grown. -/
def write_prepare (b : Buffer) (w : World) (sys : Sys) (length : Nat) : Ret Nat :=
  let r := b.reallocate w sys ((b.m_buffer_pos + length) % SIZE_MOD)
  if r.val then
    let b1 := r.buf
    let b2 : Buffer :=
      if b1.m_buffer_watermark < (b1.m_buffer_pos + length) % SIZE_MOD then
        { b1 with m_buffer_watermark := (b1.m_buffer_pos + length) % SIZE_MOD }
      else b1
    { val := (b2.m_buffer + b2.m_buffer_pos) % SIZE_MOD, buf := b2, os := r.os }
  else
    { val := nullptr, buf := r.buf, os := { r.os with errno := ESPIPE } }

/-- Buffer::increment_pos. -/
def increment_pos (b : Buffer) (increment : Nat) : Buffer :=
  { b with m_buffer_pos := (b.m_buffer_pos + increment) % SIZE_MOD }

/-- Buffer::write, called with the bytes data and length = data.length.  No
    result when the memcpy faults. -/
def write (b : Buffer) (w : World) (sys : Sys) (data : List Byte) : Option (Ret Nat) :=
  if b.m_buffer = nullptr then
    some { val := 0, buf := b, os := { w with errno := EBADF } }
  else
    let wp := b.write_prepare w sys data.length
    if wp.val = nullptr then
      some { val := 0, buf := wp.buf, os := wp.os }
    else
      match memcpy_to wp.os wp.val data with
      | none => none
      | some w2 => some { val := data.length, buf := wp.buf.increment_pos data.length, os := w2 }

/-- Buffer::is_open: the descriptor is set and fcntl(m_fd, F_GETFL) accepts
    it.  A descriptor fcntl rejects leaves EBADF in errno. -/
def is_open (b : Buffer) (w : World) : Bool × World :=
  if b.m_fd ≠ -1 then
    if w.fd = some b.m_fd then (true, w) else (false, { w with errno := EBADF })
  else (false, w)

/-- Buffer::remove_file (and with it Buffer::remove_cachefile, which calls it
    on the cache path). -/
def remove_file (w : World) (sys : Sys) : Bool × World :=
  let u := sys_unlink w sys
  if u.1 ≠ 0 ∧ u.2.errno ≠ ENOENT then (false, u.2)
  else (true, { u.2 with errno := 0 })

/-- The variables Buffer::map_file receives by pointer. -/
structure MapVars where
  fd : Int
  p : Nat
  filesize : Nat
  isdefaultsize : Bool
deriving DecidableEq, Repr

/-- The catch block of Buffer::map_file: close the descriptor if one was
    opened. -/
def map_file_catch (v : MapVars) (w : World) : Bool × MapVars × World :=
  if v.fd ≠ -1 then (false, { v with fd := -1 }, sys_close w v.fd) else (false, v, w)

/-- The last step of Buffer::map_file: map the file. -/
def map_file_mmap (w : World) (sys : Sys) (v : MapVars) : Bool × MapVars × World :=
  let mm := sys_mmap w sys v.filesize v.fd
  let v1 : MapVars := { v with p := mm.1 }
  if mm.1 = MAP_FAILED then map_file_catch v1 mm.2 else (true, v1, mm.2)

/-- Buffer::map_file. -/
def map_file (w : World) (sys : Sys) (v : MapVars) (defaultsize : Int) :
    Bool × MapVars × World :=
  let o := sys_open w sys
  let v1 : MapVars := { v with fd := o.1 }
  if o.1 = -1 then map_file_catch v1 o.2
  else
    match sys_fstat o.2 sys v1.fd with
    | (none, w2) => map_file_catch v1 w2
    | (some st_size, w2) =>
      if !sys.is_reg then map_file_catch v1 w2
      else if st_size = 0 ∨ v1.isdefaultsize = true then
        let defaultsize : Int := if defaultsize = 0 then (sys.pagesize : Int) else defaultsize
        let ft := sys_ftruncate w2 sys v1.fd defaultsize
        if ft.1 = -1 then map_file_catch v1 ft.2
        else map_file_mmap ft.2 sys { v1 with filesize := toSize defaultsize, isdefaultsize := true }
      else map_file_mmap w2 sys { v1 with filesize := st_size, isdefaultsize := false }

/-- The catch block of Buffer::init: every field back to its closed value. -/
def init_catch (w : World) : Ret Bool :=
  { val := false,
    buf := { m_buffer_pos := 0, m_buffer_watermark := 0, m_buffer_size := 0,
             m_buffer := nullptr, m_fd := -1 },
    os := w }

/-- Buffer::init. -/
def init (b : Buffer) (w : World) (sys : Sys) (erase_cache : Bool) : Ret Bool :=
  let io := b.is_open w
  if io.1 then { val := true, buf := b, os := io.2 }
  else if !sys.strdup_ok then init_catch { io.2 with errno := ENOMEM }
  else
    let mk := sys_mktree io.2 sys
    if mk.1 ≠ 0 ∧ mk.2.errno ≠ EEXIST then init_catch mk.2
    else
      let w1 : World := { mk.2 with errno := 0 }
      let w2 : World := if erase_cache then { (remove_file w1 sys).2 with errno := 0 } else w1
      let mf := map_file w2 sys { fd := -1, p := nullptr, filesize := 0, isdefaultsize := false } 0
      if !mf.1 then init_catch mf.2.2
      else
        let filesize := mf.2.1.filesize
        let b1 : Buffer := { m_buffer_pos := 0, m_buffer_watermark := 0, m_buffer_size := 0,
                             m_buffer := nullptr, m_fd := mf.2.1.fd }
        let b2 : Buffer :=
          if !mf.2.1.isdefaultsize then
            { b1 with m_buffer_pos := filesize, m_buffer_watermark := filesize }
          else b1
        { val := true, buf := { b2 with m_buffer_size := filesize, m_buffer := mf.2.1.p },
          os := mf.2.2 }

/-- The switch of Buffer::seek: the target position seek_pos, nothing for an
    unknown whence. -/
def seek_target (b : Buffer) (offset : Int) (whence : Int) : Option Int :=
  if whence = SEEK_SET then some offset
  else if whence = SEEK_CUR then some (addOff (toOff b.tell) offset)
  else if whence = SEEK_END then some (addOff (toOff b.size) offset)
  else none

/-- Buffer::seek. -/
def seek (b : Buffer) (w : World) (offset : Int) (whence : Int) : Ret Int :=
  if b.m_buffer = nullptr then
    { val := EOF, buf := b, os := { w with errno := EBADF } }
  else
    match b.seek_target offset whence with
    | none => { val := EOF, buf := b, os := { w with errno := EINVAL } }
    | some seek_pos =>
      if seek_pos > toOff b.size then
        { val := 0, buf := { b with m_buffer_pos := b.size }, os := w }
      else if seek_pos < 0 then
        { val := EOF, buf := b, os := { w with errno := EINVAL } }
      else
        { val := 0, buf := { b with m_buffer_pos := toSize seek_pos }, os := w }

/-- The number of bytes Buffer::copy hands to memcpy: bufsize, or
    size() - offset - 1 in size_t arithmetic when offset + bufsize lies behind
    size().  Only used with offset <= size(). -/
def copy_bufsize (b : Buffer) (offset bufsize : Nat) : Nat :=
  if b.size < (offset + bufsize) % SIZE_MOD then (b.size - offset + SIZE_MOD - 1) % SIZE_MOD
  else bufsize

/-- Buffer::copy(uint8_t *, size_t, size_t), called on a caller buffer that
    holds out_data.  The value is the returned flag together with the caller
    buffer afterwards; no result when the memcpy faults. -/
def copy (b : Buffer) (w : World) (out_data : List Byte) (offset bufsize : Nat) :
    Option (Ret (Bool × List Byte)) :=
  if b.m_buffer = nullptr then
    some { val := (false, out_data), buf := b, os := { w with errno := EBADF } }
  else if b.size ≥ offset then
    match memcpy_from w out_data ((b.m_buffer + offset) % SIZE_MOD)
        (b.copy_bufsize offset bufsize) with
    | none => none
    | some out => some { val := (true, out), buf := b, os := w }
  else
    some { val := (false, out_data), buf := b, os := { w with errno := ESPIPE } }

/-- Buffer::flush. -/
def flush (b : Buffer) (w : World) (sys : Sys) : Ret Bool :=
  if b.m_buffer ≠ nullptr then
    let ms := sys_msync w sys b.m_buffer b.m_buffer_size
    if ms.1 = -1 then { val := false, buf := b, os := ms.2 }
    else { val := true, buf := b, os := ms.2 }
  else { val := false, buf := b, os := { w with errno := EPERM } }

/-- Buffer::clear. -/
def clear (b : Buffer) (w : World) (sys : Sys) : Ret Bool :=
  if b.m_buffer = nullptr then
    { val := false, buf := b, os := { w with errno := EBADF } }
  else
    let b1 : Buffer := { b with m_buffer_pos := 0, m_buffer_watermark := 0, m_buffer_size := 0 }
    let filesize : Int := (sys.pagesize : Int)
    if b1.m_fd ≠ -1 then
      let ft := sys_ftruncate w sys b1.m_fd filesize
      if ft.1 = -1 then { val := false, buf := b1, os := ft.2 }
      else { val := true, buf := b1, os := ft.2 }
    else { val := true, buf := b1, os := w }

/-- The variables Buffer::unmap_file receives by pointer; buffer_pos may be a
    null pointer (nothing). -/
structure UnmapVars where
  fd : Int
  p : Nat
  filesize : Nat
  buffer_pos : Option Nat
deriving DecidableEq, Repr

/-- Buffer::unmap_file.  The statement p = nullptr assigns the parameter, not
    the pointer it points to, so the caller's p keeps its value. -/
def unmap_file (w : World) (sys : Sys) (v : UnmapVars) : Bool × UnmapVars × World :=
  let v1 : UnmapVars :=
    { v with filesize := 0, buffer_pos := v.buffer_pos.map (fun _ => 0), fd := -1 }
  let mu : Bool × World :=
    if v.p ≠ nullptr then
      let r := sys_munmap w sys v.p (if v.filesize ≠ 0 then v.filesize else sys.pagesize % SIZE_MOD)
      (decide (r.1 ≠ -1), r.2)
    else (true, w)
  if v.fd ≠ -1 then
    if v.filesize ≠ 0 then
      let ft := sys_ftruncate mu.2 sys v.fd (toOff v.filesize)
      (mu.1 && decide (ft.1 ≠ -1), v1, sys_close ft.2 v.fd)
    else
      let u := sys_unlink (sys_close mu.2 v.fd) sys
      (mu.1 && decide (u.1 = 0), v1, u.2)
  else (mu.1, v1, mu.2)

/-- Buffer::release. -/
def release (b : Buffer) (w : World) (sys : Sys) (flags : Nat) : Ret Bool :=
  let io := b.is_open w
  if !io.1 then
    if CACHE_CHECK_BIT CACHE_CLOSE_DELETE flags then
      { val := true, buf := b, os := { (remove_file io.2 sys).2 with errno := 0 } }
    else { val := true, buf := b, os := io.2 }
  else
    let fl := b.flush io.2 sys
    let um := unmap_file fl.os sys
      { fd := b.m_fd, p := b.m_buffer, filesize := b.m_buffer_watermark,
        buffer_pos := some b.m_buffer_pos }
    let b1 : Buffer :=
      { b with m_fd := um.2.1.fd, m_buffer := um.2.1.p,
               m_buffer_watermark := um.2.1.filesize,
               m_buffer_pos := um.2.1.buffer_pos.getD b.m_buffer_pos }
    let w2 : World :=
      if CACHE_CHECK_BIT CACHE_CLOSE_DELETE flags then
        { (remove_file um.2.2 sys).2 with errno := 0 }
      else um.2.2
    { val := um.1, buf := b1, os := w2 }

/-- Buffer::copy(std::vector<uint8_t> *, size_t): the three argument copy on
    the storage of the vector, with its size as the length. -/
def copy_vector (b : Buffer) (w : World) (out_data : List Byte) (offset : Nat) :
    Option (Ret (Bool × List Byte)) :=
  b.copy w out_data offset out_data.length

/-- Buffer::make_cachefile_name; the value is the string that cachefile holds
    at the return.  The helper transcoder_cache_path and the global
    params.m_mountpath are not defined under src/ and are parameters: the
    helper as the function from the string it is handed to the string it
    leaves in it. -/
def make_cachefile_name (transcoder_cache_path : String → String) (m_mountpath : String)
    (cachefile filename fileext : String) : String :=
  let cachefile := transcoder_cache_path cachefile
  let cachefile := cachefile ++ m_mountpath
  let cachefile := cachefile ++ filename
  let cachefile := cachefile ++ ".cache."
  let cachefile := cachefile ++ fileext
  cachefile

end Buffer

/-! ## States and runs the statements speak about -/

/-- An open store: the descriptor is the one open on the cache file, the base
    address is that of the live mapping, and the mapping and the file both
    cover size() bytes.  File lengths are off_t values, hence below 2^63. -/
def OpenStore (b : Buffer) (w : World) : Prop :=
  match w.map, w.file with
  | some m, some bytes =>
    b.m_buffer ≠ nullptr ∧ m.base = b.m_buffer ∧ b.m_fd ≠ -1 ∧ w.fd = some b.m_fd
      ∧ b.m_buffer_size ≤ m.len ∧ b.m_buffer_size ≤ bytes.len
      ∧ m.base + m.len < SIZE_MOD ∧ bytes.len < OFF_HALF
  | _, _ => False

instance instDecidableOpenStore (b : Buffer) (w : World) : Decidable (OpenStore b w) := by
  unfold OpenStore
  split <;> infer_instance

/-- Both system calls of a reserve(n) go through: the mremap does not return
    MAP_FAILED and the ftruncate that follows returns 0. -/
def GrowthSucceeds (b : Buffer) (w : World) (sys : Sys) (n : Nat) : Prop :=
  (sys_mremap w sys b.m_buffer b.m_buffer_size n).1 ≠ MAP_FAILED
    ∧ (sys_ftruncate (sys_mremap w sys b.m_buffer b.m_buffer_size n).2 sys b.m_fd (toOff n)).1 = 0

instance instDecidableGrowthSucceeds (b : Buffer) (w : World) (sys : Sys) (n : Nat) :
    Decidable (GrowthSucceeds b w sys n) := by
  unfold GrowthSucceeds
  infer_instance

/-- A client that only appends: the writes of the list are issued one after
    the other, each in its own call environment, with no other call in
    between.  The value is the list of the values the writes returned. -/
def write_all (b : Buffer) (w : World) : List (Sys × List Byte) → Option (Ret (List Nat))
  | [] => some { val := [], buf := b, os := w }
  | step :: rest =>
    match b.write w step.1 step.2 with
    | none => none
    | some r =>
      match write_all r.buf r.os rest with
      | none => none
      | some r2 => some { val := r.val :: r2.val, buf := r2.buf, os := r2.os }

/-- Every write of the run write_all succeeds: in the state in which it is
    issued, position plus length fits a size_t and the growth it needs,
    if any, goes through. -/
def writes_succeed (b : Buffer) (w : World) : List (Sys × List Byte) → Bool
  | [] => true
  | step :: rest =>
    decide (b.tell + step.2.length < SIZE_MOD)
    && decide (b.size < b.tell + step.2.length →
                GrowthSucceeds b w step.1 (b.tell + step.2.length))
    && (match b.write w step.1 step.2 with
        | none => true
        | some r => writes_succeed r.buf r.os rest)

/-- Buffer::Buffer(): the closed store a constructor call leaves. -/
def Buffer.construct : Buffer :=
  { m_buffer_pos := 0, m_buffer_watermark := 0, m_buffer_size := 0, m_buffer := nullptr, m_fd := -1 }

/-- An operating system state in which the cache file does not exist and the
    process holds neither a descriptor nor a mapping of it. -/
def noFile : World := { file := none, fd := none, map := none, errno := 0 }

/-- A call environment with 4096 byte pages in which every system call
    succeeds; open returns descriptor 3, mmap and mremap return the given
    addresses. -/
def allOk : Sys :=
  { pagesize := 4096, strdup_ok := true, mktree_err := none, open_ret := 3, fstat_ok := true,
    is_reg := true, ftruncate_ok := true, mmap_ret := 1048576, mremap_ret := 2097152,
    msync_ok := true, munmap_ok := true, unlink_ok := true, err := 5 }

/-- A freshly opened empty store: init(false) on a constructed object when no
    cache file exists. -/
def fresh : Ret Bool := Buffer.construct.init noFile allOk false

/-- An operating system state in which the cache file holds the four bytes
    10, 20, 30, 40 and is neither open nor mapped. -/
def smallFile : World :=
  { file := some (FileData.ofList [10, 20, 30, 40]), fd := none, map := none, errno := 0 }

/-- A store reopened on the four byte cache file: init(false) on a constructed
    object. -/
def reopened : Ret Bool := Buffer.construct.init smallFile allOk false

/-- The ten bytes "0123456789". -/
def digits : List Byte := [48, 49, 50, 51, 52, 53, 54, 55, 56, 57]

/-- The three bytes "ABC". -/
def abc : List Byte := [65, 66, 67]

/-- The freshly opened one page store after the ten bytes "0123456789" were
    written into it: logical size 10, mapped size 4096. -/
def tenWritten : Ret Nat :=
  (fresh.buf.write fresh.os allOk digits).getD { val := 0, buf := fresh.buf, os := fresh.os }

/-- What the overwrite scenario observes. -/
structure OverwriteTrace where
  tell1 : Nat
  watermark1 : Nat
  seek_ret : Int
  tell2 : Nat
  watermark2 : Nat
  copy_ret : Bool
  dest : List Byte
deriving DecidableEq, Repr

/-- The overwrite scenario: init on the store b0, write "0123456789", read
    tell() and buffer_watermark(), seek(5, SEEK_SET), write "ABC", read both
    again, copy(dest, 0, 10).  Each call runs in its own environment. -/
def overwrite_scenario (b0 : Buffer) (w0 : World) (s0 s1 s2 : Sys) (erase_cache : Bool)
    (dest : List Byte) : Option OverwriteTrace :=
  let r0 := b0.init w0 s0 erase_cache
  match r0.buf.write r0.os s1 digits with
  | none => none
  | some r1 =>
    let r2 := r1.buf.seek r1.os 5 SEEK_SET
    match r2.buf.write r2.os s2 abc with
    | none => none
    | some r3 =>
      match r3.buf.copy r3.os dest 0 10 with
      | none => none
      | some r4 =>
        some { tell1 := r1.buf.tell, watermark1 := r1.buf.buffer_watermark, seek_ret := r2.val,
               tell2 := r3.buf.tell, watermark2 := r3.buf.buffer_watermark,
               copy_ret := r4.val.1, dest := r4.val.2 }

/-- One call of a public operation of an open store, with the environment it
    runs in. -/
inductive Op where
  | write (sys : Sys) (data : List Byte)
  | seek (offset whence : Int)
  | copy (out_data : List Byte) (offset bufsize : Nat)
  | flush (sys : Sys)
  | clear (sys : Sys)
  | reserve (sys : Sys) (size : Nat)

/-- The object and the operating system state after the call; nothing when
    the call faults. -/
def Op.run (b : Buffer) (w : World) : Op → Option (Buffer × World)
  | .write sys data => (b.write w sys data).map (fun r => (r.buf, r.os))
  | .seek offset whence => some ((b.seek w offset whence).buf, (b.seek w offset whence).os)
  | .copy out_data offset bufsize =>
    (b.copy w out_data offset bufsize).map (fun r => (r.buf, r.os))
  | .flush sys => some ((b.flush w sys).buf, (b.flush w sys).os)
  | .clear sys => some ((b.clear w sys).buf, (b.clear w sys).os)
  | .reserve sys size => some ((b.reserve w sys size).buf, (b.reserve w sys size).os)

/-- The state after a sequence of calls; nothing when one of them faults. -/
def run_ops (b : Buffer) (w : World) : List Op → Option (Buffer × World)
  | [] => some (b, w)
  | op :: rest =>
    match op.run b w with
    | none => none
    | some s => run_ops s.1 s.2 rest

/-- Every call of the sequence passes the test guard in the state in which it
    is issued. -/
def ops_pass (guard : Buffer → World → Op → Bool) (b : Buffer) (w : World) : List Op → Bool
  | [] => true
  | op :: rest =>
    guard b w op
    && (match op.run b w with
        | none => true
        | some s => ops_pass guard s.1 s.2 rest)

/-- The call is not a reserve to a size below the logical size: reserve(0)
    keeps the current size, every other reserve(n) has n >= buffer_watermark(). -/
def keeps_content (b : Buffer) (_w : World) : Op → Bool
  | .reserve _ size => decide (size = 0 ∨ b.buffer_watermark ≤ size)
  | _ => true

/-- The call is not a clear and the system calls it makes go through: a write
    fits a size_t and has its growth, if any, succeed; a reserve asks for a
    size_t and has both its mremap and its ftruncate succeed. -/
def goes_through (b : Buffer) (w : World) : Op → Bool
  | .write sys data =>
    decide (b.tell + data.length < SIZE_MOD)
    && decide (b.size < b.tell + data.length → GrowthSucceeds b w sys (b.tell + data.length))
  | .reserve sys size =>
    decide (size < SIZE_MOD)
    && decide (GrowthSucceeds b w sys (if size = 0 then b.size else size))
  | .clear _ => false
  | _ => true

/-- The result of release(CACHE_CLOSE_NOOPT) on the one page store holding ten
    bytes, every system call succeeding. -/
def released : Ret Bool := tenWritten.buf.release tenWritten.os allOk CACHE_CLOSE_NOOPT

/-- A call environment like allOk in which unlink fails with EACCES (13). -/
def unlinkDenied : Sys := { allOk with unlink_ok := false, err := 13 }

/-- The calls an init makes before it maps the file go through: new_strdup,
    mktree (or the directory exists), open, fstat, the file is a regular file,
    and mmap has an address to return. -/
def Sys.opens (sys : Sys) : Prop :=
  sys.strdup_ok = true ∧ (sys.mktree_err = none ∨ sys.mktree_err = some EEXIST)
    ∧ 0 ≤ sys.open_ret ∧ sys.fstat_ok = true ∧ sys.is_reg = true ∧ sys.mmap_ret ≠ nullptr

instance instDecidableSysOpens (sys : Sys) : Decidable sys.opens := by
  unfold Sys.opens
  infer_instance

/-- The open state the data model describes: an open store whose mapped size
    is positive and equal to the length of the cache file. -/
def OpenExact (b : Buffer) (w : World) : Prop :=
  OpenStore b w ∧ 0 < b.size ∧ ∃ f, w.file = some f ∧ f.len = b.size

/-- Modelled from the spec: the helper transcoder_cache_path(path), which is
    not defined under src/.  The spec has the backing path start with the
    configured cache-root directory, so the helper leaves the cache root in
    path whatever path held before. -/
def configured_cache_path (cache_root : String) (_path : String) : String := cache_root

/-- A call environment like allOk in which mremap fails with ENOMEM (12): it
    has no address to return but MAP_FAILED. -/
def remapFails : Sys := { allOk with mremap_ret := MAP_FAILED, err := 12 }

/-- A call environment like allOk in which msync fails with EIO (5). -/
def syncFails : Sys := { allOk with msync_ok := false }

/-- A call environment like allOk in which fstat fails with EIO (5). -/
def statFails : Sys := { allOk with fstat_ok := false }

/-- The size fstat reports to an init(erase_cache) whose open succeeds: the
    length of the cache file the erase step left, 0 for a file that open had
    to create. -/
def found_size (w : World) (sys : Sys) (erase_cache : Bool) : Nat :=
  ((if erase_cache then (Buffer.remove_file w sys).2.file else w.file).getD FileData.empty).len

/-- One of the calls of an init on a closed store fails: mktree (for another
    reason than an existing directory), open, fstat, the regular file test,
    the ftruncate of an empty file to one page, or mmap (which has no address
    to return). -/
def InitCallFails (w : World) (sys : Sys) (erase_cache : Bool) : Prop :=
  (∃ e, sys.mktree_err = some e ∧ e ≠ EEXIST) ∨ sys.open_ret < 0 ∨ sys.fstat_ok = false
    ∨ sys.is_reg = false ∨ (found_size w sys erase_cache = 0 ∧ sys.ftruncate_ok = false)
    ∨ sys.mmap_ret = nullptr

/-! ## Arithmetic of the integer conversions -/

open Buffer

theorem toOff_of_lt {n : Nat} (h : n < OFF_HALF) : toOff n = (n : Int) := by
  unfold toOff
  have h1 : n % SIZE_MOD = n := Nat.mod_eq_of_lt (by simp only [SIZE_MOD, OFF_HALF] at *; omega)
  rw [h1, if_pos h]

theorem toOff_neg_of_ge {n : Nat} (h : OFF_HALF ≤ n) (h2 : n < SIZE_MOD) : toOff n < 0 := by
  unfold toOff
  have h1 : n % SIZE_MOD = n := Nat.mod_eq_of_lt h2
  rw [h1, if_neg (by omega)]
  simp only [SIZE_MOD, OFF_HALF] at *
  omega

/-- What a reserve whose two system calls go through leaves behind. -/
theorem reserve_of_growth (b : Buffer) (w : World) (sys : Sys) (n : Nat)
    (hb : b.m_buffer ≠ nullptr) (hn : n ≠ 0) (hn2 : n < SIZE_MOD)
    (hg : GrowthSucceeds b w sys n) :
    ∃ m f, w.map = some m ∧ w.file = some f ∧ n < OFF_HALF
      ∧ sys.mremap_ret ≠ nullptr ∧ sys.mremap_ret + n < SIZE_MOD
      ∧ w.fd = some b.m_fd ∧ b.m_fd ≠ -1
      ∧ b.reserve w sys n =
          { val := true,
            buf := { b with m_buffer := sys.mremap_ret, m_buffer_size := n },
            os := { w with map := some { base := sys.mremap_ret, len := n },
                           file := some (f.resize n) } } := by
  obtain ⟨h1, h2⟩ := hg
  unfold sys_mremap at h1 h2
  cases hm : w.map with
  | none => simp [hm] at h1
  | some m =>
    simp only [hm] at h1 h2
    split at h1
    · rename_i hc
      split at h1
      · rename_i hc2
        simp only [if_pos hc, if_pos hc2] at h2
        unfold sys_ftruncate at h2
        cases hf : w.file with
        | none => simp [hf] at h2
        | some f =>
          simp only [hf] at h2
          split at h2
          · rename_i hc3
            split at h2
            · rename_i hc4
              split at h2
              · rename_i hc5
                have hlt : n < OFF_HALF := by
                  by_contra hge
                  have := toOff_neg_of_ge (Nat.le_of_not_lt hge) hn2
                  omega
                refine ⟨m, f, rfl, rfl, hlt, hc2.2.1, hc2.2.2, hc3.1, hc3.2, ?_⟩
                unfold reserve sys_mremap sys_ftruncate
                simp [hb, hn, hm, hf, hc, hc2, hc3, hc4, hc5, toOff_of_lt hlt]
              · simp at h2
            · simp at h2
          · simp at h2
      · simp at h1
    · simp at h1

/-- The complete effect of a write on an open store when the growth it
    needs (if any) goes through. -/
theorem write_effect (b : Buffer) (w : World) (sys : Sys) (data : List Byte)
    (hopen : OpenStore b w) (hovf : b.tell + data.length < SIZE_MOD)
    (hgrow : b.size < b.tell + data.length → GrowthSucceeds b w sys (b.tell + data.length)) :
    ∃ m f, w.map = some m ∧ w.file = some f ∧
      b.write w sys data = some
        { val := data.length,
          buf := { m_buffer_pos := b.tell + data.length,
                   m_buffer_watermark := max b.buffer_watermark (b.tell + data.length),
                   m_buffer_size := max b.size (b.tell + data.length),
                   m_buffer := if b.size < b.tell + data.length then sys.mremap_ret else b.m_buffer,
                   m_fd := b.m_fd },
          os := { w with
                  map := if b.size < b.tell + data.length
                         then some { base := sys.mremap_ret, len := b.tell + data.length }
                         else some m,
                  file := some ((if b.size < b.tell + data.length
                                 then f.resize (b.tell + data.length) else f).store b.tell data) } } := by
  unfold OpenStore at hopen
  cases hm : w.map with
  | none => simp [hm] at hopen
  | some m =>
  cases hf : w.file with
  | none => simp [hm, hf] at hopen
  | some f =>
  simp only [hm, hf] at hopen
  obtain ⟨hb, hbase, hfd, hwfd, hlen, hflen, haddr, hoff⟩ := hopen
  refine ⟨m, f, rfl, rfl, ?_⟩
  have hmod : (b.m_buffer_pos + data.length) % SIZE_MOD = b.m_buffer_pos + data.length :=
    Nat.mod_eq_of_lt hovf
  by_cases hg : b.size < b.tell + data.length
  · obtain ⟨m2, f2, hm2, hf2, hlt, hr0, hr1, _, _, hres⟩ :=
      reserve_of_growth b w sys (b.tell + data.length) hb
        (by simp only [Buffer.tell, Buffer.size] at *; omega) hovf (hgrow hg)
    rw [hm] at hm2; rw [hf] at hf2
    cases hm2; cases hf2
    simp only [Buffer.tell, Buffer.size, Buffer.buffer_watermark] at *
    have hmod2 : (sys.mremap_ret + b.m_buffer_pos) % SIZE_MOD = sys.mremap_ret + b.m_buffer_pos :=
      Nat.mod_eq_of_lt (by simp only [SIZE_MOD] at *; omega)
    have hmax1 : max b.m_buffer_size (b.m_buffer_pos + data.length)
        = b.m_buffer_pos + data.length := by omega
    unfold write write_prepare reallocate
    simp only [hmod, Buffer.size, hres]
    have hcond : sys.mremap_ret + b.m_buffer_pos + data.length
          ≤ sys.mremap_ret + (b.m_buffer_pos + data.length) ∧
        b.m_buffer_pos + data.length ≤ (f.resize (b.m_buffer_pos + data.length)).len :=
      ⟨by omega, Nat.le_refl _⟩
    by_cases hwm : b.m_buffer_watermark < b.m_buffer_pos + data.length
    · have hmax2 : max b.m_buffer_watermark (b.m_buffer_pos + data.length)
          = b.m_buffer_pos + data.length := by omega
      simp [hb, hg, hmod, hmod2, hr0, memcpy_to, increment_pos, hwm, hmax1, hmax2]
      rw [if_pos hcond]
    · have hmax2 : max b.m_buffer_watermark (b.m_buffer_pos + data.length)
          = b.m_buffer_watermark := by omega
      simp [hb, hg, hmod, hmod2, hr0, memcpy_to, increment_pos, hwm, hmax1, hmax2]
      rw [if_pos hcond]
  · simp only [Buffer.tell, Buffer.size, Buffer.buffer_watermark] at *
    have hmod2 : (b.m_buffer + b.m_buffer_pos) % SIZE_MOD = b.m_buffer + b.m_buffer_pos :=
      Nat.mod_eq_of_lt (by simp only [SIZE_MOD] at *; omega)
    have hmax1 : max b.m_buffer_size (b.m_buffer_pos + data.length) = b.m_buffer_size := by omega
    have hne : b.m_buffer + b.m_buffer_pos ≠ 0 := by simp only [nullptr] at hb; omega
    have hcond : m.base ≤ b.m_buffer + b.m_buffer_pos ∧
        b.m_buffer + b.m_buffer_pos + data.length ≤ m.base + m.len ∧
        b.m_buffer + b.m_buffer_pos - m.base + data.length ≤ f.len :=
      ⟨by omega, by omega, by omega⟩
    have hsub : b.m_buffer + b.m_buffer_pos - m.base = b.m_buffer_pos := by omega
    unfold write write_prepare reallocate
    simp only [hmod, Buffer.size]
    by_cases hwm : b.m_buffer_watermark < b.m_buffer_pos + data.length
    · have hmax2 : max b.m_buffer_watermark (b.m_buffer_pos + data.length)
          = b.m_buffer_pos + data.length := by omega
      simp [hb, hg, hmod, hmod2, hne, memcpy_to, increment_pos, hwm, hmax1, hmax2, hm, hf]
      rw [if_pos hcond, hsub]
    · have hmax2 : max b.m_buffer_watermark (b.m_buffer_pos + data.length)
          = b.m_buffer_watermark := by omega
      simp [hb, hg, hmod, hmod2, hne, memcpy_to, increment_pos, hwm, hmax1, hmax2, hm, hf]
      rw [if_pos hcond, hsub]

/-! ## Reading back what was stored -/

theorem FileData.read_store (f : FileData) (off : Nat) (data : List Byte) :
    (f.store off data).read off data.length = data := by
  apply List.ext_getElem
  · simp [FileData.read]
  · intro i h1 h2
    simp only [FileData.read, List.length_map, List.length_range] at h1
    simp [FileData.read, FileData.store, h1, List.getD_eq_getElem?_getD]

/-! ## Buffer::write -/

/-- C1: on an open store at position P with logical size W, a write of N bytes
    that succeeds (P + N fits a size_t and the growth it may need goes through)
    returns N, leaves tell() at P + N and buffer_watermark() at max(W, P + N);
    a write inside the written content leaves the logical size as it was. -/
theorem write_advances_position_and_watermark (b : Buffer) (w : World) (sys : Sys)
    (data : List Byte) (hopen : OpenStore b w) (hovf : b.tell + data.length < SIZE_MOD)
    (hgrow : b.size < b.tell + data.length → GrowthSucceeds b w sys (b.tell + data.length)) :
    ∃ r, b.write w sys data = some r ∧ r.val = data.length
      ∧ r.buf.tell = b.tell + data.length
      ∧ r.buf.buffer_watermark = max b.buffer_watermark (b.tell + data.length)
      ∧ (b.tell + data.length ≤ b.buffer_watermark →
          r.buf.buffer_watermark = b.buffer_watermark) := by
  obtain ⟨m, f, _, _, hw⟩ := write_effect b w sys data hopen hovf hgrow
  refine ⟨_, hw, rfl, rfl, rfl, ?_⟩
  intro hle
  simp only [Buffer.buffer_watermark, Buffer.tell] at *
  omega

/-- C1, at an instance: three bytes written into the freshly opened store. -/
theorem write_advances_position_and_watermark_witness :
    ∃ r, fresh.buf.write fresh.os allOk [1, 2, 3] = some r ∧ r.val = [1, 2, (3 : Byte)].length
      ∧ r.buf.tell = fresh.buf.tell + [1, 2, (3 : Byte)].length
      ∧ r.buf.buffer_watermark
          = max fresh.buf.buffer_watermark (fresh.buf.tell + [1, 2, (3 : Byte)].length)
      ∧ (fresh.buf.tell + [1, 2, (3 : Byte)].length ≤ fresh.buf.buffer_watermark →
          r.buf.buffer_watermark = fresh.buf.buffer_watermark) :=
  write_advances_position_and_watermark fresh.buf fresh.os allOk [1, 2, 3]
    (by decide) (by decide) (by decide)

/-- The effect of a successful write, field by field. -/
theorem write_result (b : Buffer) (w : World) (sys : Sys) (data : List Byte)
    (hopen : OpenStore b w) (hovf : b.tell + data.length < SIZE_MOD)
    (hgrow : b.size < b.tell + data.length → GrowthSucceeds b w sys (b.tell + data.length)) :
    ∃ f r, w.file = some f ∧ b.write w sys data = some r ∧ r.val = data.length
      ∧ r.buf.tell = b.tell + data.length
      ∧ r.buf.buffer_watermark = max b.buffer_watermark (b.tell + data.length)
      ∧ r.buf.size = max b.size (b.tell + data.length)
      ∧ r.buf.m_fd = b.m_fd
      ∧ r.os.file = some ((if b.size < b.tell + data.length
                           then f.resize (b.tell + data.length) else f).store b.tell data) := by
  obtain ⟨m, f, _, hf, hw⟩ := write_effect b w sys data hopen hovf hgrow
  exact ⟨f, _, hf, hw, rfl, rfl, rfl, rfl, rfl, rfl⟩

/-- A successful write leaves an open store. -/
theorem write_keeps_open (b : Buffer) (w : World) (sys : Sys) (data : List Byte)
    (hopen : OpenStore b w) (hovf : b.tell + data.length < SIZE_MOD)
    (hgrow : b.size < b.tell + data.length → GrowthSucceeds b w sys (b.tell + data.length))
    (r : Ret Nat) (hr : b.write w sys data = some r) : OpenStore r.buf r.os := by
  obtain ⟨m, f, hm, hf, hw⟩ := write_effect b w sys data hopen hovf hgrow
  rw [hw] at hr
  cases hr
  have hopen2 := hopen
  unfold OpenStore at hopen2
  simp only [hm, hf] at hopen2
  obtain ⟨hb, hbase, hfd, hwfd, hlen, hflen, haddr, hoff⟩ := hopen2
  by_cases hg : b.size < b.tell + data.length
  · obtain ⟨m2, f2, hm2, hf2, hlt, hr0, hr1, _, _, hres⟩ :=
      reserve_of_growth b w sys (b.tell + data.length) hb
        (by simp only [Buffer.tell, Buffer.size] at *; omega) hovf (hgrow hg)
    simp only [Buffer.tell, Buffer.size] at *
    simp [OpenStore, hg, hr0, hfd, hwfd, FileData.store, FileData.resize, Buffer.tell, Buffer.size]
    exact ⟨by omega, hr1, hlt⟩
  · simp only [Buffer.tell, Buffer.size] at *
    simp [OpenStore, hg, hfd, hwfd, FileData.store, Buffer.tell, Buffer.size, hb, hbase]
    exact ⟨⟨by omega, by omega⟩, ⟨by omega, by omega⟩, by omega, hoff⟩

/-! ## Buffer::copy -/

/-- The effect of a copy whose source range lies inside size(). -/
theorem copy_effect (b : Buffer) (w : World) (out_data : List Byte) (offset bufsize : Nat)
    (hopen : OpenStore b w) (hin : offset + b.copy_bufsize offset bufsize ≤ b.size)
    (hroom : b.copy_bufsize offset bufsize ≤ out_data.length) :
    ∃ f, w.file = some f ∧ b.copy w out_data offset bufsize = some
      { val := (true, f.read offset (b.copy_bufsize offset bufsize)
                        ++ out_data.drop (b.copy_bufsize offset bufsize)),
        buf := b, os := w } := by
  unfold OpenStore at hopen
  cases hm : w.map with
  | none => simp [hm] at hopen
  | some m =>
  cases hf : w.file with
  | none => simp [hm, hf] at hopen
  | some f =>
  simp only [hm, hf] at hopen
  obtain ⟨hb, hbase, hfd, hwfd, hlen, hflen, haddr, hoff⟩ := hopen
  refine ⟨f, rfl, ?_⟩
  simp only [Buffer.size] at *
  have hmod : (b.m_buffer + offset) % SIZE_MOD = b.m_buffer + offset :=
    Nat.mod_eq_of_lt (by simp only [SIZE_MOD] at *; omega)
  have hle : offset ≤ b.m_buffer_size := by omega
  have hcond : m.base ≤ b.m_buffer + offset
      ∧ b.m_buffer + offset + b.copy_bufsize offset bufsize ≤ m.base + m.len
      ∧ b.m_buffer + offset - m.base + b.copy_bufsize offset bufsize ≤ f.len
      ∧ b.copy_bufsize offset bufsize ≤ out_data.length :=
    ⟨by omega, by omega, by omega, hroom⟩
  have hsub : b.m_buffer + offset - m.base = offset := by omega
  unfold copy memcpy_from
  simp only [hm, hf, hmod, Buffer.size]
  rw [if_neg hb, if_pos hle, if_pos hcond, hsub]

/-- C2: on an open store at position P, a successful write of the bytes data
    followed at once by copy(dest, P, N) with N = data.length returns true and
    leaves data in dest[0..N), also when the write grew the mapping to exactly
    P + N. -/
theorem write_then_copy_round_trip (b : Buffer) (w : World) (sys : Sys)
    (data out_data : List Byte) (hopen : OpenStore b w)
    (hovf : b.tell + data.length < SIZE_MOD)
    (hgrow : b.size < b.tell + data.length → GrowthSucceeds b w sys (b.tell + data.length))
    (hroom : data.length ≤ out_data.length) :
    ∃ r c, b.write w sys data = some r
      ∧ r.buf.copy r.os out_data b.tell data.length = some c
      ∧ c.val.1 = true ∧ c.val.2.take data.length = data
      ∧ (b.size < b.tell + data.length → r.buf.size = b.tell + data.length) := by
  obtain ⟨f, r, hf, hw, _, _, _, hsize, _, hfile⟩ := write_result b w sys data hopen hovf hgrow
  have hopen2 := write_keeps_open b w sys data hopen hovf hgrow r hw
  have hcb : r.buf.copy_bufsize b.tell data.length = data.length := by
    unfold copy_bufsize
    rw [Nat.mod_eq_of_lt hovf, hsize, if_neg (by omega)]
  obtain ⟨f2, hf2, hc⟩ := copy_effect r.buf r.os out_data b.tell data.length hopen2
    (by rw [hcb, hsize]; omega) (by rw [hcb]; exact hroom)
  rw [hfile] at hf2
  cases hf2
  refine ⟨r, _, hw, hc, rfl, ?_, ?_⟩
  · simp only [hcb]
    rw [FileData.read_store]
    simp
  · intro hg
    rw [hsize]
    omega

/-- C2, at an instance: three bytes appended to the reopened four byte store,
    an exact fit growth to seven bytes, and read back. -/
theorem write_then_copy_round_trip_witness :
    ∃ r c, reopened.buf.write reopened.os allOk [1, 2, 3] = some r
      ∧ r.buf.copy r.os [0, 0, 0] reopened.buf.tell [1, 2, (3 : Byte)].length = some c
      ∧ c.val.1 = true ∧ c.val.2.take [1, 2, (3 : Byte)].length = [1, 2, 3]
      ∧ (reopened.buf.size < reopened.buf.tell + [1, 2, (3 : Byte)].length →
          r.buf.size = reopened.buf.tell + [1, 2, (3 : Byte)].length) :=
  write_then_copy_round_trip reopened.buf reopened.os allOk [1, 2, 3] [0, 0, 0]
    (by decide) (by decide) (by decide) (by decide)

/-! ## Buffer::init -/

theorem map_file_catch_fails (v : MapVars) (w : World) : (map_file_catch v w).1 = false := by
  unfold map_file_catch
  split <;> rfl

/-- What a successful last step of map_file leaves behind. -/
theorem map_file_mmap_ok (w : World) (sys : Sys) (v : MapVars)
    (h : (map_file_mmap w sys v).1 = true) :
    w.fd = some v.fd ∧ v.filesize ≠ 0 ∧ sys.mmap_ret ≠ nullptr
      ∧ sys.mmap_ret + v.filesize < SIZE_MOD
      ∧ map_file_mmap w sys v =
          (true, { v with p := sys.mmap_ret },
            { w with map := some { base := sys.mmap_ret, len := v.filesize } }) := by
  unfold map_file_mmap sys_mmap at h ⊢
  by_cases h1 : w.fd = some v.fd
  · by_cases h2 : v.filesize ≠ 0 ∧ sys.mmap_ret ≠ nullptr ∧ sys.mmap_ret + v.filesize < SIZE_MOD
    · have h3 : sys.mmap_ret ≠ MAP_FAILED := by
        have := h2.2.2
        simp only [SIZE_MOD, MAP_FAILED] at *
        omega
      simp only [if_pos h1, if_pos h2, if_neg h3] at h ⊢
      exact ⟨h1, h2.1, h2.2.1, h2.2.2, trivial⟩
    · simp only [if_pos h1, if_neg h2, if_true, map_file_catch_fails] at h
      cases h
  · simp only [if_neg h1, if_true, map_file_catch_fails] at h
    cases h

theorem toSize_natCast (n : Nat) : toSize (n : Int) = n % SIZE_MOD := by
  unfold toSize
  simp only [SIZE_MOD]
  omega

/-- What a successful map_file(filename, fd, p, filesize, isdefaultsize, 0)
    leaves behind, in terms of the file that open finds or creates. -/
theorem map_file_ok (w : World) (sys : Sys) (v v2 : MapVars) (w2 : World)
    (h : map_file w sys v 0 = (true, v2, w2)) :
    0 ≤ sys.open_ret ∧ sys.mmap_ret ≠ nullptr ∧ v2.fd = sys.open_ret ∧ v2.p = sys.mmap_ret
      ∧ v2.filesize ≠ 0 ∧ sys.mmap_ret + v2.filesize < SIZE_MOD
      ∧ w2.fd = some sys.open_ret
      ∧ w2.map = some { base := sys.mmap_ret, len := v2.filesize }
      ∧ ((v2.isdefaultsize = true ∧ v2.filesize = sys.pagesize % SIZE_MOD
            ∧ ((w.file.getD FileData.empty).len = 0 ∨ v.isdefaultsize = true)
            ∧ w2.file = some ((w.file.getD FileData.empty).resize sys.pagesize))
          ∨ (v2.isdefaultsize = false ∧ v2.filesize = (w.file.getD FileData.empty).len
            ∧ w2.file = some (w.file.getD FileData.empty))) := by
  unfold map_file sys_open at h
  by_cases ho : sys.open_ret < 0
  · have := map_file_catch_fails { v with fd := -1 } { w with errno := sys.err }
    simp [ho] at h
    rw [h] at this
    cases this
  · have ho2 : sys.open_ret ≠ -1 := by omega
    simp only [if_neg ho, if_neg ho2] at h
    unfold sys_fstat at h
    simp only [if_true] at h
    by_cases hs : sys.fstat_ok = true
    · simp only [if_pos hs] at h
      by_cases hreg : sys.is_reg = true
      · simp only [hreg, Bool.not_true, Bool.false_eq_true, if_false] at h
        split at h
        · rename_i hd
          split at h
          · have := map_file_catch_fails _ _ ▸ congrArg Prod.fst h
            cases this
          · rename_i hft
            have hmm := map_file_mmap_ok _ _ _ (congrArg Prod.fst h)
            obtain ⟨_, hne, hr0, hr1, heq⟩ := hmm
            rw [heq] at h
            unfold sys_ftruncate at h hft
            simp [ho2, hs] at h hft
            by_cases hok : sys.ftruncate_ok = true
            · simp [hok] at h
              obtain ⟨h1, h2⟩ := h
              subst h1 h2
              exact ⟨by omega, hr0, rfl, rfl, hne, hr1, rfl, rfl,
                Or.inl ⟨rfl, toSize_natCast _, hd, rfl⟩⟩
            · simp [hok] at hft
        · rename_i hd
          have hmm := map_file_mmap_ok _ _ _ (congrArg Prod.fst h)
          obtain ⟨_, hne, hr0, hr1, heq⟩ := hmm
          rw [heq] at h
          simp at h
          obtain ⟨h1, h2⟩ := h
          subst h1 h2
          exact ⟨by omega, hr0, rfl, rfl, hne, hr1, rfl, rfl, Or.inr ⟨rfl, rfl, rfl⟩⟩
      · have := map_file_catch_fails { v with fd := sys.open_ret }
          { w with file := some (w.file.getD FileData.empty), fd := some sys.open_ret }
        simp [hreg] at h
        rw [h] at this
        cases this
    · have := map_file_catch_fails { v with fd := sys.open_ret }
        { w with file := some (w.file.getD FileData.empty), fd := some sys.open_ret,
                 errno := sys.err }
      simp [hs] at h
      rw [h] at this
      cases this

/-- What a successful init on a closed store leaves behind. -/
theorem init_ok (b0 : Buffer) (w0 : World) (sys : Sys) (erase_cache : Bool)
    (hclosed : (b0.is_open w0).1 = false) (hval : (b0.init w0 sys erase_cache).val = true) :
    ∃ f, (b0.init w0 sys erase_cache).os.file = some f
      ∧ (b0.init w0 sys erase_cache).os.fd = some (b0.init w0 sys erase_cache).buf.m_fd
      ∧ 0 ≤ (b0.init w0 sys erase_cache).buf.m_fd
      ∧ (b0.init w0 sys erase_cache).buf.m_buffer = sys.mmap_ret
      ∧ sys.mmap_ret ≠ nullptr
      ∧ (b0.init w0 sys erase_cache).buf.size ≠ 0
      ∧ sys.mmap_ret + (b0.init w0 sys erase_cache).buf.size < SIZE_MOD
      ∧ (b0.init w0 sys erase_cache).os.map
          = some { base := sys.mmap_ret, len := (b0.init w0 sys erase_cache).buf.size }
      ∧ (b0.init w0 sys erase_cache).buf.tell = (b0.init w0 sys erase_cache).buf.buffer_watermark
      ∧ (((b0.init w0 sys erase_cache).buf.buffer_watermark = 0
            ∧ (b0.init w0 sys erase_cache).buf.size = sys.pagesize % SIZE_MOD
            ∧ f.len = sys.pagesize)
          ∨ ((b0.init w0 sys erase_cache).buf.buffer_watermark
                = (b0.init w0 sys erase_cache).buf.size
            ∧ (b0.init w0 sys erase_cache).buf.size = f.len)) := by
  generalize hr : b0.init w0 sys erase_cache = r at hval ⊢
  unfold init at hr
  simp only [hclosed, Bool.false_eq_true, if_false] at hr
  by_cases hsd : sys.strdup_ok = true
  · simp only [hsd, Bool.not_true, Bool.false_eq_true, if_false] at hr
    split at hr
    · subst hr
      cases hval
    · generalize hmf : map_file _ sys _ 0 = mf at hr
      obtain ⟨ok, v2, w3⟩ := mf
      cases ok
      · simp only [Bool.not_false, if_true] at hr
        subst hr
        cases hval
      · obtain ⟨ho, hr0, hv1, hv2, hne, hr1, hfd, hmap, hcase⟩ := map_file_ok _ _ _ _ _ hmf
        simp only [Bool.not_true, Bool.false_eq_true, if_false] at hr
        subst hr
        rcases hcase with ⟨hd, hsz, _, hfile⟩ | ⟨hd, hsz, hfile⟩
        · refine ⟨_, hfile, ?_⟩
          simp [hd, hfd, hv1, hv2, ho, hr0, hmap, Buffer.size, Buffer.tell,
            Buffer.buffer_watermark, hsz, FileData.resize]
          rw [hsz] at hne hr1
          exact ⟨hne, hr1⟩
        · refine ⟨_, hfile, ?_⟩
          simp [hd, hfd, hv1, hv2, ho, hr0, hmap, Buffer.size, Buffer.tell,
            Buffer.buffer_watermark, hsz]
          rw [hsz] at hne hr1
          exact ⟨hne, hr1⟩
  · simp only [hsd, Bool.not_false, if_true] at hr
    subst hr
    cases hval

/-- A successfully opened store is an open store. -/
theorem init_opens (b0 : Buffer) (w0 : World) (sys : Sys) (erase_cache : Bool)
    (hclosed : (b0.is_open w0).1 = false) (hval : (b0.init w0 sys erase_cache).val = true)
    (hpage : sys.pagesize < OFF_HALF)
    (hfile : (b0.init w0 sys erase_cache).buf.buffer_watermark < OFF_HALF) :
    OpenStore (b0.init w0 sys erase_cache).buf (b0.init w0 sys erase_cache).os := by
  obtain ⟨f, h1, h2, h3, h4, h5, h6, h7, h8, h9, h10⟩ := init_ok b0 w0 sys erase_cache hclosed hval
  unfold OpenStore
  simp only [h1, h8]
  simp only [Buffer.size, Buffer.tell, Buffer.buffer_watermark] at *
  refine ⟨by rw [h4]; exact h5, h4.symm, by omega, h2, Nat.le_refl _, ?_, h7, ?_⟩
  · rcases h10 with ⟨_, hs, hl⟩ | ⟨_, hs⟩
    · rw [hs, hl]
      exact Nat.mod_le _ _
    · omega
  · rcases h10 with ⟨_, hs, hl⟩ | ⟨hw, hs⟩
    · omega
    · omega

/-! ## Appending -/

/-- A run of successful writes that starts with the position at the logical
    end adds the lengths to both. -/
theorem write_all_from_end (steps : List (Sys × List Byte)) :
    ∀ (b : Buffer) (w : World), OpenStore b w → b.tell = b.buffer_watermark →
      writes_succeed b w steps = true →
      ∃ r, write_all b w steps = some r ∧ r.val = steps.map (fun s => s.2.length)
        ∧ r.buf.tell = b.tell + (steps.map (fun s => s.2.length)).sum
        ∧ r.buf.buffer_watermark = b.tell + (steps.map (fun s => s.2.length)).sum := by
  induction steps with
  | nil =>
    intro b w _ hpw _
    exact ⟨_, rfl, rfl, by simp, by simp [hpw]⟩
  | cons step rest ih =>
    intro b w hopen hpw hs
    unfold writes_succeed at hs
    simp only [Bool.and_eq_true, decide_eq_true_eq] at hs
    obtain ⟨⟨hovf, hgrow⟩, hrest⟩ := hs
    obtain ⟨f, r, _, hw, hval, htell, hwm, _, _, _⟩ := write_result b w step.1 step.2 hopen hovf hgrow
    have hopen2 := write_keeps_open b w step.1 step.2 hopen hovf hgrow r hw
    rw [hw] at hrest
    have hpw2 : r.buf.tell = r.buf.buffer_watermark := by
      rw [htell, hwm, ← hpw]
      omega
    obtain ⟨r2, hr2, hv2, ht2, hwm2⟩ := ih r.buf r.os hopen2 hpw2 hrest
    refine ⟨{ val := r.val :: r2.val, buf := r2.buf, os := r2.os }, ?_, ?_, ?_, ?_⟩
    · simp only [write_all, hw, hr2]
    · simp [hval, hv2]
    · simp only [ht2, htell, List.map_cons, List.sum_cons]
      omega
    · simp only [hwm2, htell, List.map_cons, List.sum_cons]
      omega

/-- C3: from a freshly opened empty store (init succeeded on a closed store
    and left the logical size 0), any run of successful writes with no other
    call in between returns the lengths n1..nk and leaves buffer_watermark()
    and tell() both at n1 + ... + nk. -/
theorem append_run_sums_lengths (b0 : Buffer) (w0 : World) (sys0 : Sys) (erase_cache : Bool)
    (steps : List (Sys × List Byte))
    (hclosed : (b0.is_open w0).1 = false)
    (hinit : (b0.init w0 sys0 erase_cache).val = true)
    (hempty : (b0.init w0 sys0 erase_cache).buf.buffer_watermark = 0)
    (hpage : sys0.pagesize < OFF_HALF)
    (hsucc : writes_succeed (b0.init w0 sys0 erase_cache).buf
                (b0.init w0 sys0 erase_cache).os steps = true) :
    ∃ r, write_all (b0.init w0 sys0 erase_cache).buf (b0.init w0 sys0 erase_cache).os steps
          = some r
      ∧ r.val = steps.map (fun s => s.2.length)
      ∧ r.buf.buffer_watermark = (steps.map (fun s => s.2.length)).sum
      ∧ r.buf.tell = (steps.map (fun s => s.2.length)).sum := by
  have hopen := init_opens b0 w0 sys0 erase_cache hclosed hinit hpage
    (by rw [hempty]; decide)
  obtain ⟨_, _, _, _, _, _, _, _, _, hpw, _⟩ := init_ok b0 w0 sys0 erase_cache hclosed hinit
  obtain ⟨r, hr, hv, ht, hwm⟩ := write_all_from_end steps _ _ hopen hpw hsucc
  rw [hpw, hempty] at ht hwm
  exact ⟨r, hr, hv, by omega, by omega⟩

/-- C3, at an instance: three writes of 3, 2 and 4 bytes into a store opened
    when no cache file existed. -/
theorem append_run_sums_lengths_witness :
    ∃ r, write_all (Buffer.construct.init noFile allOk false).buf
            (Buffer.construct.init noFile allOk false).os
            [(allOk, [1, 2, 3]), (allOk, [4, 5]), (allOk, [6, 7, 8, 9])] = some r
      ∧ r.val = [(allOk, [1, 2, 3]), (allOk, [4, 5]), (allOk, [6, 7, 8, (9 : Byte)])].map
                  (fun s => s.2.length)
      ∧ r.buf.buffer_watermark
          = ([(allOk, [1, 2, 3]), (allOk, [4, 5]), (allOk, [6, 7, 8, (9 : Byte)])].map
                  (fun s => s.2.length)).sum
      ∧ r.buf.tell
          = ([(allOk, [1, 2, 3]), (allOk, [4, 5]), (allOk, [6, 7, 8, (9 : Byte)])].map
                  (fun s => s.2.length)).sum :=
  append_run_sums_lengths Buffer.construct noFile allOk false
    [(allOk, [1, 2, 3]), (allOk, [4, 5]), (allOk, [6, 7, 8, 9])]
    (by decide) (by decide) (by decide) (by decide) (by decide)

/-! ## Buffer::seek -/

/-- The size of an open store is a non negative off_t. -/
theorem OpenStore.size_lt {b : Buffer} {w : World} (h : OpenStore b w) :
    b.m_buffer ≠ nullptr ∧ b.size < OFF_HALF := by
  unfold OpenStore at h
  split at h
  · simp only [Buffer.size]
    exact ⟨h.1, by omega⟩
  · exact h.elim

/-- The position plays no part in a store being open. -/
theorem OpenStore.set_pos {b : Buffer} {w : World} (h : OpenStore b w) (k : Nat) :
    OpenStore { b with m_buffer_pos := k } w := by
  unfold OpenStore at h ⊢
  split at h
  · rename_i m f hm hf
    simp only [hm, hf]
    exact h
  · exact h.elim

theorem seek_unknown_whence (b : Buffer) (w : World) (offset whence : Int)
    (hb : b.m_buffer ≠ nullptr) (ht : b.seek_target offset whence = none) :
    b.seek w offset whence = { val := EOF, buf := b, os := { w with errno := EINVAL } } := by
  unfold seek
  rw [if_neg hb, ht]

theorem seek_beyond (b : Buffer) (w : World) (offset whence t : Int)
    (hb : b.m_buffer ≠ nullptr) (ht : b.seek_target offset whence = some t)
    (hgt : toOff b.size < t) :
    b.seek w offset whence = { val := 0, buf := { b with m_buffer_pos := b.size }, os := w } := by
  unfold seek
  rw [if_neg hb, ht]
  simp only [gt_iff_lt]
  rw [if_pos hgt]

theorem seek_before (b : Buffer) (w : World) (offset whence t : Int)
    (hb : b.m_buffer ≠ nullptr) (ht : b.seek_target offset whence = some t)
    (hle : t ≤ toOff b.size) (hneg : t < 0) :
    b.seek w offset whence = { val := EOF, buf := b, os := { w with errno := EINVAL } } := by
  unfold seek
  rw [if_neg hb, ht]
  simp only [gt_iff_lt]
  rw [if_neg (by omega), if_pos hneg]

theorem seek_inside (b : Buffer) (w : World) (offset whence t : Int)
    (hb : b.m_buffer ≠ nullptr) (ht : b.seek_target offset whence = some t)
    (hle : t ≤ toOff b.size) (hpos : 0 ≤ t) :
    b.seek w offset whence
      = { val := 0, buf := { b with m_buffer_pos := toSize t }, os := w } := by
  unfold seek
  rw [if_neg hb, ht]
  simp only [gt_iff_lt]
  rw [if_neg (by omega), if_neg (by omega)]

theorem addOff_zero_of_lt {n : Nat} (h : n < OFF_HALF) : addOff (toOff n) 0 = (n : Int) := by
  rw [toOff_of_lt h]
  unfold addOff
  simp only [SIZE_MOD, OFF_HALF] at *
  omega

/-- C5 as amended: on an open store seek(0, SEEK_END) returns 0 and leaves
    tell() at size(), the mapped size; the logical size and the mapped size
    stay as they were. -/
theorem seek_end_lands_on_mapped_size (b : Buffer) (w : World) (hopen : OpenStore b w) :
    (b.seek w 0 SEEK_END).val = 0
      ∧ (b.seek w 0 SEEK_END).buf.tell = b.size
      ∧ (b.seek w 0 SEEK_END).buf.buffer_watermark = b.buffer_watermark
      ∧ (b.seek w 0 SEEK_END).buf.size = b.size := by
  obtain ⟨hb, hlt⟩ := hopen.size_lt
  have ht : b.seek_target 0 SEEK_END = some (b.size : Int) := by
    unfold seek_target
    simp [addOff_zero_of_lt hlt]
  rw [seek_inside b w 0 SEEK_END _ hb ht (by rw [toOff_of_lt hlt]) (by omega)]
  refine ⟨rfl, ?_, rfl, rfl⟩
  simp only [Buffer.tell, toSize, SIZE_MOD, OFF_HALF] at *
  omega

/-- C5 as stated fails: on the freshly opened one page store into which ten
    bytes were written (logical size 10, mapped size 4096) seek(0, SEEK_END)
    returns 0 and leaves tell() at 4096, not at buffer_watermark() = 10. -/
theorem seek_end_misses_logical_size :
    fresh.buf.write fresh.os allOk digits = some tenWritten
      ∧ OpenStore tenWritten.buf tenWritten.os
      ∧ tenWritten.buf.buffer_watermark = 10 ∧ tenWritten.buf.size = 4096
      ∧ (tenWritten.buf.seek tenWritten.os 0 SEEK_END).val = 0
      ∧ (tenWritten.buf.seek tenWritten.os 0 SEEK_END).buf.tell = 4096
      ∧ (tenWritten.buf.seek tenWritten.os 0 SEEK_END).buf.tell
          ≠ (tenWritten.buf.seek tenWritten.os 0 SEEK_END).buf.buffer_watermark :=
  ⟨rfl, by decide, by decide, by decide, by decide, by decide, by decide⟩

/-- C5 as amended, at an instance: the one page store holding ten bytes. -/
theorem seek_end_lands_on_mapped_size_witness :
    (tenWritten.buf.seek tenWritten.os 0 SEEK_END).val = 0
      ∧ (tenWritten.buf.seek tenWritten.os 0 SEEK_END).buf.tell = tenWritten.buf.size
      ∧ (tenWritten.buf.seek tenWritten.os 0 SEEK_END).buf.buffer_watermark
          = tenWritten.buf.buffer_watermark
      ∧ (tenWritten.buf.seek tenWritten.os 0 SEEK_END).buf.size = tenWritten.buf.size :=
  seek_end_lands_on_mapped_size tenWritten.buf tenWritten.os (by decide)

/-- C6 as amended: on an open store, whenever the switch of seek computes a
    target position (whence is SEEK_SET, SEEK_CUR or SEEK_END) and that target
    is greater than size(), the mapped size, seek returns 0 and leaves tell()
    at size(). -/
theorem seek_past_mapped_size_clamps (b : Buffer) (w : World) (offset whence t : Int)
    (hopen : OpenStore b w)
    (ht : b.seek_target offset whence = some t) (hgt : (b.size : Int) < t) :
    (b.seek w offset whence).val = 0
      ∧ (b.seek w offset whence).buf.tell = b.size
      ∧ (b.seek w offset whence).buf.buffer_watermark = b.buffer_watermark
      ∧ (b.seek w offset whence).buf.size = b.size := by
  obtain ⟨hb, hlt⟩ := hopen.size_lt
  rw [seek_beyond b w offset whence t hb ht (by rw [toOff_of_lt hlt]; exact hgt)]
  exact ⟨rfl, rfl, rfl, rfl⟩

/-- C6 as stated fails: on the one page store holding ten bytes,
    seek(100, SEEK_SET) has a target above buffer_watermark() = 10, returns 0
    and leaves tell() at 100, not at 10. -/
theorem seek_above_watermark_not_clamped :
    OpenStore tenWritten.buf tenWritten.os
      ∧ tenWritten.buf.seek_target 100 SEEK_SET = some 100
      ∧ (tenWritten.buf.buffer_watermark : Int) < 100
      ∧ (tenWritten.buf.seek tenWritten.os 100 SEEK_SET).val = 0
      ∧ (tenWritten.buf.seek tenWritten.os 100 SEEK_SET).buf.tell = 100
      ∧ (tenWritten.buf.seek tenWritten.os 100 SEEK_SET).buf.buffer_watermark = 10
      ∧ (tenWritten.buf.seek tenWritten.os 100 SEEK_SET).buf.tell
          ≠ (tenWritten.buf.seek tenWritten.os 100 SEEK_SET).buf.buffer_watermark :=
  ⟨by decide, by decide, by decide, by decide, by decide, by decide, by decide⟩

/-- C6 as amended, at an instance: seek(5000, SEEK_SET) on the one page store. -/
theorem seek_past_mapped_size_clamps_witness :
    (tenWritten.buf.seek tenWritten.os 5000 SEEK_SET).val = 0
      ∧ (tenWritten.buf.seek tenWritten.os 5000 SEEK_SET).buf.tell = tenWritten.buf.size
      ∧ (tenWritten.buf.seek tenWritten.os 5000 SEEK_SET).buf.buffer_watermark
          = tenWritten.buf.buffer_watermark
      ∧ (tenWritten.buf.seek tenWritten.os 5000 SEEK_SET).buf.size = tenWritten.buf.size :=
  seek_past_mapped_size_clamps tenWritten.buf tenWritten.os 5000 SEEK_SET 5000
    (by decide) (by decide) (by decide)

theorem seek_target_none_iff (b : Buffer) (offset whence : Int) :
    b.seek_target offset whence = none
      ↔ (whence ≠ SEEK_SET ∧ whence ≠ SEEK_CUR ∧ whence ≠ SEEK_END) := by
  unfold seek_target
  by_cases h0 : whence = SEEK_SET
  · simp [h0]
  · by_cases h1 : whence = SEEK_CUR
    · simp [h0, h1]
    · by_cases h2 : whence = SEEK_END
      · simp [h0, h1, h2]
      · simp [h0, h1, h2]

/-- C7: on an open store a seek whose computed target position is negative,
    or whose whence is none of SEEK_SET, SEEK_CUR, SEEK_END, returns EOF with
    errno EINVAL and leaves the object, hence tell(), buffer_watermark() and
    size(), as it was. -/
theorem failed_seek_changes_nothing (b : Buffer) (w : World) (offset whence : Int)
    (hopen : OpenStore b w)
    (hfail : (whence ≠ SEEK_SET ∧ whence ≠ SEEK_CUR ∧ whence ≠ SEEK_END)
      ∨ ∃ t, b.seek_target offset whence = some t ∧ t < 0) :
    (b.seek w offset whence).val = EOF
      ∧ (b.seek w offset whence).os.errno = EINVAL
      ∧ (b.seek w offset whence).buf = b
      ∧ (b.seek w offset whence).buf.tell = b.tell
      ∧ (b.seek w offset whence).buf.buffer_watermark = b.buffer_watermark
      ∧ (b.seek w offset whence).buf.size = b.size := by
  obtain ⟨hb, hlt⟩ := hopen.size_lt
  rcases hfail with hw | ⟨t, ht, hneg⟩
  · rw [seek_unknown_whence b w offset whence hb ((seek_target_none_iff b offset whence).2 hw)]
    exact ⟨rfl, rfl, rfl, rfl, rfl, rfl⟩
  · rw [seek_before b w offset whence t hb ht (by rw [toOff_of_lt hlt]; omega) hneg]
    exact ⟨rfl, rfl, rfl, rfl, rfl, rfl⟩

/-- C7, at an instance: seek(-11, SEEK_CUR) at position 10 of the one page
    store. -/
theorem failed_seek_changes_nothing_witness :
    (tenWritten.buf.seek tenWritten.os (-11) SEEK_CUR).val = EOF
      ∧ (tenWritten.buf.seek tenWritten.os (-11) SEEK_CUR).os.errno = EINVAL
      ∧ (tenWritten.buf.seek tenWritten.os (-11) SEEK_CUR).buf = tenWritten.buf
      ∧ (tenWritten.buf.seek tenWritten.os (-11) SEEK_CUR).buf.tell = tenWritten.buf.tell
      ∧ (tenWritten.buf.seek tenWritten.os (-11) SEEK_CUR).buf.buffer_watermark
          = tenWritten.buf.buffer_watermark
      ∧ (tenWritten.buf.seek tenWritten.os (-11) SEEK_CUR).buf.size = tenWritten.buf.size :=
  failed_seek_changes_nothing tenWritten.buf tenWritten.os (-11) SEEK_CUR
    (by decide) (Or.inr ⟨-1, by decide, by decide⟩)

/-- C8: on an open store whose logical size does not exceed its mapped size,
    seek(k, SEEK_SET) with 0 <= k <= buffer_watermark() returns 0 and sets
    tell() to k, seek(d, SEEK_CUR) with 0 <= tell() + d <= buffer_watermark()
    returns 0 and sets tell() to tell() + d, and neither changes
    buffer_watermark() or size(). -/
theorem seek_in_range_is_exact (b : Buffer) (w : World) (k d : Int)
    (hopen : OpenStore b w) (hwm : b.buffer_watermark ≤ b.size)
    (hk0 : 0 ≤ k) (hk1 : k ≤ (b.buffer_watermark : Int))
    (hd0 : 0 ≤ (b.tell : Int) + d) (hd1 : (b.tell : Int) + d ≤ (b.buffer_watermark : Int)) :
    ((b.seek w k SEEK_SET).val = 0
        ∧ ((b.seek w k SEEK_SET).buf.tell : Int) = k
        ∧ (b.seek w k SEEK_SET).buf.buffer_watermark = b.buffer_watermark
        ∧ (b.seek w k SEEK_SET).buf.size = b.size)
      ∧ ((b.seek w d SEEK_CUR).val = 0
        ∧ ((b.seek w d SEEK_CUR).buf.tell : Int) = (b.tell : Int) + d
        ∧ (b.seek w d SEEK_CUR).buf.buffer_watermark = b.buffer_watermark
        ∧ (b.seek w d SEEK_CUR).buf.size = b.size) := by
  obtain ⟨hb, hlt⟩ := hopen.size_lt
  have hoffsz := toOff_of_lt hlt
  constructor
  · have ht : b.seek_target k SEEK_SET = some k := by simp [seek_target]
    rw [seek_inside b w k SEEK_SET k hb ht (by rw [hoffsz]; omega) hk0]
    refine ⟨rfl, ?_, rfl, rfl⟩
    simp only [Buffer.tell, toSize, SIZE_MOD, OFF_HALF] at *
    omega
  · have hcur : addOff (toOff b.tell) d = (b.tell : Int) + d := by
      unfold addOff toOff
      simp only [Buffer.tell, Buffer.size, Buffer.buffer_watermark, SIZE_MOD, OFF_HALF] at *
      split <;> omega
    have ht : b.seek_target d SEEK_CUR = some ((b.tell : Int) + d) := by
      simp [seek_target, hcur]
    rw [seek_inside b w d SEEK_CUR _ hb ht (by rw [hoffsz]; omega) hd0]
    refine ⟨rfl, ?_, rfl, rfl⟩
    simp only [Buffer.tell, Buffer.size, Buffer.buffer_watermark, toSize, SIZE_MOD, OFF_HALF] at *
    omega

/-- C8, at an instance: seek(5, SEEK_SET) and seek(-3, SEEK_CUR) at position
    10 of the one page store holding ten bytes. -/
theorem seek_in_range_is_exact_witness :
    ((tenWritten.buf.seek tenWritten.os 5 SEEK_SET).val = 0
        ∧ ((tenWritten.buf.seek tenWritten.os 5 SEEK_SET).buf.tell : Int) = 5
        ∧ (tenWritten.buf.seek tenWritten.os 5 SEEK_SET).buf.buffer_watermark
            = tenWritten.buf.buffer_watermark
        ∧ (tenWritten.buf.seek tenWritten.os 5 SEEK_SET).buf.size = tenWritten.buf.size)
      ∧ ((tenWritten.buf.seek tenWritten.os (-3) SEEK_CUR).val = 0
        ∧ ((tenWritten.buf.seek tenWritten.os (-3) SEEK_CUR).buf.tell : Int)
            = (tenWritten.buf.tell : Int) + (-3)
        ∧ (tenWritten.buf.seek tenWritten.os (-3) SEEK_CUR).buf.buffer_watermark
            = tenWritten.buf.buffer_watermark
        ∧ (tenWritten.buf.seek tenWritten.os (-3) SEEK_CUR).buf.size = tenWritten.buf.size) :=
  seek_in_range_is_exact tenWritten.buf tenWritten.os 5 (-3)
    (by decide) (by decide) (by decide) (by decide) (by decide) (by decide)

/-! ## Reading with copy -/

/-- A copy whose whole source range lies inside size() is carried out as
    requested. -/
theorem copy_in_range (b : Buffer) (w : World) (out_data : List Byte)
    (offset length : Nat) (hopen : OpenStore b w) (hin : offset + length ≤ b.size)
    (hroom : length ≤ out_data.length) :
    ∃ f c, w.file = some f ∧ b.copy w out_data offset length = some c
      ∧ c.val.1 = true
      ∧ c.val.2 = f.read offset length ++ out_data.drop length
      ∧ c.buf = b ∧ c.os = w := by
  obtain ⟨_, hlt⟩ := hopen.size_lt
  have hcb : b.copy_bufsize offset length = length := by
    unfold copy_bufsize
    have hmod : (offset + length) % SIZE_MOD = offset + length :=
      Nat.mod_eq_of_lt (by simp only [SIZE_MOD, OFF_HALF] at *; omega)
    rw [hmod, if_neg (by omega)]
  obtain ⟨f, hf, hc⟩ := copy_effect b w out_data offset length hopen
    (by rw [hcb]; exact hin) (by rw [hcb]; exact hroom)
  rw [hcb] at hc
  exact ⟨f, _, hf, hc, rfl, rfl, rfl, rfl⟩

/-- C9 as amended: copy bounds a request by size(), the mapped size, not by
    the logical size: on an open store a request with offset + length <=
    size() returns true and copies all length bytes stored at
    [offset, offset + length), whatever buffer_watermark() is; the store is
    left as it was. -/
theorem copy_within_mapped_size_is_whole (b : Buffer) (w : World) (out_data : List Byte)
    (offset length : Nat) (hopen : OpenStore b w) (hin : offset + length ≤ b.size)
    (hroom : length ≤ out_data.length) :
    ∃ f c, w.file = some f ∧ b.copy w out_data offset length = some c
      ∧ c.val.1 = true
      ∧ c.val.2 = f.read offset length ++ out_data.drop length
      ∧ c.buf = b ∧ c.os = w :=
  copy_in_range b w out_data offset length hopen hin hroom

/-- C9 as stated fails: on the one page store holding ten bytes (logical size
    10), copy(dest, 0, 20) into twenty bytes of 255 returns true and copies 20
    bytes, the ten written ones and ten zero bytes from behind the logical
    end, not the 10 bytes that fit. -/
theorem copy_runs_past_logical_size :
    OpenStore tenWritten.buf tenWritten.os ∧ tenWritten.buf.buffer_watermark = 10
      ∧ ∃ c, tenWritten.buf.copy tenWritten.os (List.replicate 20 255) 0 20 = some c
        ∧ c.val.1 = true
        ∧ c.val.2 = digits ++ List.replicate 10 0
        ∧ c.val.2 ≠ digits ++ List.replicate 10 255 :=
  ⟨by decide, by decide, _, rfl, by decide, by decide, by decide⟩

/-- C9 as amended, at an instance: the same request on the one page store. -/
theorem copy_within_mapped_size_is_whole_witness :
    ∃ f c, tenWritten.os.file = some f
      ∧ tenWritten.buf.copy tenWritten.os (List.replicate 20 255) 0 20 = some c
      ∧ c.val.1 = true
      ∧ c.val.2 = f.read 0 20 ++ (List.replicate 20 255).drop 20
      ∧ c.buf = tenWritten.buf ∧ c.os = tenWritten.os :=
  copy_within_mapped_size_is_whole tenWritten.buf tenWritten.os (List.replicate 20 255) 0 20
    (by decide) (by decide) (by decide)

/-- The truncating branch of copy stops one byte short of size(): on the
    store reopened on the four byte file (logical and mapped size 4),
    copy(dest, 0, 8) returns true and copies 3 bytes, leaving dest[3] as it
    was. -/
theorem copy_truncation_stops_one_short :
    reopened.buf.size = 4 ∧ reopened.buf.copy_bufsize 0 8 = 3
      ∧ ∃ c, reopened.buf.copy reopened.os [255, 255, 255, 255, 255, 255, 255, 255] 0 8 = some c
        ∧ c.val.1 = true ∧ c.val.2 = [10, 20, 30, 255, 255, 255, 255, 255] :=
  ⟨by decide, by decide, _, rfl, by decide, by decide⟩

/-- C10 as amended: copy rejects an offset behind size(), the mapped size: on
    an open store every offset greater than size() makes copy return false
    with errno ESPIPE, leave dest untouched and leave the object as it was. -/
theorem copy_rejects_offset_past_mapped_size (b : Buffer) (w : World) (out_data : List Byte)
    (offset length : Nat) (hopen : OpenStore b w) (hoff : b.size < offset) :
    ∃ c, b.copy w out_data offset length = some c
      ∧ c.val.1 = false ∧ c.val.2 = out_data ∧ c.os.errno = ESPIPE ∧ c.buf = b := by
  obtain ⟨hb, _⟩ := hopen.size_lt
  refine ⟨{ val := (false, out_data), buf := b, os := { w with errno := ESPIPE } },
    ?_, rfl, rfl, rfl, rfl⟩
  unfold copy
  rw [if_neg hb, if_neg (by omega)]

/-- C10 as stated fails: on the one page store holding ten bytes,
    copy(dest, 100, 1) has an offset above buffer_watermark() = 10 and below
    size() = 4096; it returns true and overwrites dest[0], which held 255,
    with the zero byte found at offset 100. -/
theorem copy_accepts_offset_past_logical_size :
    OpenStore tenWritten.buf tenWritten.os
      ∧ tenWritten.buf.buffer_watermark < 100 ∧ 100 < tenWritten.buf.size
      ∧ ∃ c, tenWritten.buf.copy tenWritten.os [255] 100 1 = some c
        ∧ c.val.1 = true ∧ c.val.2 = [0] :=
  ⟨by decide, by decide, by decide, _, rfl, by decide, by decide⟩

/-- C10 as amended, at an instance: offset 5000 on the one page store. -/
theorem copy_rejects_offset_past_mapped_size_witness :
    ∃ c, tenWritten.buf.copy tenWritten.os [255] 5000 1 = some c
      ∧ c.val.1 = false ∧ c.val.2 = [255] ∧ c.os.errno = ESPIPE ∧ c.buf = tenWritten.buf :=
  copy_rejects_offset_past_mapped_size tenWritten.buf tenWritten.os [255] 5000 1
    (by decide) (by decide)

/-! ## The overwrite scenario -/

/-- What is read at [0, 10) after "0123456789" was stored at 0 and "ABC" at 5,
    whatever the file held before. -/
theorem read_after_overwrite (f : FileData) :
    ((f.store 0 digits).store 5 abc).read 0 10 = [48, 49, 50, 51, 52, 65, 66, 67, 56, 57] := by
  rfl

/-- C4: on a freshly opened empty store (init succeeded on a closed store and
    left the logical size 0, a page holds at least the ten bytes), writing
    "0123456789" gives tell() == 10 and buffer_watermark() == 10; seek(5,
    SEEK_SET) returns 0, and writing "ABC" then leaves buffer_watermark() ==
    10 and tell() == 8; copy(dest, 0, 10) returns true with dest ==
    "01234ABC89". -/
theorem overwrite_scenario_trace (b0 : Buffer) (w0 : World) (s0 s1 s2 : Sys)
    (erase_cache : Bool) (dest : List Byte)
    (hclosed : (b0.is_open w0).1 = false)
    (hinit : (b0.init w0 s0 erase_cache).val = true)
    (hempty : (b0.init w0 s0 erase_cache).buf.buffer_watermark = 0)
    (hpage : 10 ≤ s0.pagesize ∧ s0.pagesize < OFF_HALF)
    (hdest : 10 ≤ dest.length) :
    ∃ t, overwrite_scenario b0 w0 s0 s1 s2 erase_cache dest = some t
      ∧ t.tell1 = 10 ∧ t.watermark1 = 10 ∧ t.seek_ret = 0
      ∧ t.watermark2 = 10 ∧ t.tell2 = 8 ∧ t.copy_ret = true
      ∧ t.dest.take 10 = [48, 49, 50, 51, 52, 65, 66, 67, 56, 57] := by
  have hopen0 := init_opens b0 w0 s0 erase_cache hclosed hinit hpage.2 (by rw [hempty]; decide)
  obtain ⟨_, _, _, _, _, _, hne, _, _, hpw, hcase⟩ :=
    init_ok b0 w0 s0 erase_cache hclosed hinit
  unfold overwrite_scenario
  generalize b0.init w0 s0 erase_cache = r0 at *
  have hsize0 : 10 ≤ r0.buf.size := by
    rcases hcase with ⟨_, hs, _⟩ | ⟨hw, _⟩
    · rw [hs, Nat.mod_eq_of_lt (by simp only [SIZE_MOD, OFF_HALF] at *; omega)]
      exact hpage.1
    · omega
  have htell0 : r0.buf.tell = 0 := by omega
  -- the first write
  have hlen1 : digits.length = 10 := rfl
  obtain ⟨f0, r1, _, hw1, _, htell1, hwm1, hsize1, _, hfile1⟩ :=
    write_result r0.buf r0.os s1 digits hopen0
      (by rw [htell0, hlen1]; decide) (by rw [htell0, hlen1]; omega)
  have hopen1 := write_keeps_open r0.buf r0.os s1 digits hopen0
      (by rw [htell0, hlen1]; decide) (by rw [htell0, hlen1]; omega) r1 hw1
  rw [htell0, hlen1] at htell1 hwm1 hsize1 hfile1
  rw [hempty] at hwm1
  have hsz1 : r1.buf.size = r0.buf.size := by omega
  rw [if_neg (by omega)] at hfile1
  -- the seek
  obtain ⟨hb1, hlt1⟩ := hopen1.size_lt
  have hseek := seek_inside r1.buf r1.os 5 SEEK_SET 5 hb1 (by simp [seek_target])
    (by rw [toOff_of_lt hlt1]; omega) (by decide)
  have hopen2 : OpenStore { r1.buf with m_buffer_pos := toSize 5 } r1.os := hopen1.set_pos _
  -- the second write
  have hlen3 : abc.length = 3 := rfl
  have htell2 : Buffer.tell { r1.buf with m_buffer_pos := toSize 5 } = 5 := rfl
  have hsize2 : Buffer.size { r1.buf with m_buffer_pos := toSize 5 } = r1.buf.size := rfl
  have hwm2 : Buffer.buffer_watermark { r1.buf with m_buffer_pos := toSize 5 }
      = r1.buf.buffer_watermark := rfl
  obtain ⟨f1, r3, hf1, hw3, _, htell3, hwm3, hsize3, _, hfile3⟩ :=
    write_result _ r1.os s2 abc hopen2
      (by rw [htell2, hlen3]; decide) (by rw [htell2, hlen3, hsize2]; omega)
  have hopen3 := write_keeps_open _ r1.os s2 abc hopen2
      (by rw [htell2, hlen3]; decide) (by rw [htell2, hlen3, hsize2]; omega) r3 hw3
  rw [htell2, hlen3] at htell3 hwm3 hsize3 hfile3
  rw [hsize2] at hsize3 hfile3
  rw [hwm2, hwm1] at hwm3
  rw [if_neg (by omega)] at hfile3
  rw [hfile1] at hf1
  cases hf1
  -- the copy
  obtain ⟨f3, c, hf3, hc, hcv, hcd, _, _⟩ := copy_in_range r3.buf r3.os dest 0 10 hopen3
    (by omega) hdest
  rw [hfile3] at hf3
  cases hf3
  simp only [hw1, hseek, hw3, hc]
  refine ⟨_, rfl, htell1, hwm1, rfl, ?_, htell3, hcv, ?_⟩
  · rw [hwm3]; rfl
  · simp only [hcd, read_after_overwrite]
    simp

/-- C4, at an instance: the scenario run on a constructed object when no
    cache file exists, every system call succeeding. -/
theorem overwrite_scenario_trace_witness :
    ∃ t, overwrite_scenario Buffer.construct noFile allOk allOk allOk false
            [0, 0, 0, 0, 0, 0, 0, 0, 0, 0] = some t
      ∧ t.tell1 = 10 ∧ t.watermark1 = 10 ∧ t.seek_ret = 0
      ∧ t.watermark2 = 10 ∧ t.tell2 = 8 ∧ t.copy_ret = true
      ∧ t.dest.take 10 = [48, 49, 50, 51, 52, 65, 66, 67, 56, 57] :=
  overwrite_scenario_trace Buffer.construct noFile allOk allOk allOk false
    [0, 0, 0, 0, 0, 0, 0, 0, 0, 0]
    (by decide) (by decide) (by decide) (by decide) (by decide)

/-! ## Reopening -/

/-- What init(false) on a closed store does with a cache file that has
    content, when its calls go through. -/
theorem init_keeps_file (b0 : Buffer) (w0 : World) (sys : Sys) (f : FileData)
    (hclosed : (b0.is_open w0).1 = false) (hfile : w0.file = some f) (hpos : 0 < f.len)
    (hcalls : sys.opens) (hmap : sys.mmap_ret + f.len < SIZE_MOD) :
    b0.init w0 sys false =
      { val := true,
        buf := { m_buffer_pos := f.len, m_buffer_watermark := f.len, m_buffer_size := f.len,
                 m_buffer := sys.mmap_ret, m_fd := sys.open_ret },
        os := { file := some f, fd := some sys.open_ret,
                map := some { base := sys.mmap_ret, len := f.len }, errno := 0 } } := by
  obtain ⟨hsd, hmk, ho, hst, hreg, hmm⟩ := hcalls
  have hfile2 : (b0.is_open w0).2.file = some f := by
    unfold is_open
    split
    · split <;> exact hfile
    · exact hfile
  have hne : f.len ≠ 0 := by omega
  have hnf : sys.mmap_ret ≠ MAP_FAILED := by
    simp only [SIZE_MOD, MAP_FAILED] at *
    omega
  have ho1 : ¬ sys.open_ret < 0 := by omega
  have ho2 : sys.open_ret ≠ -1 := by omega
  unfold init
  simp only [hclosed, hsd, Bool.false_eq_true, if_false, Bool.not_true]
  have hmk2 : ¬ ((sys_mktree (b0.is_open w0).2 sys).1 ≠ 0
      ∧ (sys_mktree (b0.is_open w0).2 sys).2.errno ≠ EEXIST) := by
    unfold sys_mktree
    rcases hmk with h | h <;> simp [h]
  have hfile3 : (sys_mktree (b0.is_open w0).2 sys).2.file = some f := by
    unfold sys_mktree
    split <;> exact hfile2
  rw [if_neg hmk2]
  simp [map_file, sys_open, sys_fstat, map_file_mmap, sys_mmap, hfile3, ho1, ho2, hst, hreg,
    hne, hmm, hmap, hnf]

/-- C11: when the cache file exists with length n > 0, init(false) on a closed
    store whose system calls go through returns true, leaves the file with
    the same length and bytes, and sets tell(), buffer_watermark() and size()
    to n. -/
theorem reopen_for_append (b0 : Buffer) (w0 : World) (sys : Sys) (f : FileData)
    (hclosed : (b0.is_open w0).1 = false) (hfile : w0.file = some f) (hpos : 0 < f.len)
    (hcalls : sys.opens) (hmap : sys.mmap_ret + f.len < SIZE_MOD) :
    (b0.init w0 sys false).val = true
      ∧ (b0.init w0 sys false).os.file = some f
      ∧ (b0.init w0 sys false).buf.tell = f.len
      ∧ (b0.init w0 sys false).buf.buffer_watermark = f.len
      ∧ (b0.init w0 sys false).buf.size = f.len := by
  rw [init_keeps_file b0 w0 sys f hclosed hfile hpos hcalls hmap]
  exact ⟨rfl, rfl, rfl, rfl, rfl⟩

/-- C11, at an instance: a constructed object opened on the four byte cache
    file. -/
theorem reopen_for_append_witness :
    (Buffer.construct.init smallFile allOk false).val = true
      ∧ (Buffer.construct.init smallFile allOk false).os.file
          = some (FileData.ofList [10, 20, 30, 40])
      ∧ (Buffer.construct.init smallFile allOk false).buf.tell
          = (FileData.ofList [10, 20, 30, 40]).len
      ∧ (Buffer.construct.init smallFile allOk false).buf.buffer_watermark
          = (FileData.ofList [10, 20, 30, 40]).len
      ∧ (Buffer.construct.init smallFile allOk false).buf.size
          = (FileData.ofList [10, 20, 30, 40]).len :=
  reopen_for_append Buffer.construct smallFile allOk (FileData.ofList [10, 20, 30, 40])
    (by decide) rfl (by decide) (by decide) (by decide)

/-! ## Opening with erase -/

theorem remove_file_file (w : World) (sys : Sys) :
    (remove_file w sys).2.file = if sys.unlink_ok = true then none else w.file := by
  unfold remove_file sys_unlink
  cases hf : w.file with
  | none => simp
  | some f =>
    by_cases hu : sys.unlink_ok = true
    · simp [hu]
    · simp only [hu, Bool.false_eq_true, if_false]
      split <;> simp [hf]

/-- A successful init on a closed store is a successful map_file on the file
    the erase step left, and the fields are set from what map_file returned. -/
theorem init_sees (b0 : Buffer) (w0 : World) (sys : Sys) (erase_cache : Bool)
    (hclosed : (b0.is_open w0).1 = false) (hval : (b0.init w0 sys erase_cache).val = true) :
    ∃ w2 v2 w3,
      w2.file = (if erase_cache = true ∧ sys.unlink_ok = true then none else w0.file)
      ∧ map_file w2 sys { fd := -1, p := nullptr, filesize := 0, isdefaultsize := false } 0
          = (true, v2, w3)
      ∧ (b0.init w0 sys erase_cache).os = w3
      ∧ (b0.init w0 sys erase_cache).buf =
          { m_buffer_pos := if v2.isdefaultsize = true then 0 else v2.filesize,
            m_buffer_watermark := if v2.isdefaultsize = true then 0 else v2.filesize,
            m_buffer_size := v2.filesize, m_buffer := v2.p, m_fd := v2.fd } := by
  have hfile2 : (b0.is_open w0).2.file = w0.file := by
    unfold is_open
    split
    · split <;> rfl
    · rfl
  have hfile3 : (sys_mktree (b0.is_open w0).2 sys).2.file = w0.file := by
    unfold sys_mktree
    split <;> exact hfile2
  generalize hr : b0.init w0 sys erase_cache = r at hval ⊢
  unfold init at hr
  simp only [hclosed, Bool.false_eq_true, if_false] at hr
  by_cases hsd : sys.strdup_ok = true
  · simp only [hsd, Bool.not_true, Bool.false_eq_true, if_false] at hr
    split at hr
    · subst hr
      cases hval
    · generalize hw2 : (if erase_cache = true then _ else _ : World) = w2 at hr
      generalize hmf : map_file w2 sys _ 0 = mf at hr
      obtain ⟨ok, v2, w3⟩ := mf
      cases ok
      · simp only [Bool.not_false, if_true] at hr
        subst hr
        cases hval
      · simp only [Bool.not_true, Bool.false_eq_true, if_false] at hr
        subst hr
        refine ⟨w2, v2, w3, ?_, hmf, rfl, ?_⟩
        · subst hw2
          by_cases he : erase_cache = true
          · simp only [he, if_true, true_and, remove_file_file]
            split
            · rfl
            · exact hfile3
          · simp only [he, if_false, false_and]
            exact hfile3
        · cases hd : v2.isdefaultsize <;> simp [hd]
  · simp only [hsd, Bool.not_false, if_true] at hr
    subst hr
    cases hval

/-- C12 as amended: for every prior state of the cache file, an init(true) on
    a closed store that returns true and whose unlink of the old file did not
    fail (or found no file) leaves buffer_watermark() == 0, tell() == 0,
    size() equal to one page, and the cache file one page long. -/
theorem init_erase_gives_one_page (b0 : Buffer) (w0 : World) (sys : Sys)
    (hclosed : (b0.is_open w0).1 = false) (hinit : (b0.init w0 sys true).val = true)
    (hunlink : w0.file = none ∨ sys.unlink_ok = true) (hpage : sys.pagesize < SIZE_MOD) :
    (b0.init w0 sys true).buf.buffer_watermark = 0
      ∧ (b0.init w0 sys true).buf.tell = 0
      ∧ (b0.init w0 sys true).buf.size = sys.pagesize
      ∧ ∃ f, (b0.init w0 sys true).os.file = some f ∧ f.len = sys.pagesize := by
  obtain ⟨w2, v2, w3, hw2, hmf, hos, hbuf⟩ := init_sees b0 w0 sys true hclosed hinit
  have hnone : w2.file = none := by
    rw [hw2]
    rcases hunlink with h | h
    · simp [h]
    · simp [h]
  obtain ⟨_, _, _, _, hne, _, _, _, hcase⟩ := map_file_ok _ _ _ _ _ hmf
  rw [hos, hbuf]
  rcases hcase with ⟨hd, hsz, _, hfile⟩ | ⟨_, hsz, _⟩
  · simp only [Buffer.buffer_watermark, Buffer.tell, Buffer.size, hd, if_true]
    refine ⟨trivial, trivial, ?_, _, hfile, ?_⟩
    · rw [hsz]
      exact Nat.mod_eq_of_lt hpage
    · simp [FileData.resize]
  · rw [hnone] at hsz
    exact absurd hsz hne

/-- C12 as stated fails: the erase step of init is best effort, the result of
    remove_cachefile is not looked at.  On the four byte cache file, with an
    unlink that fails with EACCES, init(true) on a constructed object returns
    true and leaves buffer_watermark() == 4, tell() == 4 and size() == 4, the
    old content still in the file. -/
theorem init_erase_keeps_undeletable_file :
    (Buffer.construct.is_open smallFile).1 = false
      ∧ (Buffer.construct.init smallFile unlinkDenied true).val = true
      ∧ (Buffer.construct.init smallFile unlinkDenied true).buf.buffer_watermark = 4
      ∧ (Buffer.construct.init smallFile unlinkDenied true).buf.tell = 4
      ∧ (Buffer.construct.init smallFile unlinkDenied true).buf.size = 4
      ∧ unlinkDenied.pagesize = 4096
      ∧ (Buffer.construct.init smallFile unlinkDenied true).os.file.map
          (fun f => (f.len, f.read 0 4)) = some (4, [10, 20, 30, 40]) :=
  ⟨by decide, by decide, by decide, by decide, by decide, by decide, by decide⟩

/-- C12 as amended, at an instance: init(true) on the four byte cache file
    when every system call succeeds. -/
theorem init_erase_gives_one_page_witness :
    (Buffer.construct.init smallFile allOk true).buf.buffer_watermark = 0
      ∧ (Buffer.construct.init smallFile allOk true).buf.tell = 0
      ∧ (Buffer.construct.init smallFile allOk true).buf.size = allOk.pagesize
      ∧ ∃ f, (Buffer.construct.init smallFile allOk true).os.file = some f
          ∧ f.len = allOk.pagesize :=
  init_erase_gives_one_page Buffer.construct smallFile allOk
    (by decide) (by decide) (Or.inr (by decide)) (by decide)

/-! ## Buffer::release -/

theorem sys_munmap_frame (w : World) (sys : Sys) (addr length : Nat) :
    (sys_munmap w sys addr length).2.file = w.file
      ∧ (sys_munmap w sys addr length).2.fd = w.fd := by
  unfold sys_munmap
  split
  · exact ⟨rfl, rfl⟩
  · split
    · exact ⟨rfl, rfl⟩
    · split
      · split <;> exact ⟨rfl, rfl⟩
      · exact ⟨rfl, rfl⟩

theorem sys_msync_frame (w : World) (sys : Sys) (addr length : Nat) :
    (sys_msync w sys addr length).2.file = w.file
      ∧ (sys_msync w sys addr length).2.fd = w.fd
      ∧ (sys_msync w sys addr length).2.map = w.map := by
  unfold sys_msync
  split
  · split
    · split <;> exact ⟨rfl, rfl, rfl⟩
    · exact ⟨rfl, rfl, rfl⟩
  · exact ⟨rfl, rfl, rfl⟩

theorem flush_frame (b : Buffer) (w : World) (sys : Sys) :
    (b.flush w sys).buf = b ∧ (b.flush w sys).os.file = w.file
      ∧ (b.flush w sys).os.fd = w.fd ∧ (b.flush w sys).os.map = w.map := by
  obtain ⟨h1, h2, h3⟩ := sys_msync_frame w sys b.m_buffer b.m_buffer_size
  unfold flush
  split
  · by_cases hm : (sys_msync w sys b.m_buffer b.m_buffer_size).1 = -1
    · simp only [hm, if_true]
      exact ⟨trivial, h1, h2, h3⟩
    · simp only [hm, if_false]
      exact ⟨trivial, h1, h2, h3⟩
  · exact ⟨rfl, rfl, rfl, rfl⟩

/-- What unmap_file does to the variables it was handed, to the descriptor
    and to the cache file, when the descriptor is the open one. -/
theorem unmap_file_effect (w : World) (sys : Sys) (v : UnmapVars) (f : FileData)
    (hf : w.file = some f) (hfd : w.fd = some v.fd) (hne : v.fd ≠ -1)
    (hW : v.filesize < OFF_HALF) :
    (unmap_file w sys v).2.1
        = { fd := -1, p := v.p, filesize := 0, buffer_pos := v.buffer_pos.map (fun _ => 0) }
      ∧ (unmap_file w sys v).2.2.fd = none
      ∧ (unmap_file w sys v).2.2.file =
          (if v.filesize ≠ 0 then
            (if sys.ftruncate_ok = true then some (f.resize v.filesize) else some f)
           else if sys.unlink_ok = true then none else some f)
      ∧ ((unmap_file w sys v).1 = true →
          (v.filesize ≠ 0 → sys.ftruncate_ok = true) ∧ (v.filesize = 0 → sys.unlink_ok = true)) := by
  unfold unmap_file
  simp only [hne, ne_eq, not_false_eq_true, if_true]
  generalize hmu : (if ¬ v.p = nullptr then _ else _ : Bool × World) = mu
  have hmuf : mu.2.file = some f ∧ mu.2.fd = some v.fd := by
    subst hmu
    split
    · have := sys_munmap_frame w sys v.p
        (if ¬ v.filesize = 0 then v.filesize else sys.pagesize % SIZE_MOD)
      exact ⟨this.1.trans hf, this.2.trans hfd⟩
    · exact ⟨hf, hfd⟩
  obtain ⟨hmf, hmfd⟩ := hmuf
  by_cases hz : v.filesize = 0
  · simp only [hz, not_true_eq_false, if_false]
    refine ⟨trivial, ?_, ?_, ?_⟩
    · simp [sys_unlink, sys_close, hmf, hmfd]
      split <;> rfl
    · simp [sys_unlink, sys_close, hmf, hmfd]
      split <;> simp [hmf]
    · simp [sys_unlink, sys_close, hmf, hmfd]
      by_cases hu : sys.unlink_ok = true
      · simp [hu]
      · simp [hu]
  · simp only [hz, not_false_eq_true, if_true]
    refine ⟨trivial, ?_, ?_, ?_⟩
    · simp [sys_ftruncate, sys_close, hmf, hmfd, hne, toOff_of_lt hW]
      split <;> simp [sys_close, hmfd]
    · simp [sys_ftruncate, sys_close, hmf, hmfd, hne, toOff_of_lt hW]
      split <;> simp [sys_close, hmfd, hmf]
    · simp [sys_ftruncate, sys_close, hmf, hmfd, hne, toOff_of_lt hW]
      by_cases hu : sys.ftruncate_ok = true
      · simp [hu]
      · simp [hu]

theorem remove_file_fd (w : World) (sys : Sys) : (remove_file w sys).2.fd = w.fd := by
  unfold remove_file sys_unlink
  cases hf : w.file with
  | none => simp
  | some f =>
    by_cases hu : sys.unlink_ok = true
    · simp [hu]
    · simp only [hu, Bool.false_eq_true, if_false]
      split <;> rfl

theorem OpenStore.is_open {b : Buffer} {w : World} (h : OpenStore b w) :
    b.is_open w = (true, w) := by
  unfold OpenStore at h
  split at h
  · obtain ⟨_, _, hfd, hwfd, _⟩ := h
    unfold Buffer.is_open
    rw [if_pos hfd, if_pos hwfd]
  · exact h.elim

/-- What release leaves of an open store: the fields, the descriptor and the
    cache file. -/
theorem release_effect (b : Buffer) (w : World) (sys : Sys) (flags : Nat)
    (hopen : OpenStore b w) (hW : b.buffer_watermark < OFF_HALF) :
    ∃ f, w.file = some f
      ∧ (b.release w sys flags).buf =
          { m_buffer_pos := 0, m_buffer_watermark := 0, m_buffer_size := b.m_buffer_size,
            m_buffer := b.m_buffer, m_fd := -1 }
      ∧ (b.release w sys flags).os.fd = none
      ∧ (b.release w sys flags).os.file =
          (if CACHE_CHECK_BIT CACHE_CLOSE_DELETE flags = true ∧ sys.unlink_ok = true then none
           else if b.buffer_watermark ≠ 0 then
             (if sys.ftruncate_ok = true then some (f.resize b.buffer_watermark) else some f)
           else if sys.unlink_ok = true then none else some f)
      ∧ ((b.release w sys flags).val = true →
          (b.buffer_watermark ≠ 0 → sys.ftruncate_ok = true)
            ∧ (b.buffer_watermark = 0 → sys.unlink_ok = true)) := by
  have hio := hopen.is_open
  unfold OpenStore at hopen
  cases hm : w.map with
  | none => simp [hm] at hopen
  | some m =>
  cases hf : w.file with
  | none => simp [hm, hf] at hopen
  | some f =>
  simp only [hm, hf] at hopen
  obtain ⟨hb, hbase, hfd, hwfd, hlen, hflen, haddr, hoff⟩ := hopen
  refine ⟨f, rfl, ?_⟩
  obtain ⟨_, hff, hffd, _⟩ := flush_frame b w sys
  obtain ⟨hv, hufd, hufile, huval⟩ := unmap_file_effect (b.flush w sys).os sys
    { fd := b.m_fd, p := b.m_buffer, filesize := b.m_buffer_watermark,
      buffer_pos := some b.m_buffer_pos } f (hff.trans hf) (hffd.trans hwfd) hfd hW
  unfold release
  simp only [hio, Bool.not_true, Bool.false_eq_true, if_false]
  by_cases hdel : CACHE_CHECK_BIT CACHE_CLOSE_DELETE flags = true
  · simp only [hdel, if_true, true_and, hv, remove_file_file, remove_file_fd, hufd, hufile]
    exact ⟨rfl, rfl, huval⟩
  · simp only [hdel, Bool.false_eq_true, if_false, false_and, hv, hufd, hufile]
    exact ⟨rfl, trivial, rfl, huval⟩

theorem FileData.read_resize (f : FileData) (n k : Nat) (hk : k ≤ n) (hf : k ≤ f.len) :
    (f.resize n).read 0 k = f.read 0 k := by
  apply List.ext_getElem
  · simp [FileData.read]
  · intro i h1 h2
    simp only [FileData.read, List.length_map, List.length_range] at h1
    simp only [FileData.read, FileData.resize, List.getElem_map, List.getElem_range, Nat.zero_add]
    rw [if_pos ⟨by omega, by omega⟩]

theorem OpenStore.file_covers {b : Buffer} {w : World} (h : OpenStore b w) :
    ∃ f, w.file = some f ∧ b.size ≤ f.len ∧ f.len < OFF_HALF := by
  unfold OpenStore at h
  split at h
  · rename_i m f hm hf
    exact ⟨f, hf, h.2.2.2.2.2.1, h.2.2.2.2.2.2.2⟩
  · exact h.elim

/-- C13: for an open store with logical size W > 0 (within the mapped size),
    release without the delete flag, its ftruncate going through, followed by
    init(false) whose calls go through, returns true and yields
    buffer_watermark() == W with a cache file of length W whose bytes [0, W)
    are the ones the store held before the release. -/
theorem close_reopen_round_trip (b : Buffer) (w : World) (sys1 sys2 : Sys) (flags : Nat)
    (hopen : OpenStore b w) (hW0 : 0 < b.buffer_watermark)
    (hWM : b.buffer_watermark ≤ b.size)
    (hflag : CACHE_CHECK_BIT CACHE_CLOSE_DELETE flags = false)
    (htrunc : sys1.ftruncate_ok = true) (hcalls : sys2.opens)
    (hmap : sys2.mmap_ret + b.buffer_watermark < SIZE_MOD) :
    ∃ f f2, w.file = some f
      ∧ ((b.release w sys1 flags).buf.init (b.release w sys1 flags).os sys2 false).val = true
      ∧ ((b.release w sys1 flags).buf.init (b.release w sys1 flags).os sys2 false).buf.buffer_watermark
          = b.buffer_watermark
      ∧ ((b.release w sys1 flags).buf.init (b.release w sys1 flags).os sys2 false).os.file
          = some f2
      ∧ f2.len = b.buffer_watermark
      ∧ f2.read 0 b.buffer_watermark = f.read 0 b.buffer_watermark := by
  obtain ⟨f0, hf0, hcov, hoff⟩ := hopen.file_covers
  obtain ⟨f, hf, hbuf, hfd, hfile, _⟩ := release_effect b w sys1 flags hopen (by omega)
  rw [hf0] at hf
  cases hf
  generalize b.release w sys1 flags = r at *
  have hne : b.buffer_watermark ≠ 0 := by omega
  simp only [hflag, Bool.false_eq_true, false_and, if_false, hne, ne_eq, not_false_eq_true,
    if_true, htrunc] at hfile
  have hclosed : (r.buf.is_open r.os).1 = false := by
    rw [hbuf]
    simp [Buffer.is_open]
  have hk := init_keeps_file r.buf r.os sys2 (f0.resize b.buffer_watermark) hclosed hfile
    (by simp only [FileData.resize]; exact hW0) hcalls (by simp only [FileData.resize]; exact hmap)
  rw [hk]
  exact ⟨f0, _, hf0, rfl, rfl, rfl, rfl,
    FileData.read_resize f0 _ _ (Nat.le_refl _) (by omega)⟩

/-- C13, at an instance: the one page store holding "0123456789" released and
    opened again. -/
theorem close_reopen_round_trip_witness :
    ∃ f f2, tenWritten.os.file = some f
      ∧ ((tenWritten.buf.release tenWritten.os allOk CACHE_CLOSE_NOOPT).buf.init
            (tenWritten.buf.release tenWritten.os allOk CACHE_CLOSE_NOOPT).os allOk false).val = true
      ∧ ((tenWritten.buf.release tenWritten.os allOk CACHE_CLOSE_NOOPT).buf.init
            (tenWritten.buf.release tenWritten.os allOk CACHE_CLOSE_NOOPT).os allOk
            false).buf.buffer_watermark = tenWritten.buf.buffer_watermark
      ∧ ((tenWritten.buf.release tenWritten.os allOk CACHE_CLOSE_NOOPT).buf.init
            (tenWritten.buf.release tenWritten.os allOk CACHE_CLOSE_NOOPT).os allOk false).os.file
          = some f2
      ∧ f2.len = tenWritten.buf.buffer_watermark
      ∧ f2.read 0 tenWritten.buf.buffer_watermark = f.read 0 tenWritten.buf.buffer_watermark :=
  close_reopen_round_trip tenWritten.buf tenWritten.os allOk allOk CACHE_CLOSE_NOOPT
    (by decide) (by decide) (by decide) (by decide) (by decide) (by decide) (by decide)

/-- The macro CACHE_CHECK_BIT holds exactly when every bit of the mask is set
    in the variable. -/
theorem CACHE_CHECK_BIT_iff (mask var : Nat) :
    CACHE_CHECK_BIT mask var = true ↔ var &&& mask = mask := by
  unfold CACHE_CHECK_BIT
  rw [beq_iff_eq, Nat.land_comm]
  exact eq_comm

/-- The file state after a release that returns true, with the unlink that
    the delete flag asks for going through when there is something to
    delete. -/
theorem release_file_state_of_true (b : Buffer) (w : World) (sys : Sys) (flags : Nat)
    (hopen : OpenStore b w) (hWM : b.buffer_watermark ≤ b.size)
    (hret : (b.release w sys flags).val = true)
    (hdel : CACHE_CHECK_BIT CACHE_CLOSE_DELETE flags = true → 0 < b.buffer_watermark →
              sys.unlink_ok = true) :
    ((b.release w sys flags).os.file.isSome = true
        ↔ (CACHE_CHECK_BIT CACHE_CLOSE_DELETE flags = false ∧ 0 < b.buffer_watermark))
      ∧ (∀ f, (b.release w sys flags).os.file = some f → f.len = b.buffer_watermark)
      ∧ (CACHE_CHECK_BIT CACHE_CLOSE_DELETE flags = true →
          (b.release w sys flags).os.file = none) := by
  obtain ⟨_, hlt⟩ := hopen.size_lt
  obtain ⟨f0, _, _, _, hfile, hval⟩ := release_effect b w sys flags hopen (by omega)
  obtain ⟨htr, hun⟩ := hval hret
  rw [hfile]
  by_cases hz : b.buffer_watermark = 0
  · have hu := hun hz
    by_cases hd : CACHE_CHECK_BIT CACHE_CLOSE_DELETE flags = true
    · simp [hd, hz, hu]
    · simp [hd, hz, hu]
  · have ht := htr hz
    have hpos : 0 < b.buffer_watermark := by omega
    by_cases hd : CACHE_CHECK_BIT CACHE_CLOSE_DELETE flags = true
    · have hu := hdel hd hpos
      simp [hd, hu]
    · simp [hd, hz, ht, hpos, FileData.resize]

/-- C14: after the release of an open store with logical size W (within the
    mapped size) whose ftruncate and unlink calls go through, the cache file
    exists if and only if the delete flag was not set and W > 0, and when it
    exists its length is W; with every bit of the delete flag set in flags it
    does not exist, for W == 0 and for W > 0. -/
theorem release_file_state (b : Buffer) (w : World) (sys : Sys) (flags : Nat)
    (hopen : OpenStore b w) (hWM : b.buffer_watermark ≤ b.size)
    (hft : sys.ftruncate_ok = true) (hul : sys.unlink_ok = true) :
    ((b.release w sys flags).os.file.isSome = true
        ↔ (flags &&& CACHE_CLOSE_DELETE ≠ CACHE_CLOSE_DELETE ∧ 0 < b.buffer_watermark))
      ∧ (∀ f, (b.release w sys flags).os.file = some f → f.len = b.buffer_watermark)
      ∧ (flags &&& CACHE_CLOSE_DELETE = CACHE_CLOSE_DELETE →
          (b.release w sys flags).os.file = none) := by
  obtain ⟨_, hlt⟩ := hopen.size_lt
  obtain ⟨f0, _, _, _, hfile, _⟩ := release_effect b w sys flags hopen (by omega)
  have hbit := CACHE_CHECK_BIT_iff CACHE_CLOSE_DELETE flags
  rw [hfile]
  by_cases hd : flags &&& CACHE_CLOSE_DELETE = CACHE_CLOSE_DELETE
  · have hc : CACHE_CHECK_BIT CACHE_CLOSE_DELETE flags = true := hbit.mpr hd
    simp [hc, hd, hul]
  · have hc : CACHE_CHECK_BIT CACHE_CLOSE_DELETE flags = false := by
      cases h : CACHE_CHECK_BIT CACHE_CLOSE_DELETE flags
      · rfl
      · exact absurd (hbit.mp h) hd
    by_cases hz : b.buffer_watermark = 0
    · simp [hc, hd, hz, hul]
    · have hpos : 0 < b.buffer_watermark := by omega
      simp [hc, hd, hz, hft, hpos, FileData.resize]

/-- A release with the delete flag whose unlink is refused: on the one page
    store holding ten bytes, with an unlink that fails with EACCES,
    release(CACHE_CLOSE_DELETE) returns true and leaves the cache file in
    place, ten bytes long; the result of remove_cachefile is not looked at. -/
theorem release_delete_keeps_undeletable_file :
    OpenStore tenWritten.buf tenWritten.os
      ∧ tenWritten.buf.buffer_watermark = 10
      ∧ CACHE_CHECK_BIT CACHE_CLOSE_DELETE CACHE_CLOSE_DELETE = true
      ∧ (tenWritten.buf.release tenWritten.os unlinkDenied CACHE_CLOSE_DELETE).val = true
      ∧ (tenWritten.buf.release tenWritten.os unlinkDenied CACHE_CLOSE_DELETE).os.file.isSome
          = true
      ∧ (tenWritten.buf.release tenWritten.os unlinkDenied CACHE_CLOSE_DELETE).os.file.map
          (fun f => f.len) = some 10 :=
  ⟨by decide, by decide, by decide, by decide, by decide, by decide⟩

/-- C14, at two instances: the one page store holding ten bytes, every system
    call succeeding, released with the delete flag (the file is gone) and
    without it (the file is there, ten bytes long). -/
theorem release_file_state_witness :
    (tenWritten.buf.release tenWritten.os allOk CACHE_CLOSE_DELETE).os.file.isNone = true
      ∧ (tenWritten.buf.release tenWritten.os allOk CACHE_CLOSE_NOOPT).os.file.map
          (fun f => f.len) = some 10
      ∧ (((tenWritten.buf.release tenWritten.os allOk CACHE_CLOSE_DELETE).os.file.isSome = true
            ↔ (CACHE_CLOSE_DELETE &&& CACHE_CLOSE_DELETE ≠ CACHE_CLOSE_DELETE
                ∧ 0 < tenWritten.buf.buffer_watermark))
          ∧ (∀ f, (tenWritten.buf.release tenWritten.os allOk CACHE_CLOSE_DELETE).os.file
                = some f → f.len = tenWritten.buf.buffer_watermark)
          ∧ (CACHE_CLOSE_DELETE &&& CACHE_CLOSE_DELETE = CACHE_CLOSE_DELETE →
              (tenWritten.buf.release tenWritten.os allOk CACHE_CLOSE_DELETE).os.file = none))
      ∧ (((tenWritten.buf.release tenWritten.os allOk CACHE_CLOSE_NOOPT).os.file.isSome = true
            ↔ (CACHE_CLOSE_NOOPT &&& CACHE_CLOSE_DELETE ≠ CACHE_CLOSE_DELETE
                ∧ 0 < tenWritten.buf.buffer_watermark))
          ∧ (∀ f, (tenWritten.buf.release tenWritten.os allOk CACHE_CLOSE_NOOPT).os.file
                = some f → f.len = tenWritten.buf.buffer_watermark)
          ∧ (CACHE_CLOSE_NOOPT &&& CACHE_CLOSE_DELETE = CACHE_CLOSE_DELETE →
              (tenWritten.buf.release tenWritten.os allOk CACHE_CLOSE_NOOPT).os.file = none)) :=
  ⟨by decide, by decide,
    release_file_state tenWritten.buf tenWritten.os allOk CACHE_CLOSE_DELETE
      (by decide) (by decide) (by decide) (by decide),
    release_file_state tenWritten.buf tenWritten.os allOk CACHE_CLOSE_NOOPT
      (by decide) (by decide) (by decide) (by decide)⟩

/-- A release does not reset the base address: the object keeps the address
    of the mapping it has just unmapped. -/
theorem release_keeps_base_address (b : Buffer) (w : World) (sys : Sys) (flags : Nat)
    (hopen : OpenStore b w) (hW : b.buffer_watermark < OFF_HALF) :
    (b.release w sys flags).buf.m_buffer = b.m_buffer
      ∧ (b.release w sys flags).buf.m_buffer ≠ nullptr
      ∧ (b.release w sys flags).buf.m_fd = -1
      ∧ (b.release w sys flags).buf.tell = 0
      ∧ (b.release w sys flags).buf.buffer_watermark = 0 := by
  obtain ⟨hb, _⟩ := hopen.size_lt
  obtain ⟨_, _, hbuf, _, _, _⟩ := release_effect b w sys flags hopen hW
  rw [hbuf]
  exact ⟨rfl, hb, rfl, rfl, rfl⟩

/-- C15, the code at a failing input: release(CACHE_CLOSE_NOOPT) on the one
    page store holding ten bytes returns true, leaves is_open() false, the
    descriptor -1, position and logical size 0 and no mapping, but m_buffer
    still holds the address 1048576 of the mapping that was unmapped, not
    nullptr. -/
theorem release_leaves_dangling_base_address :
    OpenStore tenWritten.buf tenWritten.os
      ∧ released.val = true
      ∧ (released.buf.is_open released.os).1 = false
      ∧ released.buf.m_fd = -1
      ∧ released.buf.tell = 0 ∧ released.buf.buffer_watermark = 0
      ∧ released.os.map = none
      ∧ released.buf.m_buffer = 1048576 ∧ released.buf.m_buffer ≠ nullptr :=
  ⟨by decide, by decide, by decide, by decide, by decide, by decide, by decide, by decide,
    by decide⟩

/-! ## Calls on a store that is not open -/

/-- On a store whose base address is null (never opened, or init failed)
    every operation fails with its error code and leaves the object as it
    was. -/
theorem calls_on_null_store_fail (b : Buffer) (w : World) (sys : Sys) (data out_data : List Byte)
    (offset whence : Int) (off n : Nat) (hb : b.m_buffer = nullptr) :
    b.write w sys data = some { val := 0, buf := b, os := { w with errno := EBADF } }
      ∧ b.clear w sys = { val := false, buf := b, os := { w with errno := EBADF } }
      ∧ b.reserve w sys n = { val := false, buf := b, os := { w with errno := EBADF } }
      ∧ b.flush w sys = { val := false, buf := b, os := { w with errno := EPERM } }
      ∧ b.copy w out_data off n
          = some { val := (false, out_data), buf := b, os := { w with errno := EBADF } }
      ∧ b.seek w offset whence = { val := EOF, buf := b, os := { w with errno := EBADF } } := by
  refine ⟨?_, ?_, ?_, ?_, ?_, ?_⟩
  · unfold write; rw [if_pos hb]
  · unfold clear; rw [if_pos hb]
  · unfold reserve; rw [if_pos hb]
  · unfold flush; rw [if_neg (by simp [hb])]
  · unfold copy; rw [if_pos hb]
  · unfold seek; rw [if_pos hb]

/-- C16, the code at a failing input: on the store closed by
    release(CACHE_CLOSE_NOOPT) (is_open() false, mapping gone, m_buffer still
    set) seek(0, SEEK_SET) returns 0 instead of EOF, clear returns true and
    zeroes size(), reserve(5000) overwrites m_buffer and size() before it
    fails, and write and copy hand the stale address to memcpy, a fault. -/
theorem calls_after_release_do_not_fail :
    (released.buf.is_open released.os).1 = false ∧ released.os.map = none
      ∧ (released.buf.seek released.os 0 SEEK_SET).val = 0
      ∧ (released.buf.clear released.os allOk).val = true
      ∧ (released.buf.clear released.os allOk).buf.size = 0 ∧ released.buf.size = 4096
      ∧ (released.buf.reserve released.os allOk 5000).val = false
      ∧ (released.buf.reserve released.os allOk 5000).buf.m_buffer = MAP_FAILED
      ∧ (released.buf.reserve released.os allOk 5000).buf.size = 5000
      ∧ (released.buf.write released.os allOk [1]).isNone = true
      ∧ (released.buf.copy released.os [0] 0 1).isNone = true :=
  ⟨by decide, by decide, by decide, by decide, by decide, by decide, by decide, by decide,
    by decide, by decide, by decide⟩

/-! ## Growth -/

/-- C19: on an open store at position P with mapped size M, a successful
    write of N bytes leaves size() at P + N if P + N > M and at M otherwise. -/
theorem write_grows_to_exact_fit (b : Buffer) (w : World) (sys : Sys) (data : List Byte)
    (hopen : OpenStore b w) (hovf : b.tell + data.length < SIZE_MOD)
    (hgrow : b.size < b.tell + data.length → GrowthSucceeds b w sys (b.tell + data.length)) :
    ∃ r, b.write w sys data = some r ∧ r.val = data.length
      ∧ r.buf.size = (if b.size < b.tell + data.length then b.tell + data.length else b.size) := by
  obtain ⟨_, r, _, hw, hval, _, _, hsize, _, _⟩ := write_result b w sys data hopen hovf hgrow
  refine ⟨r, hw, hval, ?_⟩
  rw [hsize]
  split <;> omega

/-- C19, at an instance: three bytes appended to the reopened four byte store,
    which grows from 4 to 7. -/
theorem write_grows_to_exact_fit_witness :
    ∃ r, reopened.buf.write reopened.os allOk [1, 2, 3] = some r
      ∧ r.val = [1, 2, (3 : Byte)].length
      ∧ r.buf.size = (if reopened.buf.size < reopened.buf.tell + [1, 2, (3 : Byte)].length
                      then reopened.buf.tell + [1, 2, (3 : Byte)].length else reopened.buf.size) :=
  write_grows_to_exact_fit reopened.buf reopened.os allOk [1, 2, 3]
    (by decide) (by decide) (by decide)

theorem sys_mremap_ne_null (w : World) (sys : Sys) (a o n : Nat) :
    (sys_mremap w sys a o n).1 ≠ nullptr := by
  unfold sys_mremap
  split
  · split
    · split
      · rename_i h
        exact h.2.1
      · simp [MAP_FAILED, nullptr]
    · simp [MAP_FAILED, nullptr]
  · simp [MAP_FAILED, nullptr]

theorem sys_mremap_frame (w : World) (sys : Sys) (a o n : Nat) :
    (sys_mremap w sys a o n).2.file = w.file ∧ (sys_mremap w sys a o n).2.fd = w.fd := by
  unfold sys_mremap
  split
  · split
    · split <;> exact ⟨rfl, rfl⟩
    · exact ⟨rfl, rfl⟩
  · exact ⟨rfl, rfl⟩

theorem sys_ftruncate_fd (w : World) (sys : Sys) (fd : Int) (len : Int) :
    (sys_ftruncate w sys fd len).2.fd = w.fd ∧ (sys_ftruncate w sys fd len).2.map = w.map := by
  unfold sys_ftruncate
  split
  · split
    · split
      · split <;> exact ⟨rfl, rfl⟩
      · exact ⟨rfl, rfl⟩
    · exact ⟨rfl, rfl⟩
  · exact ⟨rfl, rfl⟩

theorem sys_ftruncate_failed (w : World) (sys : Sys) (fd : Int) (len : Int)
    (h : (sys_ftruncate w sys fd len).1 ≠ 0) : (sys_ftruncate w sys fd len).2.file = w.file := by
  unfold sys_ftruncate at h ⊢
  split
  · split
    · split
      · split
        · rename_i h1 h2 h3
          simp [*] at h
        · rfl
      · rfl
    · rfl
  · rfl

theorem sys_ftruncate_ret (w : World) (sys : Sys) (fd : Int) (len : Int) :
    (sys_ftruncate w sys fd len).1 = 0 ∨ (sys_ftruncate w sys fd len).1 = -1 := by
  unfold sys_ftruncate
  split
  · split
    · split
      · split
        · exact Or.inl rfl
        · exact Or.inr rfl
      · exact Or.inr rfl
    · exact Or.inr rfl
  · exact Or.inr rfl

/-- The fields and the return value of a reserve on a store with a base
    address, in terms of the two system calls it makes. -/
theorem reserve_shape (b : Buffer) (w : World) (sys : Sys) (n : Nat)
    (hb : b.m_buffer ≠ nullptr) :
    (b.reserve w sys n).buf =
        { b with m_buffer := (sys_mremap w sys b.m_buffer b.m_buffer_size
                                (if n = 0 then b.m_buffer_size else n)).1,
                 m_buffer_size := if n = 0 then b.m_buffer_size else n }
      ∧ (b.reserve w sys n).os =
          (sys_ftruncate (sys_mremap w sys b.m_buffer b.m_buffer_size
              (if n = 0 then b.m_buffer_size else n)).2 sys b.m_fd
              (toOff (if n = 0 then b.m_buffer_size else n))).2
      ∧ ((b.reserve w sys n).val = true ↔
          (sys_ftruncate (sys_mremap w sys b.m_buffer b.m_buffer_size
              (if n = 0 then b.m_buffer_size else n)).2 sys b.m_fd
              (toOff (if n = 0 then b.m_buffer_size else n))).1 = 0) := by
  have hnn := sys_mremap_ne_null w sys b.m_buffer b.m_buffer_size
    (if n = 0 then b.m_buffer_size else n)
  have hret := sys_ftruncate_ret (sys_mremap w sys b.m_buffer b.m_buffer_size
      (if n = 0 then b.m_buffer_size else n)).2 sys b.m_fd
      (toOff (if n = 0 then b.m_buffer_size else n))
  unfold reserve
  simp only [if_neg hb, ne_eq, hnn, not_false_eq_true, if_true, decide_True, Bool.true_and,
    decide_eq_true_eq]
  refine ⟨trivial, trivial, ?_⟩
  rcases hret with h | h <;> simp [h]

/-- C20: on an open store, when a write needs growth (position + length >
    size()) and reserve fails, write returns 0 with errno ESPIPE, the bytes of
    the cache file (which the mapping shows) are as before, and tell() and
    buffer_watermark() are unchanged. -/
theorem failed_growth_aborts_write (b : Buffer) (w : World) (sys : Sys) (data : List Byte)
    (hopen : OpenStore b w) (hovf : b.tell + data.length < SIZE_MOD)
    (hneed : b.size < b.tell + data.length)
    (hfail : (b.reserve w sys (b.tell + data.length)).val = false) :
    ∃ r, b.write w sys data = some r ∧ r.val = 0 ∧ r.os.errno = ESPIPE
      ∧ r.os.file = w.file
      ∧ r.buf.tell = b.tell ∧ r.buf.buffer_watermark = b.buffer_watermark := by
  obtain ⟨hb, _⟩ := hopen.size_lt
  obtain ⟨hbuf, hos, hval⟩ := reserve_shape b w sys (b.tell + data.length) hb
  have hmod : (b.m_buffer_pos + data.length) % SIZE_MOD = b.m_buffer_pos + data.length :=
    Nat.mod_eq_of_lt hovf
  have hft : (sys_ftruncate (sys_mremap w sys b.m_buffer b.m_buffer_size
      (if b.tell + data.length = 0 then b.m_buffer_size else b.tell + data.length)).2 sys b.m_fd
      (toOff (if b.tell + data.length = 0 then b.m_buffer_size else b.tell + data.length))).1
      ≠ 0 := by
    intro h
    rw [hval.2 h] at hfail
    cases hfail
  have hfile : (b.reserve w sys (b.tell + data.length)).os.file = w.file := by
    rw [hos, sys_ftruncate_failed _ _ _ _ hft]
    exact (sys_mremap_frame _ _ _ _ _).1
  simp only [Buffer.tell, Buffer.size, Buffer.buffer_watermark] at *
  refine ⟨{ val := 0, buf := (b.reserve w sys (b.m_buffer_pos + data.length)).buf,
            os := { (b.reserve w sys (b.m_buffer_pos + data.length)).os with errno := ESPIPE } },
    ?_, rfl, rfl, hfile, ?_, ?_⟩
  · unfold write write_prepare reallocate
    simp [hb, hmod, Buffer.size, hneed, hfail]
  · rw [hbuf]
  · rw [hbuf]

/-- C20, at an instance: 5000 bytes short of room on the one page store, the
    ftruncate of the growth refused. -/
theorem failed_growth_aborts_write_witness :
    ∃ r, (tenWritten.buf.seek tenWritten.os 4090 SEEK_SET).buf.write tenWritten.os
            { allOk with ftruncate_ok := false } digits = some r
      ∧ r.val = 0 ∧ r.os.errno = ESPIPE
      ∧ r.os.file = tenWritten.os.file
      ∧ r.buf.tell = (tenWritten.buf.seek tenWritten.os 4090 SEEK_SET).buf.tell
      ∧ r.buf.buffer_watermark
          = (tenWritten.buf.seek tenWritten.os 4090 SEEK_SET).buf.buffer_watermark :=
  failed_growth_aborts_write (tenWritten.buf.seek tenWritten.os 4090 SEEK_SET).buf tenWritten.os
    { allOk with ftruncate_ok := false } digits (by decide) (by decide) (by decide) (by decide)

/-! ## The logical size against the mapped size -/

theorem write_prepare_watermark (b : Buffer) (w : World) (sys : Sys) (n : Nat)
    (hb : b.m_buffer ≠ nullptr) (hwm : b.buffer_watermark ≤ b.size) :
    (b.write_prepare w sys n).buf.buffer_watermark ≤ (b.write_prepare w sys n).buf.size := by
  obtain ⟨hbuf, _, _⟩ := reserve_shape b w sys ((b.m_buffer_pos + n) % SIZE_MOD) hb
  simp only [Buffer.buffer_watermark, Buffer.size] at *
  unfold write_prepare reallocate
  by_cases hg : (b.m_buffer_pos + n) % SIZE_MOD > b.size
  · have hne : (b.m_buffer_pos + n) % SIZE_MOD ≠ 0 := by omega
    simp only [Buffer.size] at hg
    simp only [hg, if_true, Buffer.size, hne, if_false] at hbuf ⊢
    cases hv : (b.reserve w sys ((b.m_buffer_pos + n) % SIZE_MOD)).val
    · simp only [Bool.not_false, if_true, Bool.false_eq_true, if_false, hbuf]
      omega
    · simp only [Bool.not_true, Bool.false_eq_true, if_false, if_true, hbuf]
      split <;> simp only [] <;> omega
  · simp only [hg, if_false, if_true]
    simp only [Buffer.size] at hg
    split
    · simp only []
      omega
    · omega

/-- A write never leaves the logical size above the mapped size. -/
theorem write_watermark (b : Buffer) (w : World) (sys : Sys) (data : List Byte) (r : Ret Nat)
    (hwm : b.buffer_watermark ≤ b.size) (hr : b.write w sys data = some r) :
    r.buf.buffer_watermark ≤ r.buf.size := by
  unfold write at hr
  by_cases hb : b.m_buffer = nullptr
  · rw [if_pos hb] at hr
    cases hr
    exact hwm
  · have hwp := write_prepare_watermark b w sys data.length hb hwm
    rw [if_neg hb] at hr
    simp only [] at hr
    split at hr
    · cases hr
      exact hwp
    · split at hr
      · cases hr
      · cases hr
        exact hwp

/-- A seek changes at most the position and errno. -/
theorem seek_frame (b : Buffer) (w : World) (offset whence : Int) :
    (∃ k, (b.seek w offset whence).buf = { b with m_buffer_pos := k })
      ∧ (b.seek w offset whence).os.file = w.file
      ∧ (b.seek w offset whence).os.fd = w.fd
      ∧ (b.seek w offset whence).os.map = w.map := by
  unfold seek
  split
  · exact ⟨⟨b.m_buffer_pos, rfl⟩, rfl, rfl, rfl⟩
  · split
    · exact ⟨⟨b.m_buffer_pos, rfl⟩, rfl, rfl, rfl⟩
    · split
      · exact ⟨⟨_, rfl⟩, rfl, rfl, rfl⟩
      · split
        · exact ⟨⟨b.m_buffer_pos, rfl⟩, rfl, rfl, rfl⟩
        · exact ⟨⟨_, rfl⟩, rfl, rfl, rfl⟩

/-- A copy that returns changes nothing but errno. -/
theorem copy_frame (b : Buffer) (w : World) (out_data : List Byte) (offset bufsize : Nat)
    (r : Ret (Bool × List Byte)) (hr : b.copy w out_data offset bufsize = some r) :
    r.buf = b ∧ r.os.file = w.file ∧ r.os.fd = w.fd ∧ r.os.map = w.map := by
  unfold copy at hr
  split at hr
  · cases hr
    exact ⟨rfl, rfl, rfl, rfl⟩
  · split at hr
    · split at hr
      · cases hr
      · cases hr
        exact ⟨rfl, rfl, rfl, rfl⟩
    · cases hr
      exact ⟨rfl, rfl, rfl, rfl⟩

/-- One call keeps buffer_watermark() <= size(), unless it is a reserve to a
    size below the logical size. -/
theorem step_keeps_watermark (b : Buffer) (w : World) (op : Op) (b2 : Buffer) (w2 : World)
    (hwm : b.buffer_watermark ≤ b.size) (hguard : keeps_content b w op = true)
    (hrun : op.run b w = some (b2, w2)) : b2.buffer_watermark ≤ b2.size := by
  cases op with
  | write sys data =>
    simp only [Op.run, Option.map_eq_some'] at hrun
    obtain ⟨r, hr, heq⟩ := hrun
    cases heq
    exact write_watermark b w sys data r hwm hr
  | seek offset whence =>
    simp only [Op.run, Option.some.injEq, Prod.mk.injEq] at hrun
    obtain ⟨⟨k, hk⟩, _⟩ := seek_frame b w offset whence
    rw [← hrun.1, hk]
    exact hwm
  | copy out_data offset bufsize =>
    simp only [Op.run, Option.map_eq_some'] at hrun
    obtain ⟨r, hr, heq⟩ := hrun
    cases heq
    rw [(copy_frame b w out_data offset bufsize r hr).1]
    exact hwm
  | flush sys =>
    simp only [Op.run, Option.some.injEq, Prod.mk.injEq] at hrun
    rw [← hrun.1, (flush_frame b w sys).1]
    exact hwm
  | clear sys =>
    simp only [Op.run, Option.some.injEq, Prod.mk.injEq] at hrun
    rw [← hrun.1]
    unfold clear
    split
    · exact hwm
    · simp only []
      split
      · split <;> exact Nat.le_refl _
      · exact Nat.le_refl _
  | reserve sys n =>
    simp only [Op.run, Option.some.injEq, Prod.mk.injEq] at hrun
    simp only [keeps_content, decide_eq_true_eq] at hguard
    rw [← hrun.1]
    by_cases hb : b.m_buffer = nullptr
    · unfold reserve
      rw [if_pos hb]
      exact hwm
    · rw [(reserve_shape b w sys n hb).1]
      simp only [Buffer.buffer_watermark, Buffer.size] at *
      split <;> omega

/-- Along a run none of whose calls is a reserve below the logical size,
    buffer_watermark() <= size() is kept. -/
theorem run_keeps_watermark (ops : List Op) :
    ∀ (b : Buffer) (w : World) (b2 : Buffer) (w2 : World),
      b.buffer_watermark ≤ b.size → ops_pass keeps_content b w ops = true →
      run_ops b w ops = some (b2, w2) → b2.buffer_watermark ≤ b2.size := by
  induction ops with
  | nil =>
    intro b w b2 w2 hwm _ hrun
    simp only [run_ops, Option.some.injEq, Prod.mk.injEq] at hrun
    rw [← hrun.1]
    exact hwm
  | cons op rest ih =>
    intro b w b2 w2 hwm hpass hrun
    unfold ops_pass at hpass
    unfold run_ops at hrun
    simp only [Bool.and_eq_true] at hpass
    cases hop : op.run b w with
    | none => simp [hop] at hrun
    | some s =>
      simp only [hop] at hrun hpass
      exact ih s.1 s.2 b2 w2 (step_keeps_watermark b w op s.1 s.2 hwm hpass.1 hop) hpass.2 hrun

/-- C17 as amended: buffer_watermark() <= size() holds after a successful init
    on a closed store and in every state reached from there by write, seek,
    copy, flush, clear and reserve calls, provided no reserve(n) asks for a
    size n with 0 < n < buffer_watermark(). -/
theorem watermark_within_mapped_size (b0 : Buffer) (w0 : World) (sys0 : Sys)
    (erase_cache : Bool) (ops : List Op) (b : Buffer) (w : World)
    (hclosed : (b0.is_open w0).1 = false)
    (hinit : (b0.init w0 sys0 erase_cache).val = true)
    (hpass : ops_pass keeps_content (b0.init w0 sys0 erase_cache).buf
                (b0.init w0 sys0 erase_cache).os ops = true)
    (hrun : run_ops (b0.init w0 sys0 erase_cache).buf (b0.init w0 sys0 erase_cache).os ops
              = some (b, w)) :
    (b0.init w0 sys0 erase_cache).buf.buffer_watermark ≤ (b0.init w0 sys0 erase_cache).buf.size
      ∧ b.buffer_watermark ≤ b.size := by
  obtain ⟨_, _, _, _, _, _, _, _, _, _, hcase⟩ := init_ok b0 w0 sys0 erase_cache hclosed hinit
  have h0 : (b0.init w0 sys0 erase_cache).buf.buffer_watermark
      ≤ (b0.init w0 sys0 erase_cache).buf.size := by
    rcases hcase with ⟨h, _⟩ | ⟨h, _⟩ <;> omega
  exact ⟨h0, run_keeps_watermark ops _ _ b w h0 hpass hrun⟩

/-- C17 as stated fails: on the one page store holding ten bytes, an open
    store with buffer_watermark() = 10 <= size() = 4096, reserve(5) succeeds
    and leaves size() == 5 below buffer_watermark() == 10. -/
theorem reserve_below_watermark_breaks_bound :
    OpenStore tenWritten.buf tenWritten.os
      ∧ tenWritten.buf.buffer_watermark ≤ tenWritten.buf.size
      ∧ (tenWritten.buf.reserve tenWritten.os allOk 5).val = true
      ∧ (tenWritten.buf.reserve tenWritten.os allOk 5).buf.buffer_watermark = 10
      ∧ (tenWritten.buf.reserve tenWritten.os allOk 5).buf.size = 5
      ∧ ¬ ((tenWritten.buf.reserve tenWritten.os allOk 5).buf.buffer_watermark
            ≤ (tenWritten.buf.reserve tenWritten.os allOk 5).buf.size) :=
  ⟨by decide, by decide, by decide, by decide, by decide, by decide⟩

/-- C17 as amended, at an instance: init on no file, then a write, a seek, a
    reserve(8192), a clear and another write. -/
theorem watermark_within_mapped_size_witness :
    (Buffer.construct.init noFile allOk false).buf.buffer_watermark
        ≤ (Buffer.construct.init noFile allOk false).buf.size
      ∧ ((run_ops (Buffer.construct.init noFile allOk false).buf
            (Buffer.construct.init noFile allOk false).os
            [Op.write allOk digits, Op.seek 5 SEEK_SET, Op.reserve allOk 8192, Op.clear allOk,
              Op.write allOk abc]).getD (Buffer.construct, noFile)).1.buffer_watermark
          ≤ ((run_ops (Buffer.construct.init noFile allOk false).buf
            (Buffer.construct.init noFile allOk false).os
            [Op.write allOk digits, Op.seek 5 SEEK_SET, Op.reserve allOk 8192, Op.clear allOk,
              Op.write allOk abc]).getD (Buffer.construct, noFile)).1.size :=
  watermark_within_mapped_size Buffer.construct noFile allOk false
    [Op.write allOk digits, Op.seek 5 SEEK_SET, Op.reserve allOk 8192, Op.clear allOk,
      Op.write allOk abc] _ _ (by decide) (by decide) (by decide) rfl

/-! ## The open state -/

/-- Being an open store depends on the object only through the base address,
    the descriptor and the mapped size, and on the operating system only
    through the file, the descriptor and the mapping. -/
theorem OpenExact.congr {b : Buffer} {w : World} (h : OpenExact b w) (b2 : Buffer) (w2 : World)
    (h1 : b2.m_buffer = b.m_buffer) (h2 : b2.m_fd = b.m_fd)
    (h3 : b2.m_buffer_size = b.m_buffer_size)
    (h4 : w2.file = w.file) (h5 : w2.fd = w.fd) (h6 : w2.map = w.map) : OpenExact b2 w2 := by
  obtain ⟨ho, hs, f, hf, hl⟩ := h
  refine ⟨?_, ?_, f, by rw [h4, hf], ?_⟩
  · unfold OpenStore at ho ⊢
    rw [h4, h5, h6, h1, h2, h3]
    exact ho
  · simp only [Buffer.size] at *
    omega
  · simp only [Buffer.size] at *
    omega

/-- A successful init on a closed store establishes the open state. -/
theorem init_open_exact (b0 : Buffer) (w0 : World) (sys : Sys) (erase_cache : Bool)
    (hclosed : (b0.is_open w0).1 = false) (hval : (b0.init w0 sys erase_cache).val = true)
    (hpage : sys.pagesize < OFF_HALF) (hfile : ∀ f, w0.file = some f → f.len < OFF_HALF) :
    OpenExact (b0.init w0 sys erase_cache).buf (b0.init w0 sys erase_cache).os := by
  obtain ⟨w2, v2, w3, hw2, hmf, hos, hbuf⟩ := init_sees b0 w0 sys erase_cache hclosed hval
  obtain ⟨ho, hr0, hv1, hv2, hne, hr1, hfd, hmap, hcase⟩ := map_file_ok _ _ _ _ _ hmf
  have hpre : (w2.file.getD FileData.empty).len < OFF_HALF := by
    rw [hw2]
    split
    · simp [FileData.empty, OFF_HALF]
    · cases hf : w0.file with
      | none => simp [FileData.empty, OFF_HALF]
      | some f => exact hfile f hf
  rw [hos, hbuf]
  rcases hcase with ⟨hd, hsz, _, hfile3⟩ | ⟨hd, hsz, hfile3⟩
  · have hps : sys.pagesize % SIZE_MOD = sys.pagesize :=
      Nat.mod_eq_of_lt (by simp only [SIZE_MOD, OFF_HALF] at *; omega)
    rw [hps] at hsz
    refine ⟨?_, ?_, _, hfile3, ?_⟩
    · unfold OpenStore
      simp only [hmap, hfile3, hv1, hv2, hfd, hsz, FileData.resize]
      refine ⟨hr0, trivial, by omega, trivial, Nat.le_refl _, ?_, ?_, ?_⟩
      · simp
      · rw [← hsz]; exact hr1
      · simpa using hpage
    · simp only [Buffer.size, hsz]
      omega
    · simp [Buffer.size, hsz, FileData.resize]
  · refine ⟨?_, ?_, _, hfile3, ?_⟩
    · unfold OpenStore
      simp only [hmap, hfile3, hv1, hv2, hfd, hsz]
      exact ⟨hr0, trivial, by omega, trivial, Nat.le_refl _, Nat.le_refl _,
        by rw [← hsz]; exact hr1, hpre⟩
    · simp only [Buffer.size]
      omega
    · simp only [Buffer.size, hsz]

theorem reserve_zero (b : Buffer) (w : World) (sys : Sys) (h : b.m_buffer_size ≠ 0) :
    b.reserve w sys 0 = b.reserve w sys b.m_buffer_size := by
  unfold reserve
  simp [h]

/-- A reserve whose two system calls go through keeps the open state. -/
theorem reserve_keeps_open_exact (b : Buffer) (w : World) (sys : Sys) (n : Nat)
    (h : OpenExact b w) (hn : n < SIZE_MOD)
    (hg : GrowthSucceeds b w sys (if n = 0 then b.size else n)) :
    OpenExact (b.reserve w sys n).buf (b.reserve w sys n).os := by
  obtain ⟨ho, hs, f, hf, hl⟩ := h
  obtain ⟨hb, hlt⟩ := ho.size_lt
  simp only [Buffer.size] at *
  have key : ∀ k, k ≠ 0 → k < SIZE_MOD → GrowthSucceeds b w sys k →
      OpenExact (b.reserve w sys k).buf (b.reserve w sys k).os := by
    intro k hk0 hk1 hgk
    obtain ⟨m2, f2, _, hf2, hklt, hr0, hr1, hwfd, hfd, hres⟩ :=
      reserve_of_growth b w sys k hb hk0 hk1 hgk
    rw [hres]
    refine ⟨?_, ?_, f2.resize k, rfl, rfl⟩
    · unfold OpenStore
      simp only []
      exact ⟨hr0, trivial, hfd, hwfd, Nat.le_refl _, Nat.le_refl _, hr1, hklt⟩
    · simp only [Buffer.size]
      omega
  by_cases hn0 : n = 0
  · subst hn0
    simp only [if_true] at hg
    rw [reserve_zero b w sys (by omega)]
    exact key _ (by omega) (by simp only [SIZE_MOD, OFF_HALF] at *; omega) hg
  · simp only [hn0, if_false] at hg
    exact key n hn0 hn hg

/-- One call that goes through keeps the open state. -/
theorem step_keeps_open_exact (b : Buffer) (w : World) (op : Op) (b2 : Buffer) (w2 : World)
    (h : OpenExact b w) (hguard : goes_through b w op = true)
    (hrun : op.run b w = some (b2, w2)) : OpenExact b2 w2 := by
  cases op with
  | write sys data =>
    simp only [Op.run, Option.map_eq_some'] at hrun
    obtain ⟨r, hr, heq⟩ := hrun
    cases heq
    simp only [goes_through, Bool.and_eq_true, decide_eq_true_eq] at hguard
    obtain ⟨hovf, hgrow⟩ := hguard
    obtain ⟨ho, hs, f, hf, hl⟩ := h
    obtain ⟨f2, r2, hf2, hw, _, _, _, hsize, _, hfile⟩ :=
      write_result b w sys data ho hovf hgrow
    rw [hr] at hw
    cases hw
    rw [hf] at hf2
    cases hf2
    refine ⟨write_keeps_open b w sys data ho hovf hgrow r hr, ?_, _, hfile, ?_⟩
    · rw [hsize]
      omega
    · rw [hsize]
      simp only [FileData.store]
      split
      · simp only [FileData.resize]
        omega
      · omega
  | seek offset whence =>
    simp only [Op.run, Option.some.injEq, Prod.mk.injEq] at hrun
    obtain ⟨⟨k, hk⟩, h4, h5, h6⟩ := seek_frame b w offset whence
    rw [← hrun.1, ← hrun.2]
    exact h.congr _ _ (by rw [hk]) (by rw [hk]) (by rw [hk]) h4 h5 h6
  | copy out_data offset bufsize =>
    simp only [Op.run, Option.map_eq_some'] at hrun
    obtain ⟨r, hr, heq⟩ := hrun
    cases heq
    obtain ⟨h1, h4, h5, h6⟩ := copy_frame b w out_data offset bufsize r hr
    exact h.congr _ _ (by rw [h1]) (by rw [h1]) (by rw [h1]) h4 h5 h6
  | flush sys =>
    simp only [Op.run, Option.some.injEq, Prod.mk.injEq] at hrun
    obtain ⟨h1, h4, h5, h6⟩ := flush_frame b w sys
    rw [← hrun.1, ← hrun.2]
    exact h.congr _ _ (by rw [h1]) (by rw [h1]) (by rw [h1]) h4 h5 h6
  | clear sys =>
    simp [goes_through] at hguard
  | reserve sys n =>
    simp only [Op.run, Option.some.injEq, Prod.mk.injEq] at hrun
    simp only [goes_through, Bool.and_eq_true, decide_eq_true_eq] at hguard
    rw [← hrun.1, ← hrun.2]
    exact reserve_keeps_open_exact b w sys n h hguard.1 hguard.2

/-- Along a run of calls that go through, none of them a clear, the open
    state is kept. -/
theorem run_keeps_open_exact (ops : List Op) :
    ∀ (b : Buffer) (w : World) (b2 : Buffer) (w2 : World),
      OpenExact b w → ops_pass goes_through b w ops = true →
      run_ops b w ops = some (b2, w2) → OpenExact b2 w2 := by
  induction ops with
  | nil =>
    intro b w b2 w2 h _ hrun
    simp only [run_ops, Option.some.injEq, Prod.mk.injEq] at hrun
    rw [← hrun.1, ← hrun.2]
    exact h
  | cons op rest ih =>
    intro b w b2 w2 h hpass hrun
    unfold ops_pass at hpass
    unfold run_ops at hrun
    simp only [Bool.and_eq_true] at hpass
    cases hop : op.run b w with
    | none => simp [hop] at hrun
    | some s =>
      simp only [hop] at hrun hpass
      exact ih s.1 s.2 b2 w2 (step_keeps_open_exact b w op s.1 s.2 h hpass.1 hop) hpass.2 hrun

/-- C18 as amended: in every state reached from a successful init on a closed
    store by write, seek, copy, flush and reserve calls whose system calls go
    through, with no clear among them, the descriptor is the open one, the
    base address is not null, size() is greater than 0 and the cache file is
    size() bytes long. -/
theorem open_state_without_clear (b0 : Buffer) (w0 : World) (sys0 : Sys)
    (erase_cache : Bool) (ops : List Op) (b : Buffer) (w : World)
    (hclosed : (b0.is_open w0).1 = false)
    (hinit : (b0.init w0 sys0 erase_cache).val = true)
    (hpage : sys0.pagesize < OFF_HALF)
    (hfile : ∀ f, w0.file = some f → f.len < OFF_HALF)
    (hpass : ops_pass goes_through (b0.init w0 sys0 erase_cache).buf
                (b0.init w0 sys0 erase_cache).os ops = true)
    (hrun : run_ops (b0.init w0 sys0 erase_cache).buf (b0.init w0 sys0 erase_cache).os ops
              = some (b, w)) :
    b.m_fd ≠ -1 ∧ w.fd = some b.m_fd ∧ b.m_buffer ≠ nullptr ∧ 0 < b.size
      ∧ ∃ f, w.file = some f ∧ f.len = b.size := by
  have h0 := init_open_exact b0 w0 sys0 erase_cache hclosed hinit hpage hfile
  obtain ⟨ho, hs, hf⟩ := run_keeps_open_exact ops _ _ b w h0 hpass hrun
  have hio := ho.is_open
  obtain ⟨hb, _⟩ := ho.size_lt
  unfold Buffer.is_open at hio
  by_cases hfd : b.m_fd ≠ -1
  · rw [if_pos hfd] at hio
    by_cases hw : w.fd = some b.m_fd
    · exact ⟨hfd, hw, hb, hs, hf⟩
    · rw [if_neg hw] at hio
      cases hio
  · rw [if_neg hfd] at hio
    cases hio

/-- C18 as stated fails: on the freshly opened one page store, clear returns
    true and leaves size() == 0 while the cache file is 4096 bytes long; the
    descriptor and the base address stay in place. -/
theorem clear_zeroes_mapped_size :
    fresh.val = true ∧ (Buffer.construct.is_open noFile).1 = false
      ∧ (fresh.buf.clear fresh.os allOk).val = true
      ∧ (fresh.buf.clear fresh.os allOk).buf.size = 0
      ∧ (fresh.buf.clear fresh.os allOk).os.file.map (fun f => f.len) = some 4096
      ∧ (fresh.buf.clear fresh.os allOk).buf.m_fd = 3
      ∧ (fresh.buf.clear fresh.os allOk).buf.m_buffer ≠ nullptr
      ∧ run_ops fresh.buf fresh.os [Op.clear allOk]
          = some ((fresh.buf.clear fresh.os allOk).buf, (fresh.buf.clear fresh.os allOk).os) :=
  ⟨by decide, by decide, by decide, by decide, by decide, by decide, by decide, rfl⟩

/-- A reserve whose ftruncate fails after the remap went through returns
    false with size() already set to the requested size: on the one page
    store reserve(8192) leaves size() == 8192 and the cache file 4096 bytes
    long. -/
theorem failed_reserve_desyncs_file :
    (tenWritten.buf.reserve tenWritten.os { allOk with ftruncate_ok := false } 8192).val = false
      ∧ (tenWritten.buf.reserve tenWritten.os { allOk with ftruncate_ok := false } 8192).buf.size
          = 8192
      ∧ (tenWritten.buf.reserve tenWritten.os { allOk with ftruncate_ok := false }
            8192).os.file.map (fun f => f.len) = some 4096 :=
  ⟨by decide, by decide, by decide⟩

/-- C18 as amended, at an instance: init on no file, then a write, a seek, a
    reserve(8192), a flush and a copy. -/
theorem open_state_without_clear_witness :
    ((run_ops (Buffer.construct.init noFile allOk false).buf
          (Buffer.construct.init noFile allOk false).os
          [Op.write allOk digits, Op.seek 5 SEEK_SET, Op.reserve allOk 8192, Op.flush allOk,
            Op.copy [0, 0] 3 2]).getD (Buffer.construct, noFile)).1.m_fd ≠ -1
      ∧ ((run_ops (Buffer.construct.init noFile allOk false).buf
          (Buffer.construct.init noFile allOk false).os
          [Op.write allOk digits, Op.seek 5 SEEK_SET, Op.reserve allOk 8192, Op.flush allOk,
            Op.copy [0, 0] 3 2]).getD (Buffer.construct, noFile)).2.fd
        = some ((run_ops (Buffer.construct.init noFile allOk false).buf
          (Buffer.construct.init noFile allOk false).os
          [Op.write allOk digits, Op.seek 5 SEEK_SET, Op.reserve allOk 8192, Op.flush allOk,
            Op.copy [0, 0] 3 2]).getD (Buffer.construct, noFile)).1.m_fd
      ∧ ((run_ops (Buffer.construct.init noFile allOk false).buf
          (Buffer.construct.init noFile allOk false).os
          [Op.write allOk digits, Op.seek 5 SEEK_SET, Op.reserve allOk 8192, Op.flush allOk,
            Op.copy [0, 0] 3 2]).getD (Buffer.construct, noFile)).1.m_buffer ≠ nullptr
      ∧ 0 < ((run_ops (Buffer.construct.init noFile allOk false).buf
          (Buffer.construct.init noFile allOk false).os
          [Op.write allOk digits, Op.seek 5 SEEK_SET, Op.reserve allOk 8192, Op.flush allOk,
            Op.copy [0, 0] 3 2]).getD (Buffer.construct, noFile)).1.size
      ∧ ∃ f, ((run_ops (Buffer.construct.init noFile allOk false).buf
          (Buffer.construct.init noFile allOk false).os
          [Op.write allOk digits, Op.seek 5 SEEK_SET, Op.reserve allOk 8192, Op.flush allOk,
            Op.copy [0, 0] 3 2]).getD (Buffer.construct, noFile)).2.file = some f
        ∧ f.len = ((run_ops (Buffer.construct.init noFile allOk false).buf
          (Buffer.construct.init noFile allOk false).os
          [Op.write allOk digits, Op.seek 5 SEEK_SET, Op.reserve allOk 8192, Op.flush allOk,
            Op.copy [0, 0] 3 2]).getD (Buffer.construct, noFile)).1.size :=
  open_state_without_clear Buffer.construct noFile allOk false
    [Op.write allOk digits, Op.seek 5 SEEK_SET, Op.reserve allOk 8192, Op.flush allOk,
      Op.copy [0, 0] 3 2] _ _ (by decide) (by decide) (by decide)
    (by intro f hf; cases hf) (by decide) rfl

/-! ## Buffer::reserve -/

/-- C21, the failing input: reserve(8192) on the one page store holding ten
    bytes, in an environment whose mremap fails with ENOMEM and whose
    ftruncate succeeds.  The mremap returns MAP_FAILED, yet reserve returns
    true, with MAP_FAILED as the base address, size() == 8192 and the
    mapping still one page long. -/
theorem reserve_reports_success_after_failed_remap :
    (sys_mremap tenWritten.os remapFails tenWritten.buf.m_buffer
        tenWritten.buf.m_buffer_size 8192).1 = MAP_FAILED
      ∧ (tenWritten.buf.reserve tenWritten.os remapFails 8192).val = true
      ∧ (tenWritten.buf.reserve tenWritten.os remapFails 8192).buf.m_buffer = MAP_FAILED
      ∧ (tenWritten.buf.reserve tenWritten.os remapFails 8192).buf.size = 8192
      ∧ (tenWritten.buf.reserve tenWritten.os remapFails 8192).os.map
          = some { base := 1048576, len := 4096 }
      ∧ (tenWritten.buf.reserve tenWritten.os remapFails 8192).os.errno = 12 :=
  ⟨by decide, by decide, by decide, by decide, by decide, by decide⟩

/-! ## Failing init -/

theorem is_open_frame (b : Buffer) (w : World) :
    (b.is_open w).2.file = w.file ∧ (b.is_open w).2.fd = w.fd ∧ (b.is_open w).2.map = w.map := by
  unfold Buffer.is_open
  split
  · split <;> exact ⟨rfl, rfl, rfl⟩
  · exact ⟨rfl, rfl, rfl⟩

theorem remove_file_map (w : World) (sys : Sys) : (remove_file w sys).2.map = w.map := by
  unfold remove_file sys_unlink
  cases hf : w.file with
  | none => simp
  | some f =>
    by_cases hu : sys.unlink_ok = true
    · simp [hu]
    · simp only [hu, Bool.false_eq_true, if_false]
      split <;> rfl

theorem sys_mktree_frame (w : World) (sys : Sys) :
    (sys_mktree w sys).2.file = w.file ∧ (sys_mktree w sys).2.fd = w.fd
      ∧ (sys_mktree w sys).2.map = w.map := by
  unfold sys_mktree
  split <;> exact ⟨rfl, rfl, rfl⟩

/-- What open leaves: the mapping as it was, and the descriptor it returned
    as the open one. -/
theorem sys_open_state (w : World) (sys : Sys) :
    (sys_open w sys).2.map = w.map
      ∧ ((sys_open w sys).1 = -1 → (sys_open w sys).2.fd = w.fd ∧ sys.open_ret < 0)
      ∧ ((sys_open w sys).1 ≠ -1 →
          (sys_open w sys).2.fd = some (sys_open w sys).1 ∧ 0 ≤ sys.open_ret
            ∧ (sys_open w sys).2.file = some (w.file.getD FileData.empty)) := by
  unfold sys_open
  by_cases ho : sys.open_ret < 0
  · simp [ho]
  · simp only [if_neg ho]
    refine ⟨trivial, fun h => ?_, fun _ => ⟨trivial, by omega, trivial⟩⟩
    omega

theorem sys_fstat_state (w : World) (sys : Sys) (fd : Int) :
    (sys_fstat w sys fd).2.map = w.map ∧ (sys_fstat w sys fd).2.fd = w.fd
      ∧ (sys_fstat w sys fd).2.file = w.file
      ∧ (∀ n, (sys_fstat w sys fd).1 = some n →
          sys.fstat_ok = true ∧ n = (w.file.getD FileData.empty).len) := by
  unfold sys_fstat
  cases hf : w.file with
  | none => simp
  | some f =>
    by_cases h1 : w.fd = some fd
    · by_cases h2 : sys.fstat_ok = true
      · simp [h1, h2, hf]
      · simp [h1, h2, hf]
    · simp [h1, hf]

theorem sys_ftruncate_ok (w : World) (sys : Sys) (fd : Int) (len : Int)
    (h : (sys_ftruncate w sys fd len).1 ≠ -1) : sys.ftruncate_ok = true := by
  unfold sys_ftruncate at h
  by_cases hok : sys.ftruncate_ok = true
  · exact hok
  · exfalso
    apply h
    split
    · split
      · split
        · simp [hok]
        · rfl
      · rfl
    · rfl

theorem sys_mmap_state (w : World) (sys : Sys) (length : Nat) (fd : Int) :
    (sys_mmap w sys length fd).2.fd = w.fd
      ∧ ((sys_mmap w sys length fd).1 = MAP_FAILED → (sys_mmap w sys length fd).2.map = w.map) := by
  unfold sys_mmap
  by_cases h1 : w.fd = some fd
  · by_cases h2 : length ≠ 0 ∧ sys.mmap_ret ≠ nullptr ∧ sys.mmap_ret + length < SIZE_MOD
    · simp only [if_pos h1, if_pos h2]
      refine ⟨trivial, fun h => ?_⟩
      exfalso
      have := h2.2.2
      simp only [SIZE_MOD, MAP_FAILED] at *
      omega
    · simp only [if_pos h1, if_neg h2]
      exact ⟨trivial, fun _ => trivial⟩
  · simp only [if_neg h1]
    exact ⟨trivial, fun _ => trivial⟩

/-- The catch block of map_file leaves the mapping alone and closes the
    descriptor it is handed. -/
theorem map_file_catch_state (v : MapVars) (w : World) :
    (map_file_catch v w).2.2.map = w.map
      ∧ (v.fd = -1 → (map_file_catch v w).2.2.fd = w.fd)
      ∧ (w.fd = some v.fd → v.fd ≠ -1 → (map_file_catch v w).2.2.fd = none) := by
  unfold map_file_catch sys_close
  by_cases h : v.fd = -1
  · simp [h]
  · simp only [ne_eq, h, not_false_eq_true, if_true]
    refine ⟨?_, fun h2 => ?_, ?_⟩
    · split <;> rfl
    · exact absurd h2 (by simp)
    · intro h2 _
      simp [h2]

/-- A failing last step of map_file closes the descriptor and adds no
    mapping. -/
theorem map_file_mmap_failed (w : World) (sys : Sys) (v : MapVars) (hfd : w.fd = some v.fd)
    (hne : v.fd ≠ -1) (h : (map_file_mmap w sys v).1 = false) :
    (map_file_mmap w sys v).2.2.map = w.map ∧ (map_file_mmap w sys v).2.2.fd = none := by
  obtain ⟨h1, h2⟩ := sys_mmap_state w sys v.filesize v.fd
  unfold map_file_mmap at h ⊢
  by_cases hm : (sys_mmap w sys v.filesize v.fd).1 = MAP_FAILED
  · simp only [hm, if_true]
    obtain ⟨c1, _, c3⟩ := map_file_catch_state { v with p := MAP_FAILED }
      (sys_mmap w sys v.filesize v.fd).2
    exact ⟨c1.trans (h2 hm), c3 (h1.trans hfd) hne⟩
  · simp [hm] at h

/-- The two outcomes of a map_file entered with no descriptor: when it fails
    it has added no mapping and left no descriptor of its own open; when it
    succeeds every call it made has succeeded. -/
theorem map_file_outcome (w : World) (sys : Sys) (v : MapVars) (hv : v.isdefaultsize = false) :
    ((map_file w sys v 0).1 = false →
        (map_file w sys v 0).2.2.map = w.map
          ∧ ((map_file w sys v 0).2.2.fd = none ∨ (map_file w sys v 0).2.2.fd = w.fd))
      ∧ ((map_file w sys v 0).1 = true →
          0 ≤ sys.open_ret ∧ sys.fstat_ok = true ∧ sys.is_reg = true
            ∧ ((w.file.getD FileData.empty).len = 0 → sys.ftruncate_ok = true)
            ∧ sys.mmap_ret ≠ nullptr) := by
  obtain ⟨om, o1, o2⟩ := sys_open_state w sys
  unfold map_file
  by_cases ho : (sys_open w sys).1 = -1
  · simp only [ho, if_true]
    obtain ⟨c1, c2, _⟩ := map_file_catch_state { v with fd := -1 } (sys_open w sys).2
    refine ⟨fun _ => ⟨c1.trans om, Or.inr ((c2 rfl).trans (o1 ho).1)⟩, fun h => ?_⟩
    rw [map_file_catch_fails] at h
    cases h
  · obtain ⟨ofd, ho0, ofile⟩ := o2 ho
    simp only [ho, if_false]
    obtain ⟨sm, sfd, sfile, sn⟩ := sys_fstat_state (sys_open w sys).2 sys (sys_open w sys).1
    generalize sys_fstat (sys_open w sys).2 sys (sys_open w sys).1 = fs at sm sfd sfile sn
    obtain ⟨st, w2⟩ := fs
    simp only at sm sfd sfile sn
    have hw2fd : w2.fd = some (sys_open w sys).1 := sfd.trans ofd
    have hw2m : w2.map = w.map := sm.trans om
    cases st with
    | none =>
      simp only
      obtain ⟨c1, _, c3⟩ := map_file_catch_state { v with fd := (sys_open w sys).1 } w2
      refine ⟨fun _ => ⟨c1.trans hw2m, Or.inl (c3 hw2fd ho)⟩, fun h => ?_⟩
      rw [map_file_catch_fails] at h
      cases h
    | some n =>
      obtain ⟨hfs, hn⟩ := sn n rfl
      rw [ofile] at hn
      simp only [Option.getD_some] at hn
      simp only
      by_cases hreg : sys.is_reg = true
      · simp only [hreg, Bool.not_true, Bool.false_eq_true, if_false, hv, or_false]
        by_cases hz : n = 0
        · simp only [hz, if_true]
          obtain ⟨tfd, tm⟩ := sys_ftruncate_fd w2 sys (sys_open w sys).1 (sys.pagesize : Int)
          by_cases hft : (sys_ftruncate w2 sys (sys_open w sys).1 (sys.pagesize : Int)).1 = -1
          · simp only [hft, if_true]
            obtain ⟨c1, _, c3⟩ := map_file_catch_state
              { fd := (sys_open w sys).1, p := v.p, filesize := v.filesize, isdefaultsize := false }
              (sys_ftruncate w2 sys (sys_open w sys).1 (sys.pagesize : Int)).2
            refine ⟨fun _ => ⟨c1.trans (tm.trans hw2m), Or.inl (c3 (tfd.trans hw2fd) ho)⟩,
              fun h => ?_⟩
            rw [map_file_catch_fails] at h
            cases h
          · simp only [hft, if_false]
            refine ⟨fun h => ?_, fun h => ?_⟩
            · obtain ⟨m1, m2⟩ := map_file_mmap_failed _ sys _ (tfd.trans hw2fd) ho h
              exact ⟨m1.trans (tm.trans hw2m), Or.inl m2⟩
            · obtain ⟨_, _, hmm, _⟩ := map_file_mmap_ok _ _ _ h
              exact ⟨ho0, hfs, trivial, fun _ => sys_ftruncate_ok _ _ _ _ hft, hmm⟩
        · simp only [hz, if_false]
          refine ⟨fun h => ?_, fun h => ?_⟩
          · obtain ⟨m1, m2⟩ := map_file_mmap_failed _ sys _ hw2fd ho h
            exact ⟨m1.trans hw2m, Or.inl m2⟩
          · obtain ⟨_, _, hmm, _⟩ := map_file_mmap_ok _ _ _ h
            exact ⟨ho0, hfs, trivial, fun h0 => absurd (hn.trans h0) hz, hmm⟩
      · simp only [hreg, Bool.not_false, if_true]
        obtain ⟨c1, _, c3⟩ := map_file_catch_state { v with fd := (sys_open w sys).1 } w2
        refine ⟨fun _ => ⟨c1.trans hw2m, Or.inl (c3 hw2fd ho)⟩, fun h => ?_⟩
        rw [map_file_catch_fails] at h
        cases h

/-- The two outcomes of an init on a closed store: when it fails the fields
    are those of a constructed object, no mapping was added and no descriptor
    of its own is left open; when it succeeds none of its calls has failed. -/
theorem init_outcome (b0 : Buffer) (w0 : World) (sys : Sys) (erase_cache : Bool)
    (hclosed : (b0.is_open w0).1 = false) :
    ((b0.init w0 sys erase_cache).val = false →
        (b0.init w0 sys erase_cache).buf = Buffer.construct
          ∧ (b0.init w0 sys erase_cache).os.map = w0.map
          ∧ ((b0.init w0 sys erase_cache).os.fd = none
              ∨ (b0.init w0 sys erase_cache).os.fd = w0.fd))
      ∧ ((b0.init w0 sys erase_cache).val = true → ¬ InitCallFails w0 sys erase_cache) := by
  obtain ⟨i1, i2, i3⟩ := is_open_frame b0 w0
  obtain ⟨k1, k2, k3⟩ := sys_mktree_frame (b0.is_open w0).2 sys
  unfold init
  simp only [hclosed, Bool.false_eq_true, if_false]
  by_cases hsd : sys.strdup_ok = true
  · simp only [hsd, Bool.not_true, Bool.false_eq_true, if_false]
    by_cases hmk : (sys_mktree (b0.is_open w0).2 sys).1 ≠ 0
        ∧ (sys_mktree (b0.is_open w0).2 sys).2.errno ≠ EEXIST
    · simp only [hmk, ne_eq, not_false_eq_true, and_self, if_true]
      exact ⟨fun _ => ⟨rfl, k3.trans i3, Or.inr (k2.trans i2)⟩, fun h => by cases h⟩
    · simp only [hmk, if_false]
      generalize hw2 : (if erase_cache = true then _ else _ : World) = w2
      have hw2fd : w2.fd = w0.fd := by
        subst hw2
        split
        · exact (remove_file_fd _ sys).trans (k2.trans i2)
        · exact k2.trans i2
      have hw2m : w2.map = w0.map := by
        subst hw2
        split
        · exact (remove_file_map _ sys).trans (k3.trans i3)
        · exact k3.trans i3
      have hw2f : (w2.file.getD FileData.empty).len = found_size w0 sys erase_cache := by
        subst hw2
        unfold found_size
        split
        · simp only [remove_file_file, k1, i1]
        · simp only [k1, i1]
      obtain ⟨mfail, mok⟩ := map_file_outcome w2 sys
        { fd := -1, p := nullptr, filesize := 0, isdefaultsize := false } rfl
      generalize map_file w2 sys { fd := -1, p := nullptr, filesize := 0, isdefaultsize := false }
        0 = mf at mfail mok
      obtain ⟨ok, v2, w3⟩ := mf
      cases ok
      · simp only [Bool.not_false, if_true]
        obtain ⟨m1, m2⟩ := mfail rfl
        refine ⟨fun _ => ⟨rfl, m1.trans hw2m, ?_⟩, fun h => by cases h⟩
        rcases m2 with m2 | m2
        · exact Or.inl m2
        · exact Or.inr (m2.trans hw2fd)
      · simp only [Bool.not_true, Bool.false_eq_true, if_false]
        constructor
        · intro h
          cases h
        intro _ hfail
        obtain ⟨c1, c2, c3, c4, c5⟩ := mok rfl
        rcases hfail with ⟨e, he, hne⟩ | h | h | h | ⟨h, h2⟩ | h
        · apply hmk
          unfold sys_mktree
          simp only [he, ne_eq]
          exact ⟨by decide, hne⟩
        · omega
        · rw [c2] at h
          cases h
        · rw [c3] at h
          cases h
        · rw [c4 (hw2f.trans h)] at h2
          cases h2
        · exact c5 h
  · simp only [hsd, Bool.not_false, if_true]
    exact ⟨fun _ => ⟨rfl, i3, Or.inr i2⟩, fun h => by cases h⟩

/-- C22: when one of the calls of an init on a closed store fails (mktree,
    open, fstat, the regular file test, the ftruncate of an empty file, mmap),
    init returns false with every field as in a constructed object (descriptor
    -1, base address null, position, logical size and mapped size 0); the
    process holds no mapping it did not hold before, and the descriptor init
    opened, if any, is closed again. -/
theorem init_fails_atomically (b0 : Buffer) (w0 : World) (sys : Sys) (erase_cache : Bool)
    (hclosed : (b0.is_open w0).1 = false) (hfail : InitCallFails w0 sys erase_cache) :
    (b0.init w0 sys erase_cache).val = false
      ∧ (b0.init w0 sys erase_cache).buf = Buffer.construct
      ∧ (b0.init w0 sys erase_cache).os.map = w0.map
      ∧ ((b0.init w0 sys erase_cache).os.fd = none
          ∨ (b0.init w0 sys erase_cache).os.fd = w0.fd) := by
  obtain ⟨hf, ht⟩ := init_outcome b0 w0 sys erase_cache hclosed
  have hval : (b0.init w0 sys erase_cache).val = false := by
    cases h : (b0.init w0 sys erase_cache).val
    · rfl
    · exact absurd hfail (ht h)
  exact ⟨hval, hf hval⟩

/-- C22, at an instance: init(true) on a constructed object whose fstat fails
    after the open succeeded. -/
theorem init_fails_atomically_witness :
    (Buffer.construct.init smallFile statFails true).val = false
      ∧ (Buffer.construct.init smallFile statFails true).buf = Buffer.construct
      ∧ (Buffer.construct.init smallFile statFails true).os.map = smallFile.map
      ∧ ((Buffer.construct.init smallFile statFails true).os.fd = none
          ∨ (Buffer.construct.init smallFile statFails true).os.fd = smallFile.fd) :=
  init_fails_atomically Buffer.construct smallFile statFails true (by decide)
    (Or.inr (Or.inr (Or.inl rfl)))

/-! ## Calls that find the store in the other state -/

theorem is_open_true (b : Buffer) (w : World) (h : (b.is_open w).1 = true) :
    b.is_open w = (true, w) := by
  unfold Buffer.is_open at h ⊢
  split
  · split
    · rfl
    · rename_i h1 h2
      simp [h1, h2] at h
  · rename_i h1
    simp [h1] at h

/-- C23: init on a store that is open returns true and changes nothing,
    whatever erase_cache is: the fields (descriptor, base address, position,
    logical size, mapped size) and the operating system state (cache file,
    descriptor, mapping) are the ones before the call. -/
theorem init_on_open_store_changes_nothing (b : Buffer) (w : World) (sys : Sys)
    (erase_cache : Bool) (hopen : (b.is_open w).1 = true) :
    (b.init w sys erase_cache).val = true ∧ (b.init w sys erase_cache).buf = b
      ∧ (b.init w sys erase_cache).os = w := by
  have h := is_open_true b w hopen
  unfold init
  simp only [h, if_true]
  exact ⟨trivial, trivial, trivial⟩

/-- C23, at an instance: init(true) on the one page store holding ten bytes. -/
theorem init_on_open_store_changes_nothing_witness :
    (tenWritten.buf.is_open tenWritten.os).1 = true
      ∧ (tenWritten.buf.init tenWritten.os allOk true).val = true
      ∧ (tenWritten.buf.init tenWritten.os allOk true).buf = tenWritten.buf
      ∧ (tenWritten.buf.init tenWritten.os allOk true).os = tenWritten.os :=
  ⟨by decide, init_on_open_store_changes_nothing tenWritten.buf tenWritten.os allOk true
    (by decide)⟩

theorem sys_munmap_ret (w : World) (sys : Sys) (addr length : Nat) :
    (sys_munmap w sys addr length).1 ≠ -1 ↔ length ≠ 0 ∧ sys.munmap_ok = true := by
  unfold sys_munmap
  by_cases h0 : length = 0
  · simp [h0]
  · by_cases hok : sys.munmap_ok = true
    · simp only [h0, hok, if_false, Bool.not_true, Bool.false_eq_true]
      split
      · split <;> simp [h0]
      · simp [h0]
    · simp [h0, hok]

/-- The value unmap_file returns when it is handed a mapped address and the
    open descriptor. -/
theorem unmap_file_val (w : World) (sys : Sys) (v : UnmapVars) (f : FileData)
    (hf : w.file = some f) (hfd : w.fd = some v.fd) (hne : v.fd ≠ -1)
    (hW : v.filesize < OFF_HALF) (hp : v.p ≠ nullptr) :
    (unmap_file w sys v).1 = true ↔
      (sys.munmap_ok = true ∧ (v.filesize = 0 → sys.pagesize % SIZE_MOD ≠ 0))
        ∧ (v.filesize ≠ 0 → sys.ftruncate_ok = true)
        ∧ (v.filesize = 0 → sys.unlink_ok = true) := by
  have hfr := sys_munmap_frame w sys v.p
    (if v.filesize ≠ 0 then v.filesize else sys.pagesize % SIZE_MOD)
  have hret := sys_munmap_ret w sys v.p
    (if v.filesize ≠ 0 then v.filesize else sys.pagesize % SIZE_MOD)
  unfold unmap_file
  simp only [hne, hp, ne_eq, not_false_eq_true, if_true]
  simp only [ne_eq] at hfr hret
  generalize sys_munmap w sys v.p
    (if ¬ v.filesize = 0 then v.filesize else sys.pagesize % SIZE_MOD) = r at hfr hret
  obtain ⟨hrf, hrfd⟩ := hfr
  rw [hf] at hrf
  rw [hfd] at hrfd
  by_cases hz : v.filesize = 0
  · simp only [hz, not_true_eq_false, if_false] at hret ⊢
    simp only [sys_unlink, sys_close, hrfd, if_true, hrf, Bool.and_eq_true, decide_eq_true_eq]
    by_cases hu : sys.unlink_ok = true
    · simp [hu, hret, and_comm]
    · simp [hu]
  · simp only [hz, not_false_eq_true, if_true] at hret ⊢
    simp only [sys_ftruncate, hrf, hrfd, toOff_of_lt hW, Bool.and_eq_true, decide_eq_true_eq]
    by_cases hu : sys.ftruncate_ok = true
    · simp [hu, hret, hne]
    · simp [hu, hne]

/-- C25 as amended: on an open store with logical size W, release returns
    true exactly when the munmap succeeds (a munmap of length 0 is refused)
    and then, for W > 0, the ftruncate to W succeeds or, for W == 0, the unlink
    of the empty file succeeds; the result of the flush (msync) and of the
    unlink requested by the delete flag do not enter the returned value. -/
theorem release_reports_unmap_failures (b : Buffer) (w : World) (sys : Sys) (flags : Nat)
    (hopen : OpenStore b w) (hW : b.buffer_watermark < OFF_HALF) :
    (b.release w sys flags).val = true ↔
      (sys.munmap_ok = true ∧ (b.buffer_watermark = 0 → sys.pagesize % SIZE_MOD ≠ 0))
        ∧ (b.buffer_watermark ≠ 0 → sys.ftruncate_ok = true)
        ∧ (b.buffer_watermark = 0 → sys.unlink_ok = true) := by
  have hio := hopen.is_open
  unfold OpenStore at hopen
  cases hm : w.map with
  | none => simp [hm] at hopen
  | some m =>
  cases hf : w.file with
  | none => simp [hm, hf] at hopen
  | some f =>
  simp only [hm, hf] at hopen
  obtain ⟨hb, hbase, hfd, hwfd, hlen, hflen, haddr, hoff⟩ := hopen
  obtain ⟨_, hff, hffd, _⟩ := flush_frame b w sys
  have hv := unmap_file_val (b.flush w sys).os sys
    { fd := b.m_fd, p := b.m_buffer, filesize := b.m_buffer_watermark,
      buffer_pos := some b.m_buffer_pos } f (hff.trans hf) (hffd.trans hwfd) hfd hW hb
  unfold release
  simp only [hio, Bool.not_true, Bool.false_eq_true, if_false]
  exact hv

/-- C25 as stated fails: on the one page store holding ten bytes, a release
    whose msync fails (flush returns false) returns true, and so does a
    release with the delete flag whose unlink is refused (remove_file returns
    false on the state unmap_file left). -/
theorem release_hides_flush_and_delete_failures :
    OpenStore tenWritten.buf tenWritten.os
      ∧ (tenWritten.buf.flush tenWritten.os syncFails).val = false
      ∧ (tenWritten.buf.release tenWritten.os syncFails CACHE_CLOSE_NOOPT).val = true
      ∧ (remove_file (tenWritten.buf.release tenWritten.os unlinkDenied CACHE_CLOSE_NOOPT).os
            unlinkDenied).1 = false
      ∧ (tenWritten.buf.release tenWritten.os unlinkDenied CACHE_CLOSE_DELETE).val = true :=
  ⟨by decide, by decide, by decide, by decide, by decide⟩

/-- C25 as amended, at an instance: release with the delete flag on the one
    page store holding ten bytes, the msync failing. -/
theorem release_reports_unmap_failures_witness :
    (tenWritten.buf.release tenWritten.os syncFails CACHE_CLOSE_DELETE).val = true ↔
      (syncFails.munmap_ok = true
          ∧ (tenWritten.buf.buffer_watermark = 0 → syncFails.pagesize % SIZE_MOD ≠ 0))
        ∧ (tenWritten.buf.buffer_watermark ≠ 0 → syncFails.ftruncate_ok = true)
        ∧ (tenWritten.buf.buffer_watermark = 0 → syncFails.unlink_ok = true) :=
  release_reports_unmap_failures tenWritten.buf tenWritten.os syncFails CACHE_CLOSE_DELETE
    (by decide) (by decide)

/-! ## Buffer::clear -/

/-- What a successful clear leaves of an open store. -/
theorem clear_effect (b : Buffer) (w : World) (sys : Sys) (hopen : OpenStore b w)
    (hclear : (b.clear w sys).val = true) :
    ∃ f, w.file = some f
      ∧ (b.clear w sys).buf =
          { b with m_buffer_pos := 0, m_buffer_watermark := 0, m_buffer_size := 0 }
      ∧ (b.clear w sys).os.file = some (f.resize sys.pagesize)
      ∧ (b.clear w sys).os.fd = w.fd ∧ (b.clear w sys).os.map = w.map := by
  unfold OpenStore at hopen
  cases hm : w.map with
  | none => simp [hm] at hopen
  | some m =>
  cases hf : w.file with
  | none => simp [hm, hf] at hopen
  | some f =>
  simp only [hm, hf] at hopen
  obtain ⟨hb, hbase, hfd, hwfd, hlen, hflen, haddr, hoff⟩ := hopen
  refine ⟨f, rfl, ?_⟩
  unfold clear sys_ftruncate at hclear ⊢
  by_cases hok : sys.ftruncate_ok = true
  · simp [hb, hfd, hf, hwfd, hok, hm]
  · simp [hb, hfd, hf, hwfd, hok] at hclear

/-- A successful clear leaves an open store. -/
theorem clear_keeps_open (b : Buffer) (w : World) (sys : Sys) (hopen : OpenStore b w)
    (hclear : (b.clear w sys).val = true) (hpage : sys.pagesize < OFF_HALF) :
    OpenStore (b.clear w sys).buf (b.clear w sys).os := by
  obtain ⟨f, hf, hbuf, hfile, hfd, hmap⟩ := clear_effect b w sys hopen hclear
  unfold OpenStore at hopen ⊢
  cases hm : w.map with
  | none => simp [hm] at hopen
  | some m =>
  simp only [hm, hf] at hopen
  obtain ⟨hb, hbase, hfd2, hwfd, hlen, hflen, haddr, hoff⟩ := hopen
  simp only [hmap, hm, hfile, hbuf, hfd, FileData.resize]
  exact ⟨hb, hbase, hfd2, hwfd, Nat.zero_le _, Nat.zero_le _, haddr, hpage⟩

/-- C26: a successful clear of an open store leaves tell(),
    buffer_watermark() and size() at 0, the cache file exactly one page long,
    and the descriptor, the base address and the mapping as they were; a
    write of N bytes that follows, with its growth going through when N > 0,
    returns N and leaves buffer_watermark() == N, and copy(dest, 0, N) then
    reads the bytes written. -/
theorem clear_resets_and_keeps_open (b : Buffer) (w : World) (sys sys2 : Sys)
    (data out_data : List Byte) (hopen : OpenStore b w) (hclear : (b.clear w sys).val = true)
    (hpage : sys.pagesize < OFF_HALF) (hlen : data.length < SIZE_MOD)
    (hgrow : 0 < data.length →
      GrowthSucceeds (b.clear w sys).buf (b.clear w sys).os sys2 data.length)
    (hroom : data.length ≤ out_data.length) :
    (b.clear w sys).buf.tell = 0 ∧ (b.clear w sys).buf.buffer_watermark = 0
      ∧ (b.clear w sys).buf.size = 0
      ∧ (∃ f, (b.clear w sys).os.file = some f ∧ f.len = sys.pagesize)
      ∧ (b.clear w sys).buf.m_fd = b.m_fd ∧ (b.clear w sys).buf.m_buffer = b.m_buffer
      ∧ (b.clear w sys).os.fd = w.fd ∧ (b.clear w sys).os.map = w.map
      ∧ ∃ r c, (b.clear w sys).buf.write (b.clear w sys).os sys2 data = some r
          ∧ r.val = data.length ∧ r.buf.buffer_watermark = data.length
          ∧ r.buf.copy r.os out_data 0 data.length = some c
          ∧ c.val.1 = true ∧ c.val.2.take data.length = data := by
  obtain ⟨f, hf, hbuf, hfile, hfd, hmap⟩ := clear_effect b w sys hopen hclear
  have hopen2 := clear_keeps_open b w sys hopen hclear hpage
  generalize hb2 : (b.clear w sys).buf = b2 at *
  generalize hw2 : (b.clear w sys).os = w2 at *
  have ht : b2.tell = 0 := by rw [hbuf]; rfl
  have hs : b2.size = 0 := by rw [hbuf]; rfl
  have hwm : b2.buffer_watermark = 0 := by rw [hbuf]; rfl
  have hovf : b2.tell + data.length < SIZE_MOD := by rw [ht]; omega
  have hgrow2 : b2.size < b2.tell + data.length →
      GrowthSucceeds b2 w2 sys2 (b2.tell + data.length) := by
    intro h
    rw [ht, Nat.zero_add] at h ⊢
    rw [hs] at h
    exact hgrow h
  obtain ⟨f2, r, hf2, hw, hval, _, hwm2, hsize, _, hfile2⟩ :=
    write_result b2 w2 sys2 data hopen2 hovf hgrow2
  have hopen3 := write_keeps_open b2 w2 sys2 data hopen2 hovf hgrow2 r hw
  obtain ⟨f3, c, hf3, hc, hc1, hc2, _, _⟩ := copy_in_range r.buf r.os out_data 0 data.length
    hopen3 (by rw [hsize, ht]; omega) hroom
  refine ⟨ht, hwm, hs, ⟨_, hfile, rfl⟩, by rw [hbuf], by rw [hbuf], hfd, hmap,
    r, c, hw, hval, by rw [hwm2, hwm, ht]; omega, hc, hc1, ?_⟩
  rw [hfile2, ht] at hf3
  cases hf3
  rw [hc2, FileData.read_store]
  simp

/-- C26, at an instance: the one page store holding ten bytes is cleared and
    "ABC" is written. -/
theorem clear_resets_and_keeps_open_witness :
    (tenWritten.buf.clear tenWritten.os allOk).buf.tell = 0
      ∧ (tenWritten.buf.clear tenWritten.os allOk).buf.buffer_watermark = 0
      ∧ (tenWritten.buf.clear tenWritten.os allOk).buf.size = 0
      ∧ (∃ f, (tenWritten.buf.clear tenWritten.os allOk).os.file = some f
          ∧ f.len = allOk.pagesize)
      ∧ (tenWritten.buf.clear tenWritten.os allOk).buf.m_fd = tenWritten.buf.m_fd
      ∧ (tenWritten.buf.clear tenWritten.os allOk).buf.m_buffer = tenWritten.buf.m_buffer
      ∧ (tenWritten.buf.clear tenWritten.os allOk).os.fd = tenWritten.os.fd
      ∧ (tenWritten.buf.clear tenWritten.os allOk).os.map = tenWritten.os.map
      ∧ ∃ r c, (tenWritten.buf.clear tenWritten.os allOk).buf.write
            (tenWritten.buf.clear tenWritten.os allOk).os allOk abc = some r
          ∧ r.val = abc.length ∧ r.buf.buffer_watermark = abc.length
          ∧ r.buf.copy r.os [0, 0, 0] 0 abc.length = some c
          ∧ c.val.1 = true ∧ c.val.2.take abc.length = abc :=
  clear_resets_and_keeps_open tenWritten.buf tenWritten.os allOk allOk abc [0, 0, 0]
    (by decide) (by decide) (by decide) (by decide) (by decide) (by decide)

/-! ## Calls that only read -/

/-- C27: copy, whenever it returns (with true or false), and flush, with
    either result, leave the fields of the store (position, logical size,
    mapped size, descriptor, base address) and the descriptor, the mapping
    and the cache file of the process as they were; this holds for every
    store, open or not, and all arguments. -/
theorem copy_and_flush_change_no_state (b : Buffer) (w : World) (sys : Sys)
    (out_data : List Byte) (offset bufsize : Nat) (r : Ret (Bool × List Byte))
    (hr : b.copy w out_data offset bufsize = some r) :
    (r.buf = b ∧ r.os.fd = w.fd ∧ r.os.map = w.map ∧ r.os.file = w.file)
      ∧ ((b.flush w sys).buf = b ∧ (b.flush w sys).os.fd = w.fd
          ∧ (b.flush w sys).os.map = w.map ∧ (b.flush w sys).os.file = w.file) := by
  obtain ⟨c1, c2, c3, c4⟩ := copy_frame b w out_data offset bufsize r hr
  obtain ⟨f1, f2, f3, f4⟩ := flush_frame b w sys
  exact ⟨⟨c1, c3, c4, c2⟩, ⟨f1, f3, f4, f2⟩⟩

/-- C27, at an instance: on the one page store holding ten bytes,
    copy(dest, 0, 3) reaches its memcpy and returns true with "012" in dest,
    and flush reaches its msync, which fails; the store is as before. -/
theorem copy_and_flush_change_no_state_witness :
    OpenStore tenWritten.buf tenWritten.os
      ∧ (tenWritten.buf.flush tenWritten.os syncFails).val = false
      ∧ (tenWritten.buf.flush tenWritten.os syncFails).os.errno = 5
      ∧ (tenWritten.buf.flush tenWritten.os allOk).val = true
      ∧ ∃ r, tenWritten.buf.copy tenWritten.os [255, 255, 255] 0 3 = some r
        ∧ r.val = (true, [48, 49, 50])
        ∧ (r.buf = tenWritten.buf ∧ r.os.fd = tenWritten.os.fd ∧ r.os.map = tenWritten.os.map
            ∧ r.os.file = tenWritten.os.file)
        ∧ ((tenWritten.buf.flush tenWritten.os syncFails).buf = tenWritten.buf
            ∧ (tenWritten.buf.flush tenWritten.os syncFails).os.fd = tenWritten.os.fd
            ∧ (tenWritten.buf.flush tenWritten.os syncFails).os.map = tenWritten.os.map
            ∧ (tenWritten.buf.flush tenWritten.os syncFails).os.file = tenWritten.os.file) :=
  ⟨by decide, by decide, by decide, by decide, _, rfl, by decide,
    copy_and_flush_change_no_state tenWritten.buf tenWritten.os syncFails [255, 255, 255] 0 3 _
      rfl⟩

/-- The frame of copy and flush on a store that is not open: copy returns
    false with EBADF, flush returns false with EPERM, and a constructed
    object is left as it was. -/
theorem copy_and_flush_on_closed_store :
    (Buffer.construct.copy noFile [255] 0 1).map (fun r => (r.val, r.buf, r.os.errno))
        = some ((false, [255]), Buffer.construct, EBADF)
      ∧ (Buffer.construct.flush noFile allOk).val = false
      ∧ (Buffer.construct.flush noFile allOk).buf = Buffer.construct
      ∧ (Buffer.construct.flush noFile allOk).os.errno = EPERM :=
  ⟨by decide, by decide, by decide, by decide⟩

/-! ## The range copy hands to memcpy -/

/-- At offset == size() every request for at least one byte is cut to
    size() - offset - 1, which wraps to SIZE_MAX. -/
theorem copy_bufsize_at_end (b : Buffer) (bufsize : Nat) (h0 : 0 < bufsize)
    (h1 : b.size + bufsize < SIZE_MOD) :
    b.copy_bufsize b.size bufsize = SIZE_MOD - 1 := by
  unfold copy_bufsize
  rw [Nat.mod_eq_of_lt h1, if_pos (by omega), Nat.sub_self, Nat.zero_add]
  exact Nat.mod_eq_of_lt (by simp only [SIZE_MOD]; omega)

/-- C29, the failing inputs: on the store reopened on a four byte file
    (size() == 4), copy(dest, 4, 1) passes the test size() >= offset and
    cuts the length to size() - offset - 1, which wraps to 2^64 - 1;
    copy(dest, 1, 2^64 - 1) has offset + length wrap to 0 and keeps its
    length.  In both calls the range handed to memcpy ends behind size() and
    the memcpy leaves the mapping; the first also exceeds the requested
    length, and the vector overload runs into it as well. -/
theorem copy_hands_memcpy_a_range_past_the_mapping :
    OpenStore reopened.buf reopened.os ∧ reopened.buf.size = 4
      ∧ reopened.os.map = some { base := 1048576, len := 4 }
      ∧ reopened.buf.copy_bufsize 4 1 = 18446744073709551615
      ∧ ¬ (4 + reopened.buf.copy_bufsize 4 1 ≤ reopened.buf.size)
      ∧ ¬ (reopened.buf.copy_bufsize 4 1 ≤ 1)
      ∧ (reopened.buf.copy reopened.os [0] 4 1).isNone = true
      ∧ (reopened.buf.copy_vector reopened.os [0] 4).isNone = true
      ∧ reopened.buf.copy_bufsize 1 18446744073709551615 = 18446744073709551615
      ∧ ¬ (1 + reopened.buf.copy_bufsize 1 18446744073709551615 ≤ reopened.buf.size)
      ∧ (reopened.buf.copy reopened.os [0] 1 18446744073709551615).isNone = true :=
  ⟨by decide, by decide, by decide, by decide, by decide, by decide, by decide, by decide,
    by decide, by decide, by decide⟩

/-! ## Buffer::make_cachefile_name -/

/-- C28: with a helper transcoder_cache_path that stores the cache root,
    make_cachefile_name(out, filename, fileext) returns
    cache_root ++ mount_path ++ filename ++ ".cache." ++ fileext whatever out
    held, so two calls with the same cache root, mount path, filename and
    extension return the same path. -/
theorem make_cachefile_name_is_pure (cache_root m_mountpath out out2 filename fileext : String) :
    make_cachefile_name (configured_cache_path cache_root) m_mountpath out filename fileext
        = cache_root ++ m_mountpath ++ filename ++ ".cache." ++ fileext
      ∧ make_cachefile_name (configured_cache_path cache_root) m_mountpath out filename fileext
          = make_cachefile_name (configured_cache_path cache_root) m_mountpath out2 filename
              fileext :=
  ⟨rfl, rfl⟩

/-- Two lists that agree after a separator was put behind prefixes free of
    its first character are built from the same prefix and the same rest. -/
theorem append_separator_cancel (x : Char) (t : List Char) :
    ∀ (a c b d : List Char), x ∉ a → x ∉ c →
      a ++ (x :: t) ++ b = c ++ (x :: t) ++ d → a = c ∧ b = d := by
  intro a
  induction a with
  | nil =>
    intro c b d _ hc h
    cases c with
    | nil =>
      simp only [List.nil_append, List.cons_append, List.cons.injEq, true_and] at h
      exact ⟨rfl, List.append_cancel_left h⟩
    | cons y c =>
      simp only [List.nil_append, List.cons_append, List.cons.injEq] at h
      exact absurd (h.1 ▸ List.mem_cons_self _ _) hc
  | cons y a ih =>
    intro c b d ha hc h
    cases c with
    | nil =>
      simp only [List.nil_append, List.cons_append, List.cons.injEq] at h
      exact absurd (h.1 ▸ List.mem_cons_self _ _) ha
    | cons z c =>
      simp only [List.cons_append, List.cons.injEq] at h
      obtain ⟨hyz, hrest⟩ := h
      have := ih c b d (fun hm => ha (List.mem_cons_of_mem _ hm))
        (fun hm => hc (List.mem_cons_of_mem _ hm)) (by simpa using hrest)
      exact ⟨by rw [hyz, this.1], this.2⟩

/-- C30: for one mount path and a helper that leaves the same cache root in
    both incoming strings, two calls of make_cachefile_name whose filenames
    contain no '.' return the same path only if the filenames are equal and
    the extensions are equal (nothing is asked of the extensions). -/
theorem make_cachefile_name_injective (transcoder_cache_path : String → String)
    (m_mountpath c1 c2 f1 e1 f2 e2 : String)
    (hroot : transcoder_cache_path c1 = transcoder_cache_path c2)
    (h1 : '.' ∉ f1.toList) (h2 : '.' ∉ f2.toList)
    (heq : make_cachefile_name transcoder_cache_path m_mountpath c1 f1 e1
            = make_cachefile_name transcoder_cache_path m_mountpath c2 f2 e2) :
    f1 = f2 ∧ e1 = e2 := by
  unfold make_cachefile_name at heq
  rw [hroot] at heq
  have hd := congrArg String.toList heq
  simp only [String.toList, String.data_append, List.append_assoc] at hd
  have hd2 := List.append_cancel_left (List.append_cancel_left hd)
  have := append_separator_cancel '.' ['c', 'a', 'c', 'h', 'e', '.'] f1.data f2.data e1.data
    e2.data h1 h2
    (by simpa using hd2)
  exact ⟨String.ext this.1, String.ext this.2⟩

/-- C30, at an instance: the key ("song", "mp3") named twice, into an empty
    string and into one that holds an old path. -/
theorem make_cachefile_name_injective_witness :
    '.' ∉ "song".toList ∧ '.' ∉ "song".toList
      ∧ make_cachefile_name (configured_cache_path "/var/cache/ffmpegfs/") "/mnt" "" "song" "mp3"
          = make_cachefile_name (configured_cache_path "/var/cache/ffmpegfs/") "/mnt" "/old"
              "song" "mp3"
      ∧ ("song" = "song" ∧ "mp3" = "mp3") :=
  ⟨by decide, by decide, rfl,
    make_cachefile_name_injective (configured_cache_path "/var/cache/ffmpegfs/") "/mnt" "" "/old"
      "song" "mp3" "song" "mp3" rfl (by decide) (by decide) rfl⟩

end Ffmpegfs
